import Mathlib

/-!
# libCat: the Dragonbox digit printer (`ftoa_dragonbox.cpp`), `Result` and string.h

A shallow embedding of `cat::detail::dragonbox::to_chars_detail` (namespace `Dragonbox`), of
`Result` (result.hpp) and of the string-length and memory-copy routines of string.h
(namespace `Cat`), and proofs about them.

* Unsigned machine integers are natural numbers reduced modulo `2 ^ w` at every operation
  whose C++ type is `w` bits wide (`u16`, `u32`, `u64`).
* `int` values are integers and the printers compute the exponent in ℤ. Signed overflow is
  undefined in C++: `is_int` and `checked_int` enforce the range of `int` where a statement
  depends on it; the decimal exponents of the other statements have magnitude below 1000.
* The counter of the scalar string-length loop has the range of its integer type `T`.
* The caller's buffer is a memory (address ↦ byte) together with the list of the
  addresses stored to; a `char*` is an address.
* Reading a constant array outside its bounds is undefined behaviour: the embedding
  returns `none` there, so `= some _` also states that no such read happens.
-/

namespace Dragonbox

/-! ## Machine model -/

/-- `uint2::raw_type(x)`: the low 16 bits. -/
def u16 (x : Nat) : Nat := x % 2 ^ 16

/-- `uint4::raw_type(x)`: the low 32 bits. -/
def u32 (x : Nat) : Nat := x % 2 ^ 32

/-- `uint8::raw_type(x)`: the low 64 bits. -/
def u64 (x : Nat) : Nat := x % 2 ^ 64

/-- `uint4::raw_type(x)` of an `int` x: reduction modulo `2 ^ 32`. -/
def u32_of_int (x : Int) : Nat := (x % 2 ^ 32).toNat

/-- `int(x)` of an unsigned x: the low 32 bits read as two's complement. -/
def to_int (x : Nat) : Int :=
  if x % 2 ^ 32 < 2 ^ 31 then ((x % 2 ^ 32 : Nat) : Int) else ((x % 2 ^ 32 : Nat) : Int) - 2 ^ 32

/-- `char(x)` of an unsigned x: the byte that is stored. -/
def char_of_nat (x : Nat) : Nat := x % 256

/-- `char(x)` of an `int` x: the byte that is stored. -/
def char_of_int (x : Int) : Nat := (x % 256).toNat

/-- Caller memory: the byte at every address, and the addresses stored to (latest first). -/
structure Buffer where
  mem : Nat → Nat
  written : List Nat

/-- The store `p[0] = v` at address `a`. -/
def Buffer.store (b : Buffer) (a : Nat) (v : Nat) : Buffer :=
  { mem := fun x => if x = a then v else b.mem x, written := a :: b.written }

/-- Element `i` of a constant character array; `none` outside the array. -/
def read_at (arr : List Char) (i : Int) : Option Nat :=
  if i < 0 then none else (arr.get? i.toNat).map Char.toNat

/-- Modelled from the spec: `copy_memory_small(source, destination, n)` of `<cat/memory>`,
which is not among the sources. It copies `n` bytes, here from element `off` of the
constant array `src` to address `dst`, in ascending order. -/
def copy_memory_small (src : List Char) (off : Int) (dst : Nat) : Nat → Buffer → Option Buffer
  | 0, b => some b
  | n + 1, b =>
    match read_at src off with
    | none => none
    | some c => copy_memory_small src (off + 1) (dst + 1) n (b.store dst c)

/-! ## The source -/

/-- The table `radix_100_table`: the two ASCII digits of 0..99. -/
def radix_100_table : List Char := [
  '0', '0', '0', '1', '0', '2', '0', '3', '0', '4',
  '0', '5', '0', '6', '0', '7', '0', '8', '0', '9',
  '1', '0', '1', '1', '1', '2', '1', '3', '1', '4',
  '1', '5', '1', '6', '1', '7', '1', '8', '1', '9',
  '2', '0', '2', '1', '2', '2', '2', '3', '2', '4',
  '2', '5', '2', '6', '2', '7', '2', '8', '2', '9',
  '3', '0', '3', '1', '3', '2', '3', '3', '3', '4',
  '3', '5', '3', '6', '3', '7', '3', '8', '3', '9',
  '4', '0', '4', '1', '4', '2', '4', '3', '4', '4',
  '4', '5', '4', '6', '4', '7', '4', '8', '4', '9',
  '5', '0', '5', '1', '5', '2', '5', '3', '5', '4',
  '5', '5', '5', '6', '5', '7', '5', '8', '5', '9',
  '6', '0', '6', '1', '6', '2', '6', '3', '6', '4',
  '6', '5', '6', '6', '6', '7', '6', '8', '6', '9',
  '7', '0', '7', '1', '7', '2', '7', '3', '7', '4',
  '7', '5', '7', '6', '7', '7', '7', '8', '7', '9',
  '8', '0', '8', '1', '8', '2', '8', '3', '8', '4',
  '8', '5', '8', '6', '8', '7', '8', '8', '8', '9',
  '9', '0', '9', '1', '9', '2', '9', '3', '9', '4',
  '9', '5', '9', '6', '9', '7', '9', '8', '9', '9']

/-- The string literal `"E-"` with its terminator. -/
def E_minus : List Char := ['E', '-', '\x00']

/-- The function `print_9_digits(s32, exponent, buffer)`: the result is the updated
exponent, the advanced buffer pointer and the memory. The exponent is computed in ℤ; the
range of `int` is enforced on a run by `checked_int`. -/
def print_9_digits (s32 : Nat) (exponent : Int) (buffer : Nat) (b : Buffer) :
    Option (Int × Nat × Buffer) :=
  if s32 < 100 then
    if s32 < 10 then
      -- 1 digit.
      let b := b.store (buffer + 0) (char_of_nat (u32 ('0'.toNat + s32)))
      some (exponent, buffer + 1, b)
    else
      -- 2 digits.
      match read_at radix_100_table (to_int s32 * 2) with
      | none => none
      | some c0 =>
        let b := b.store (buffer + 0) c0
        let b := b.store (buffer + 1) '.'.toNat
        match read_at radix_100_table (to_int s32 * 2 + 1) with
        | none => none
        | some c2 =>
          let b := b.store (buffer + 2) c2
          some (exponent + 1, buffer + 3, b)
  else
    if s32 < 1000000 then
      if s32 < 10000 then
        -- 3 or 4 digits. 42949673 = ceil(2^32 / 100)
        let prod := u64 (s32 * 42949673)
        let two_digits := to_int (prod >>> 32)
        if two_digits < 10 then
          -- 3 digits.
          let b := b.store (buffer + 0) (char_of_int (two_digits + '0'.toNat))
          let b := b.store (buffer + 1) '.'.toNat
          let prod := u64 (u32 prod * 100)
          match copy_memory_small radix_100_table (to_int (prod >>> 32) * 2) (buffer + 2) 2 b with
          | none => none
          | some b => some (exponent + 2, buffer + 4, b)
        else
          -- 4 digits.
          match read_at radix_100_table (two_digits * 2) with
          | none => none
          | some c0 =>
            let b := b.store (buffer + 0) c0
            let b := b.store (buffer + 1) '.'.toNat
            match read_at radix_100_table (two_digits * 2 + 1) with
            | none => none
            | some c2 =>
              let b := b.store (buffer + 2) c2
              let prod := u64 (u32 prod * 100)
              match copy_memory_small radix_100_table (to_int (prod >>> 32) * 2)
                  (buffer + 3) 2 b with
              | none => none
              | some b => some (exponent + 3, buffer + 5, b)
      else
        -- 5 or 6 digits. 429497 = ceil(2^32 / 1'0000)
        let prod := u64 (s32 * 429497)
        let two_digits := to_int (prod >>> 32)
        if two_digits < 10 then
          -- 5 digits.
          let b := b.store (buffer + 0) (char_of_int (two_digits + '0'.toNat))
          let b := b.store (buffer + 1) '.'.toNat
          let prod := u64 (u32 prod * 100)
          match copy_memory_small radix_100_table (to_int (prod >>> 32) * 2) (buffer + 2) 2 b with
          | none => none
          | some b =>
            let prod := u64 (u32 prod * 100)
            match copy_memory_small radix_100_table (to_int (prod >>> 32) * 2)
                (buffer + 4) 2 b with
            | none => none
            | some b => some (exponent + 4, buffer + 6, b)
        else
          -- 6 digits.
          match read_at radix_100_table (two_digits * 2) with
          | none => none
          | some c0 =>
            let b := b.store (buffer + 0) c0
            let b := b.store (buffer + 1) '.'.toNat
            match read_at radix_100_table (two_digits * 2 + 1) with
            | none => none
            | some c2 =>
              let b := b.store (buffer + 2) c2
              let prod := u64 (u32 prod * 100)
              match copy_memory_small radix_100_table (to_int (prod >>> 32) * 2)
                  (buffer + 3) 2 b with
              | none => none
              | some b =>
                let prod := u64 (u32 prod * 100)
                match copy_memory_small radix_100_table (to_int (prod >>> 32) * 2)
                    (buffer + 5) 2 b with
                | none => none
                | some b => some (exponent + 5, buffer + 7, b)
    else
      if s32 < 100000000 then
        -- 7 or 8 digits. 281474978 = ceil(2^48 / 100'0000) + 1
        let prod := u64 (s32 * 281474978)
        let prod := prod >>> 16
        let two_digits := to_int (prod >>> 32)
        if two_digits < 10 then
          -- 7 digits.
          let b := b.store (buffer + 0) (char_of_int (two_digits + '0'.toNat))
          let b := b.store (buffer + 1) '.'.toNat
          let prod := u64 (u32 prod * 100)
          match copy_memory_small radix_100_table (to_int (prod >>> 32) * 2) (buffer + 2) 2 b with
          | none => none
          | some b =>
            let prod := u64 (u32 prod * 100)
            match copy_memory_small radix_100_table (to_int (prod >>> 32) * 2)
                (buffer + 4) 2 b with
            | none => none
            | some b =>
              let prod := u64 (u32 prod * 100)
              match copy_memory_small radix_100_table (to_int (prod >>> 32) * 2)
                  (buffer + 6) 2 b with
              | none => none
              | some b => some (exponent + 6, buffer + 8, b)
        else
          -- 8 digits.
          match read_at radix_100_table (two_digits * 2) with
          | none => none
          | some c0 =>
            let b := b.store (buffer + 0) c0
            let b := b.store (buffer + 1) '.'.toNat
            match read_at radix_100_table (two_digits * 2 + 1) with
            | none => none
            | some c2 =>
              let b := b.store (buffer + 2) c2
              let prod := u64 (u32 prod * 100)
              match copy_memory_small radix_100_table (to_int (prod >>> 32) * 2)
                  (buffer + 3) 2 b with
              | none => none
              | some b =>
                let prod := u64 (u32 prod * 100)
                match copy_memory_small radix_100_table (to_int (prod >>> 32) * 2)
                    (buffer + 5) 2 b with
                | none => none
                | some b =>
                  let prod := u64 (u32 prod * 100)
                  match copy_memory_small radix_100_table (to_int (prod >>> 32) * 2)
                      (buffer + 7) 2 b with
                  | none => none
                  | some b => some (exponent + 7, buffer + 9, b)
      else
        -- 9 digits. 1441151882 = ceil(2^57 / 1'0000'0000) + 1
        let prod := u64 (s32 * 1441151882)
        let prod := prod >>> 25
        let b := b.store (buffer + 0) (char_of_int (to_int (prod >>> 32) + '0'.toNat))
        let b := b.store (buffer + 1) '.'.toNat
        let prod := u64 (u32 prod * 100)
        match copy_memory_small radix_100_table (to_int (prod >>> 32) * 2) (buffer + 2) 2 b with
        | none => none
        | some b =>
          let prod := u64 (u32 prod * 100)
          match copy_memory_small radix_100_table (to_int (prod >>> 32) * 2) (buffer + 4) 2 b with
          | none => none
          | some b =>
            let prod := u64 (u32 prod * 100)
            match copy_memory_small radix_100_table (to_int (prod >>> 32) * 2)
                (buffer + 6) 2 b with
            | none => none
            | some b =>
              let prod := u64 (u32 prod * 100)
              match copy_memory_small radix_100_table (to_int (prod >>> 32) * 2)
                  (buffer + 8) 2 b with
              | none => none
              | some b => some (exponent + 8, buffer + 10, b)

/-- The block `// Print exponent and return` of `to_chars<float, …>` (the statements after
`print_9_digits`), as a function of the exponent, pointer and memory reaching it: the
result is the returned pointer and the memory. -/
def print_exponent_float (exponent : Int) (buffer : Nat) (b : Buffer) : Option (Nat × Buffer) :=
  match (if exponent < 0 then
      match copy_memory_small E_minus 0 buffer 2 b with
      | none => none
      | some b => some (-exponent, buffer + 2, b)
    else
      some (exponent, buffer + 1, b.store (buffer + 0) 'E'.toNat)) with
  | none => none
  | some (exponent, buffer, b) =>
    if exponent ≥ 10 then
      match copy_memory_small radix_100_table (exponent * 2) buffer 2 b with
      | none => none
      | some b => some (buffer + 2, b)
    else
      some (buffer + 1, b.store (buffer + 0) (char_of_int ('0'.toNat + exponent)))

/-- The specialisation `to_chars<float, default_float_traits<float>>(s32, exponent, buffer)`:
the result is the returned pointer and the memory. -/
def to_chars_float (s32 : Nat) (exponent : Int) (buffer : Nat) (b : Buffer) :
    Option (Nat × Buffer) :=
  -- Print significand.
  match print_9_digits s32 exponent buffer b with
  | none => none
  | some (exponent, buffer, b) =>
    -- Print exponent and return
    print_exponent_float exponent buffer b

/-- The block `// Print exponent and return` of `to_chars<double, …>` (the statements after
the second block), as a function of the exponent, pointer and memory reaching it: the
result is the returned pointer and the memory. -/
def print_exponent_double (exponent : Int) (buffer : Nat) (b : Buffer) : Option (Nat × Buffer) :=
  match (if exponent < 0 then
      match copy_memory_small E_minus 0 buffer 2 b with
      | none => none
      | some b => some (-exponent, buffer + 2, b)
    else
      some (exponent, buffer + 1, b.store (buffer + 0) 'E'.toNat)) with
  | none => none
  | some (exponent, buffer, b) =>
    if exponent ≥ 100 then
      -- d1 = exponent / 10; d2 = exponent % 10; 6554 = ceil(2^16 / 10)
      let prod := u32 (u32_of_int exponent * 6554)
      let d1 := prod >>> 16
      let prod := u32 (u16 prod * 5)
      let d2 := prod >>> 15
      match copy_memory_small radix_100_table ((u32 (d1 * 2) : Nat) : Int) buffer 2 b with
      | none => none
      | some b => some (buffer + 3, b.store (buffer + 2) (char_of_nat (u32 ('0'.toNat + d2))))
    else if exponent ≥ 10 then
      match copy_memory_small radix_100_table (exponent * 2) buffer 2 b with
      | none => none
      | some b => some (buffer + 2, b)
    else
      some (buffer + 1, b.store (buffer + 0) (char_of_int ('0'.toNat + exponent)))

/-- The specialisation `to_chars<double, default_float_traits<double>>(significand, exponent,
buffer)`: the result is the returned pointer and the memory. The exponent is computed in ℤ;
the range of `int` is enforced on the part before the exponent block by `checked_int`. -/
def to_chars_double (significand : Nat) (exponent : Int) (buffer : Nat) (b : Buffer) :
    Option (Nat × Buffer) :=
  let first_block : Nat :=
    if significand < 1000000000 then u32 significand else u32 (significand / 100000000)
  let second_block : Nat :=
    if significand < 1000000000 then 0
    else u32 (u32 significand + 2 ^ 32 - u32 (first_block * 100000000))
  let have_second_block : Bool := if significand < 1000000000 then false else true
  -- Print the first block of significand.
  match print_9_digits first_block exponent buffer b with
  | none => none
  | some (exponent, buffer, b) =>
    -- Print second block if necessary.
    match (if have_second_block then
        -- 281474978 = ceil(2^48 / 100'0000) + 1
        let prod := u64 (second_block * 281474978)
        let prod := prod >>> 16
        let prod := u64 (prod + 1)
        match copy_memory_small radix_100_table (to_int (prod >>> 32) * 2) (buffer + 0) 2 b with
        | none => none
        | some b =>
          let prod := u64 (u32 prod * 100)
          match copy_memory_small radix_100_table (to_int (prod >>> 32) * 2) (buffer + 2) 2 b with
          | none => none
          | some b =>
            let prod := u64 (u32 prod * 100)
            match copy_memory_small radix_100_table (to_int (prod >>> 32) * 2)
                (buffer + 4) 2 b with
            | none => none
            | some b =>
              let prod := u64 (u32 prod * 100)
              match copy_memory_small radix_100_table (to_int (prod >>> 32) * 2)
                  (buffer + 6) 2 b with
              | none => none
              | some b => some (exponent + 8, buffer + 8, b)
      else
        some (exponent, buffer, b)) with
    | none => none
    | some (exponent, buffer, b) =>
      -- Print exponent and return
      print_exponent_double exponent buffer b

/-! ## Specification vocabulary -/

/-- The bytes at addresses `p, p + 1, …, p + n - 1`. -/
def readBytes (m : Nat → Nat) (p : Nat) : Nat → List Nat
  | 0 => []
  | n + 1 => m p :: readBytes m (p + 1) n

/-- Storing a list of bytes at consecutive addresses from `p` on. -/
def Buffer.writeBytes (b : Buffer) (p : Nat) : List Nat → Buffer
  | [] => b
  | c :: cs => (b.store p c).writeBytes (p + 1) cs

/-- ASCII decimal digits of `n`, most significant first (empty for 0). -/
def decimalBytes (n : Nat) : List Nat := (Nat.digits 10 n).reverse.map (fun d => 48 + d)

/-- Number of decimal digits of `n`. -/
def digitCount (n : Nat) : Nat := (Nat.digits 10 n).length

/-- A `.` placed after the first character, if more characters follow. -/
def insertPoint : List Nat → List Nat
  | [] => []
  | d :: [] => [d]
  | d :: r => d :: 46 :: r

/-- The significand as text: leading digit, then `.` and the other digits if there are any. -/
def significandText (s : Nat) : List Nat := insertPoint (decimalBytes s)

/-- ASCII decimal representation of `n` without leading zeros (`"0"` for 0). -/
def natText (n : Nat) : List Nat := if n = 0 then [48] else decimalBytes n

/-- The exponent suffix: `E`, a `-` for a negative exponent, the digits of the magnitude. -/
def exponentText (x : Int) : List Nat :=
  69 :: ((if x < 0 then [45] else []) ++ natText x.natAbs)

/-- The full scientific-notation text of `s × 10 ^ e`. -/
def sciText (s : Nat) (e : Int) : List Nat :=
  significandText s ++ exponentText (e + ((digitCount s : Nat) : Int) - 1)

/-- The bytes a string stands for. -/
def bytesOf (t : String) : List Nat := t.toList.map Char.toNat

/-! ## Reading scientific notation -/

/-- Value of an ASCII decimal digit, if the byte is one. -/
def digitValue (c : Nat) : Option Nat := if 48 ≤ c ∧ c ≤ 57 then some (c - 48) else none

/-- Value of a run of decimal digits read left to right, continuing from `acc`. -/
def parseDigits : List Nat → Nat → Option Nat
  | [], acc => some acc
  | c :: cs, acc =>
    match digitValue c with
    | none => none
    | some d => parseDigits cs (acc * 10 + d)

/-- The mantissa `digit ["." digit+]`: the integer made of all its digits and the number
of digits after the point. -/
def parseMantissa : List Nat → Option (Nat × Nat)
  | [] => none
  | d :: r =>
    match r with
    | [] => (parseDigits [d] 0).map (fun v => (v, 0))
    | c :: f =>
      if c = 46 ∧ f ≠ [] then (parseDigits (d :: f) 0).map (fun v => (v, f.length)) else none

/-- The exponent `["-"] digit+`. -/
def parseExponent : List Nat → Option Int
  | [] => none
  | c :: cs =>
    if c = 45 then
      if cs = [] then none else (parseDigits cs 0).map (fun (n : Nat) => -(n : Int))
    else (parseDigits (c :: cs) 0).map (fun (n : Nat) => (n : Int))

/-- The rational number a text denotes when read as decimal scientific notation:
leading digit, optional `.` and fraction digits, `E`, optional `-`, exponent digits. -/
def sciValue (t : List Nat) : Option ℚ :=
  match t.span (fun c => c != 69) with
  | (m, 69 :: x) =>
    match parseMantissa m, parseExponent x with
    | some (v, k), some ex => some ((v : ℚ) * (10 : ℚ) ^ (ex - (k : Int)))
    | _, _ => none
  | _ => none

/-- Is the byte an ASCII decimal digit? -/
def isDigit (c : Nat) : Bool := decide (48 ≤ c) && decide (c ≤ 57)

/-- The grammar `digit ["." digit+] "E" ["-"] digit+` with a non-zero leading digit and an
exponent without leading zero (and so without `+`). -/
def matchesGrammar (t : List Nat) : Bool :=
  match t.span (fun c => c != 69) with
  | (d :: r, 69 :: x) =>
    (decide (49 ≤ d) && decide (d ≤ 57))
    && (match r with
        | [] => true
        | c :: f => c == 46 && !f.isEmpty && f.all isDigit)
    && (match (match x with
          | [] => []
          | c :: cs => if c = 45 then cs else c :: cs) with
        | [] => false
        | c :: cs => isDigit c && cs.all isDigit && (cs.isEmpty || c != 48))
  | _ => false

/-- The zero-padded decimal representation of `n` in `k` characters. -/
def zeroPadded (k n : Nat) : List Nat :=
  List.replicate (k - (decimalBytes n).length) 48 ++ decimalBytes n

/-- The adjusted exponent of the printers: the input exponent plus the number of decimal
digits of the significand, minus one. -/
def adjustedExponent (s : Nat) (e : Int) : Int := e + ((digitCount s : Nat) : Int) - 1

/-- The `k` low decimal digits of `n`, least significant first. -/
def lowDigits : Nat → Nat → List Nat
  | 0, _ => []
  | k + 1, n => n % 10 :: lowDigits k (n / 10)

/-- Fixed-point invariant of the digit extraction: `y / 2 ^ 32` lies in
`[n / D, (n + 1) / D)`, so the integer part of `y / 2 ^ 32` is `n / D` and the
fraction carries the lower digits of `n`. -/
def Fx (D n y : Nat) : Prop := n * 4294967296 ≤ y * D ∧ y * D < (n + 1) * 4294967296

instance (D n y : Nat) : Decidable (Fx D n y) := by
  unfold Fx
  infer_instance

/-! ## The reciprocal literals as parameters -/

/-- The function `print_9_digits` with its four reciprocal literals taken as the parameters
`k100` (3 or 4 digits), `k10000` (5 or 6), `k1000000` (7 or 8) and `k100000000` (9); the text
is otherwise that of `print_9_digits`. -/
def print_9_digits_with (k100 k10000 k1000000 k100000000 : Nat)
    (s32 : Nat) (exponent : Int) (buffer : Nat) (b : Buffer) :
    Option (Int × Nat × Buffer) :=
  if s32 < 100 then
    if s32 < 10 then
      -- 1 digit.
      let b := b.store (buffer + 0) (char_of_nat (u32 ('0'.toNat + s32)))
      some (exponent, buffer + 1, b)
    else
      -- 2 digits.
      match read_at radix_100_table (to_int s32 * 2) with
      | none => none
      | some c0 =>
        let b := b.store (buffer + 0) c0
        let b := b.store (buffer + 1) '.'.toNat
        match read_at radix_100_table (to_int s32 * 2 + 1) with
        | none => none
        | some c2 =>
          let b := b.store (buffer + 2) c2
          some (exponent + 1, buffer + 3, b)
  else
    if s32 < 1000000 then
      if s32 < 10000 then
        -- 3 or 4 digits.
        let prod := u64 (s32 * k100)
        let two_digits := to_int (prod >>> 32)
        if two_digits < 10 then
          -- 3 digits.
          let b := b.store (buffer + 0) (char_of_int (two_digits + '0'.toNat))
          let b := b.store (buffer + 1) '.'.toNat
          let prod := u64 (u32 prod * 100)
          match copy_memory_small radix_100_table (to_int (prod >>> 32) * 2) (buffer + 2) 2 b with
          | none => none
          | some b => some (exponent + 2, buffer + 4, b)
        else
          -- 4 digits.
          match read_at radix_100_table (two_digits * 2) with
          | none => none
          | some c0 =>
            let b := b.store (buffer + 0) c0
            let b := b.store (buffer + 1) '.'.toNat
            match read_at radix_100_table (two_digits * 2 + 1) with
            | none => none
            | some c2 =>
              let b := b.store (buffer + 2) c2
              let prod := u64 (u32 prod * 100)
              match copy_memory_small radix_100_table (to_int (prod >>> 32) * 2)
                  (buffer + 3) 2 b with
              | none => none
              | some b => some (exponent + 3, buffer + 5, b)
      else
        -- 5 or 6 digits.
        let prod := u64 (s32 * k10000)
        let two_digits := to_int (prod >>> 32)
        if two_digits < 10 then
          -- 5 digits.
          let b := b.store (buffer + 0) (char_of_int (two_digits + '0'.toNat))
          let b := b.store (buffer + 1) '.'.toNat
          let prod := u64 (u32 prod * 100)
          match copy_memory_small radix_100_table (to_int (prod >>> 32) * 2) (buffer + 2) 2 b with
          | none => none
          | some b =>
            let prod := u64 (u32 prod * 100)
            match copy_memory_small radix_100_table (to_int (prod >>> 32) * 2)
                (buffer + 4) 2 b with
            | none => none
            | some b => some (exponent + 4, buffer + 6, b)
        else
          -- 6 digits.
          match read_at radix_100_table (two_digits * 2) with
          | none => none
          | some c0 =>
            let b := b.store (buffer + 0) c0
            let b := b.store (buffer + 1) '.'.toNat
            match read_at radix_100_table (two_digits * 2 + 1) with
            | none => none
            | some c2 =>
              let b := b.store (buffer + 2) c2
              let prod := u64 (u32 prod * 100)
              match copy_memory_small radix_100_table (to_int (prod >>> 32) * 2)
                  (buffer + 3) 2 b with
              | none => none
              | some b =>
                let prod := u64 (u32 prod * 100)
                match copy_memory_small radix_100_table (to_int (prod >>> 32) * 2)
                    (buffer + 5) 2 b with
                | none => none
                | some b => some (exponent + 5, buffer + 7, b)
    else
      if s32 < 100000000 then
        -- 7 or 8 digits.
        let prod := u64 (s32 * k1000000)
        let prod := prod >>> 16
        let two_digits := to_int (prod >>> 32)
        if two_digits < 10 then
          -- 7 digits.
          let b := b.store (buffer + 0) (char_of_int (two_digits + '0'.toNat))
          let b := b.store (buffer + 1) '.'.toNat
          let prod := u64 (u32 prod * 100)
          match copy_memory_small radix_100_table (to_int (prod >>> 32) * 2) (buffer + 2) 2 b with
          | none => none
          | some b =>
            let prod := u64 (u32 prod * 100)
            match copy_memory_small radix_100_table (to_int (prod >>> 32) * 2)
                (buffer + 4) 2 b with
            | none => none
            | some b =>
              let prod := u64 (u32 prod * 100)
              match copy_memory_small radix_100_table (to_int (prod >>> 32) * 2)
                  (buffer + 6) 2 b with
              | none => none
              | some b => some (exponent + 6, buffer + 8, b)
        else
          -- 8 digits.
          match read_at radix_100_table (two_digits * 2) with
          | none => none
          | some c0 =>
            let b := b.store (buffer + 0) c0
            let b := b.store (buffer + 1) '.'.toNat
            match read_at radix_100_table (two_digits * 2 + 1) with
            | none => none
            | some c2 =>
              let b := b.store (buffer + 2) c2
              let prod := u64 (u32 prod * 100)
              match copy_memory_small radix_100_table (to_int (prod >>> 32) * 2)
                  (buffer + 3) 2 b with
              | none => none
              | some b =>
                let prod := u64 (u32 prod * 100)
                match copy_memory_small radix_100_table (to_int (prod >>> 32) * 2)
                    (buffer + 5) 2 b with
                | none => none
                | some b =>
                  let prod := u64 (u32 prod * 100)
                  match copy_memory_small radix_100_table (to_int (prod >>> 32) * 2)
                      (buffer + 7) 2 b with
                  | none => none
                  | some b => some (exponent + 7, buffer + 9, b)
      else
        -- 9 digits.
        let prod := u64 (s32 * k100000000)
        let prod := prod >>> 25
        let b := b.store (buffer + 0) (char_of_int (to_int (prod >>> 32) + '0'.toNat))
        let b := b.store (buffer + 1) '.'.toNat
        let prod := u64 (u32 prod * 100)
        match copy_memory_small radix_100_table (to_int (prod >>> 32) * 2) (buffer + 2) 2 b with
        | none => none
        | some b =>
          let prod := u64 (u32 prod * 100)
          match copy_memory_small radix_100_table (to_int (prod >>> 32) * 2) (buffer + 4) 2 b with
          | none => none
          | some b =>
            let prod := u64 (u32 prod * 100)
            match copy_memory_small radix_100_table (to_int (prod >>> 32) * 2)
                (buffer + 6) 2 b with
            | none => none
            | some b =>
              let prod := u64 (u32 prod * 100)
              match copy_memory_small radix_100_table (to_int (prod >>> 32) * 2)
                  (buffer + 8) 2 b with
              | none => none
              | some b => some (exponent + 8, buffer + 10, b)

/-- The block `print_exponent_double` with its reciprocal literal taken as the parameter
`k10`; the text is otherwise that of `print_exponent_double`. -/
def print_exponent_double_with (k10 : Nat) (exponent : Int) (buffer : Nat) (b : Buffer) :
    Option (Nat × Buffer) :=
  match (if exponent < 0 then
      match copy_memory_small E_minus 0 buffer 2 b with
      | none => none
      | some b => some (-exponent, buffer + 2, b)
    else
      some (exponent, buffer + 1, b.store (buffer + 0) 'E'.toNat)) with
  | none => none
  | some (exponent, buffer, b) =>
    if exponent ≥ 100 then
      -- d1 = exponent / 10; d2 = exponent % 10;
      let prod := u32 (u32_of_int exponent * k10)
      let d1 := prod >>> 16
      let prod := u32 (u16 prod * 5)
      let d2 := prod >>> 15
      match copy_memory_small radix_100_table ((u32 (d1 * 2) : Nat) : Int) buffer 2 b with
      | none => none
      | some b => some (buffer + 3, b.store (buffer + 2) (char_of_nat (u32 ('0'.toNat + d2))))
    else if exponent ≥ 10 then
      match copy_memory_small radix_100_table (exponent * 2) buffer 2 b with
      | none => none
      | some b => some (buffer + 2, b)
    else
      some (buffer + 1, b.store (buffer + 0) (char_of_int ('0'.toNat + exponent)))

/-- The specialisation `to_chars_double` with the five reciprocal literals of the printer
taken as parameters (`k1000000` is also the literal of the second block); the text is
otherwise that of `to_chars_double`. -/
def to_chars_double_with (k100 k10000 k1000000 k100000000 k10 : Nat)
    (significand : Nat) (exponent : Int) (buffer : Nat) (b : Buffer) :
    Option (Nat × Buffer) :=
  let first_block : Nat :=
    if significand < 1000000000 then u32 significand else u32 (significand / 100000000)
  let second_block : Nat :=
    if significand < 1000000000 then 0
    else u32 (u32 significand + 2 ^ 32 - u32 (first_block * 100000000))
  let have_second_block : Bool := if significand < 1000000000 then false else true
  -- Print the first block of significand.
  match print_9_digits_with k100 k10000 k1000000 k100000000 first_block exponent buffer b with
  | none => none
  | some (exponent, buffer, b) =>
    -- Print second block if necessary.
    match (if have_second_block then
        let prod := u64 (second_block * k1000000)
        let prod := prod >>> 16
        let prod := u64 (prod + 1)
        match copy_memory_small radix_100_table (to_int (prod >>> 32) * 2) (buffer + 0) 2 b with
        | none => none
        | some b =>
          let prod := u64 (u32 prod * 100)
          match copy_memory_small radix_100_table (to_int (prod >>> 32) * 2) (buffer + 2) 2 b with
          | none => none
          | some b =>
            let prod := u64 (u32 prod * 100)
            match copy_memory_small radix_100_table (to_int (prod >>> 32) * 2)
                (buffer + 4) 2 b with
            | none => none
            | some b =>
              let prod := u64 (u32 prod * 100)
              match copy_memory_small radix_100_table (to_int (prod >>> 32) * 2)
                  (buffer + 6) 2 b with
              | none => none
              | some b => some (exponent + 8, buffer + 8, b)
      else
        some (exponent, buffer, b)) with
    | none => none
    | some (exponent, buffer, b) =>
      -- Print exponent and return
      print_exponent_double_with k10 exponent buffer b

/-! ## The second block with its bias as a parameter -/

/-- The statements under `if (have_second_block)` of `to_chars<double, …>`, with the `1` of
`prod += 1` taken as the parameter `bias`; the text is otherwise that of `to_chars_double`.
The result is the updated exponent, the advanced pointer and the memory. -/
def print_second_block_with (bias : Nat) (second_block : Nat) (exponent : Int) (buffer : Nat)
    (b : Buffer) : Option (Int × Nat × Buffer) :=
  -- 281474978 = ceil(2^48 / 100'0000) + 1
  let prod := u64 (second_block * 281474978)
  let prod := prod >>> 16
  let prod := u64 (prod + bias)
  match copy_memory_small radix_100_table (to_int (prod >>> 32) * 2) (buffer + 0) 2 b with
  | none => none
  | some b =>
    let prod := u64 (u32 prod * 100)
    match copy_memory_small radix_100_table (to_int (prod >>> 32) * 2) (buffer + 2) 2 b with
    | none => none
    | some b =>
      let prod := u64 (u32 prod * 100)
      match copy_memory_small radix_100_table (to_int (prod >>> 32) * 2)
          (buffer + 4) 2 b with
      | none => none
      | some b =>
        let prod := u64 (u32 prod * 100)
        match copy_memory_small radix_100_table (to_int (prod >>> 32) * 2)
            (buffer + 6) 2 b with
        | none => none
        | some b => some (exponent + 8, buffer + 8, b)

/-! ## The range of `int` -/

/-- The values of the type `int`: 32 bits, two's complement. -/
def is_int (x : Int) : Prop := -2147483648 ≤ x ∧ x ≤ 2147483647

instance (x : Int) : Decidable (is_int x) := by
  unfold is_int
  infer_instance

/-- The range of `int` enforced on a run that updates `exponent`. The embedding computes
the exponent in ℤ. Before the exponent block the exponent changes only by statements
`exponent += k` with `k ≥ 0`, so every value it takes lies between the input and the
output: an addition overflows, which is undefined behaviour, exactly when the input or the
output is not a value of `int`, and the run is then `none`. -/
def checked_int (exponent : Int) (r : Option (Int × Nat × Buffer)) :
    Option (Int × Nat × Buffer) :=
  if is_int exponent then
    match r with
    | none => none
    | some (x, q, b1) => if is_int x then some (x, q, b1) else none
  else none

/-- The statements of `to_chars<double, …>` before `// Print exponent and return`: the
block split, `print_9_digits` on the first block and the second-block statements (bias 1).
The result is the exponent, the pointer and the memory that reach the exponent block. -/
def to_chars_double_significand (significand : Nat) (exponent : Int) (buffer : Nat)
    (b : Buffer) : Option (Int × Nat × Buffer) :=
  let first_block : Nat :=
    if significand < 1000000000 then u32 significand else u32 (significand / 100000000)
  let second_block : Nat :=
    if significand < 1000000000 then 0
    else u32 (u32 significand + 2 ^ 32 - u32 (first_block * 100000000))
  let have_second_block : Bool := if significand < 1000000000 then false else true
  -- Print the first block of significand.
  match print_9_digits first_block exponent buffer b with
  | none => none
  | some (exponent, buffer, b) =>
    -- Print second block if necessary.
    if have_second_block then print_second_block_with 1 second_block exponent buffer b
    else some (exponent, buffer, b)

end Dragonbox

namespace Cat

/-! ## `Result` (result.hpp) and `exit` (runtime/exit.h) -/

/-- The struct `Error`: a 32-bit error code. -/
structure Error where
  code : Int
deriving DecidableEq

/-- The struct `Result<T>` with `DataType` `α`; `none` is a member that no constructor
has assigned (its value is indeterminate). -/
structure Result (α : Type) where
  code : Option Error
  data : Option α
  is_ok : Bool
deriving DecidableEq

/-- How a call ends: it returns a value, the process exits with a status, or the call
reads an indeterminate member. -/
inductive Outcome (α : Type) where
  | returned (value : α)
  | exited (status : Int)
  | indeterminate
deriving DecidableEq

/-- The constructor `Result(Error in_code)`. -/
def Result.of_error {α : Type} (in_code : Error) : Result α :=
  { code := some in_code, data := none, is_ok := false }

/-- The constructor `Result(DataType in_data)`. -/
def Result.of_data {α : Type} (in_data : α) : Result α :=
  { code := none, data := some in_data, is_ok := true }

/-- The macro `EXIT_FAILURE` of `<cstdlib>`, which result.hpp includes: 1 on Linux. -/
def EXIT_FAILURE : Int := 1

/-- The function `exit(exit_code)` of runtime/exit.h: the exit system call (number 60) with
the status, after which nothing is reached. -/
def exit {α : Type} (exit_code : Int) : Outcome α := Outcome.exited exit_code

/-- The member `Result<T>::or_panic()` for a non-void `T`. -/
def Result.or_panic {α : Type} (r : Result α) : Outcome α :=
  if r.is_ok then
    match r.data with
    | some v => Outcome.returned v
    | none => Outcome.indeterminate
  else exit EXIT_FAILURE

/-- The member `Result<void>::or_panic()`: `DataType` is `char` and nothing is returned. -/
def Result.or_panic_void (r : Result Nat) : Outcome Unit :=
  if r.is_ok then Outcome.returned () else exit EXIT_FAILURE

/-- The member `Result<T>::or_return(in_data)`: its body is `return in_data;`. -/
def Result.or_return {α : Type} (_self : Result α) (in_data : α) : α := in_data

/-- The expression `Result(b)` of the tests, for a `bool` `b`. No template argument is
given, so `T` is the default `void` of the declaration `template <typename T = void>
struct Result;` and `DataType` is `char`. Of the two constructors, `Result(DataType)` needs
the standard conversion `bool → char` and `Result(Error)` the user-defined conversion
through `Error(auto in_code)`; overload resolution takes the standard conversion, so the
data constructor runs with `char(b)`. -/
def Result.of_condition (b : Bool) : Result Nat :=
  Result.of_data (if b then 1 else 0)

/-! ## String length (string.h) -/

/-- The characters of a string literal followed by NUL characters: the character at each
index from the pointer. -/
def c_string (t : String) : Nat → Nat :=
  fun i => (t.toList.map Char.toNat).getD i 0

/-- A character sequence for examples: the character `a` at every index but `n`, where it
holds a NUL. -/
def nul_at (n : Nat) : Nat → Nat := fun i => if i = n then 0 else 97

/-- An integer type `T` that the template parameter of `string_length_as` can be: its
largest value and whether it is signed. -/
structure IntegerType where
  max : Nat
  signed : Bool
deriving DecidableEq

/-- The type `unsigned char`: 8 bits, unsigned. -/
def unsigned_char : IntegerType := { max := 255, signed := false }

/-- The type `signed char`: 8 bits, signed. -/
def signed_char : IntegerType := { max := 127, signed := true }

/-- Modelled from the spec: the type `i4` of the test (`string_length_as<i4>`), declared in
a header that is not among the sources: the 4-byte signed integer. -/
def i4 : IntegerType := { max := 2147483647, signed := true }

/-- The scalar `std::string_length_as<T>(p_string)`, where `p_string i` is the character
`p_string[i]` and the first argument after it bounds the number of loop tests (`none` when
it is used up); called with `result = 0`. The counter `T result` holds the values
`0 .. T.max`: `result++` at `T.max` wraps to 0 for an unsigned `T`; for a signed `T` it
overflows, or wraps to a negative index that is read before the sequence, both undefined
(`none`). -/
def string_length_as (T : IntegerType) (p_string : Nat → Nat) : Nat → Nat → Option Nat
  | 0, _ => none
  | fuel + 1, result =>
    if p_string result ≠ 0 then
      -- result++;
      if result < T.max then string_length_as T p_string fuel (result + 1)
      else if T.signed then none
      else string_length_as T p_string fuel 0
    else some result

/-- The load `data = *p_memory` of 16 characters from index `p_memory`. -/
def load_charx16 (p_string : Nat → Nat) (p_memory : Nat) : List Nat :=
  (List.range 16).map (fun i => p_string (p_memory + i))

/-- The call `simd::cmp_implicit_str_c<mask>(data, zeroes)` with
`mask = SIDD_UBYTE_OPS | SIDD_CMP_EQUAL_EACH | SIDD_LEAST_SIGNIFICANT`: the carry flag of
the instruction PCMPISTRI. Every element of the all-zero operand is past its end, so bit
`i` of the comparison is set exactly when element `i` of `data` is at or past the first NUL
of `data`; the flag is set when some bit is, that is when `data` holds a NUL. -/
def cmp_implicit_str_c (data : List Nat) : Bool := data.any (fun c => c == 0)

/-- The call `simd::cmp_implicit_str_i<mask>(data, zeroes)` with the same mask: the index
of the least significant set bit of the comparison, that is the index of the first NUL of
`data`, and 16 when there is none. -/
def cmp_implicit_str_i (data : List Nat) : Nat := data.findIdx (fun c => c == 0)

/-- Modelled from the spec: `sizeof(u1x16)`, whose type `u1x16` is not among the sources.
It is the size of a vector of 16 one-byte elements of simd.h, an instance of
`template <typename T, usize Width> struct alignas(32) simd_vector`: the struct is aligned
to 32 bytes, so its size is 32. -/
def sizeof_u1x16 : Nat := 32

/-- The function `simd::string_length_as<T>(p_string)`, with the value of `sizeof(u1x16)`
as its first argument. Each path through the body of `while (true)` ends in a `return`, so
the body runs once. The values returned are at most 16 or the size, which every `T` of the
callers holds. -/
def simd.string_length_as (sizeof_u1x16 : Nat) (p_string : Nat → Nat) : Nat :=
  let result := 0
  let p_memory := 0
  let data := load_charx16 p_string p_memory
  if cmp_implicit_str_c data then
    let index := cmp_implicit_str_i data
    result + index
  else
    -- p_memory++; result += sizeof(u1x16); return result;
    let result := result + sizeof_u1x16
    result

/-! ## Copying memory (string.h) -/

/-- The store `p[i] = v` at address `a` of a memory (address ↦ byte). -/
def store (m : Nat → Nat) (a v : Nat) : Nat → Nat := fun x => if x = a then v else m x

/-- The function `std::copy_memory(p_source, p_destination, bytes)` on a memory: the loop
`for (isize i = 0; i < bytes; i++) p_destination_handle[i] = p_source_handle[i];` from the
counter value `i` on. The first argument after `bytes` bounds the number of loop tests
(`none` when it is used up); called with `i = 0`. -/
def copy_memory (p_source p_destination : Nat) (bytes : Int) :
    Nat → Nat → (Nat → Nat) → Option (Nat → Nat)
  | 0, _, _ => none
  | fuel + 1, i, m =>
    if (i : Int) < bytes then
      copy_memory p_source p_destination bytes fuel (i + 1)
        (store m (p_destination + i) (m (p_source + i)))
    else some m

/-- The load `*static_cast<Vector const*>(p)` of a `Vector`, the 32 bytes from address
`p` on. -/
def load_vector (m : Nat → Nat) (p : Nat) : List Nat :=
  (List.range 32).map (fun i => m (p + i))

/-- The store `*static_cast<Vector*>(p) = v` of a `Vector`: its bytes go to the addresses
from `p` on. -/
def store_vector (m : Nat → Nat) (p : Nat) (v : List Nat) : Nat → Nat :=
  fun x => if p ≤ x ∧ x < p + v.length then v.getD (x - p) 0 else m x

/-- Modelled from the spec: `stream_in(p_destination, p_vector)` of the SIMD library, which
is not among the sources. It is the non-temporal store of the vector `*p_vector` at
`p_destination`, which leaves memory as the plain store does. -/
def stream_in (m : Nat → Nat) (p_destination : Nat) (v : List Nat) : Nat → Nat :=
  store_vector m p_destination v

/-- The loop `while (bytes >= 256)` of `simd::copy_memory` in the branch
`bytes <= cachesize`, from the values of `p_source_handle`, `p_destination_handle` and
`bytes` that reach it. The first argument bounds the number of loop tests (`none` when it
is used up). `prefetch` does not change memory. -/
def simd.copy_memory_cached :
    Nat → Nat → Nat → Int → (Nat → Nat) → Option (Nat → Nat)
  | 0, _, _, _, _ => none
  | fuel + 1, p_source_handle, p_destination_handle, bytes, m =>
    if bytes ≥ 256 then
      -- vectors[i] = *(const_cast<Vector*>(reinterpret_cast<Vector const*>(p_source_handle)) + i);
      let vectors := (List.range 8).map (fun i => load_vector m (p_source_handle + 32 * i))
      let p_source_handle := p_source_handle + 256
      -- *(reinterpret_cast<Vector*>(p_destination_handle)) = vectors[i];
      let m := vectors.foldl (fun m v => store_vector m p_destination_handle v) m
      let p_destination_handle := p_destination_handle + 256
      let bytes := bytes - 256
      simd.copy_memory_cached fuel p_source_handle p_destination_handle bytes m
    else some m

/-- The loop `while (bytes >= 256)` of `simd::copy_memory` in the branch
`bytes > cachesize`, as `simd.copy_memory_cached` with `stream_in` for the store. `prefetch`
and `simd::fence` do not change memory. -/
def simd.copy_memory_streamed :
    Nat → Nat → Nat → Int → (Nat → Nat) → Option (Nat → Nat)
  | 0, _, _, _, _ => none
  | fuel + 1, p_source_handle, p_destination_handle, bytes, m =>
    if bytes ≥ 256 then
      let vectors := (List.range 8).map (fun i => load_vector m (p_source_handle + 32 * i))
      let p_source_handle := p_source_handle + 256
      -- stream_in(p_destination_handle, &vectors[i]);
      let m := vectors.foldl (fun m v => stream_in m p_destination_handle v) m
      let p_destination_handle := p_destination_handle + 256
      let bytes := bytes - 256
      simd.copy_memory_streamed fuel p_source_handle p_destination_handle bytes m
    else some m

/-- The function `simd::copy_memory(p_source, p_destination, bytes)` on a memory, the
routine behind `memcpy`. Pointers are addresses; `fuel` bounds the loop tests of each loop.
`simd::zero_upper_avx_registers` does not change memory. -/
def simd.copy_memory (p_source p_destination : Nat) (bytes : Int) (fuel : Nat)
    (m : Nat → Nat) : Option (Nat → Nat) :=
  let p_source_handle := p_source
  let p_destination_handle := p_destination
  let cachesize : Int := 0x200000  -- L3-cache size.
  match (if bytes ≤ 256 then Cat.copy_memory p_source p_destination bytes fuel 0 m
    else some m) with
  | none => none
  | some m =>
    -- Align src, dst, and size to 16 bytes
    let padding := (32 - (p_destination_handle &&& 31)) &&& 31
    let head := load_vector m p_source
    let m := store_vector m p_destination head
    let p_source_handle := p_source_handle + padding
    let p_destination_handle := p_destination_handle + padding
    let bytes := bytes - (padding : Int)
    if bytes ≤ cachesize then
      simd.copy_memory_cached fuel p_source_handle p_destination_handle bytes m
    else
      simd.copy_memory_streamed fuel p_source_handle p_destination_handle bytes m

/-- A memory for examples: the bytes `0, 1, 2, …` (modulo 256) in the `n` addresses from
`p` on, and 0 everywhere else. -/
def ramp (p n : Nat) : Nat → Nat :=
  fun a => if p ≤ a ∧ a < p + n then (a - p) % 256 else 0

end Cat

namespace Dragonbox

/-! ## Machine arithmetic and the table -/

theorem u32_eq (x : Nat) : u32 x = x % 4294967296 := rfl

theorem shr32 (y : Nat) : y >>> 32 = y / 4294967296 := by
  simp [Nat.shiftRight_eq_div_pow]

theorem shr16 (y : Nat) : y >>> 16 = y / 65536 := by
  simp [Nat.shiftRight_eq_div_pow]

theorem shr25 (y : Nat) : y >>> 25 = y / 33554432 := by
  simp [Nat.shiftRight_eq_div_pow]

theorem char_toNat_0 : '0'.toNat = 48 := rfl

theorem char_toNat_dot : '.'.toNat = 46 := rfl

theorem char_toNat_E : 'E'.toNat = 69 := rfl

theorem to_int_small (x : Nat) (h : x < 2147483648) : to_int x = (x : Int) := by
  unfold to_int
  have h1 : x % 2 ^ 32 = x := Nat.mod_eq_of_lt (by omega)
  rw [h1, if_pos (by omega)]

theorem u64_step (y : Nat) : u64 (y % 4294967296 * 100) = y % 4294967296 * 100 := by
  unfold u64
  apply Nat.mod_eq_of_lt
  have := Nat.mod_lt y (show 0 < 4294967296 by norm_num)
  norm_num
  omega

theorem read_table_hi (q : Nat) (h : q < 100) :
    read_at radix_100_table ((q : Int) * 2) = some (48 + q / 10) := by
  interval_cases q <;> rfl

theorem read_table_lo (q : Nat) (h : q < 100) :
    read_at radix_100_table ((q : Int) * 2 + 1) = some (48 + q % 10) := by
  interval_cases q <;> rfl

theorem copy_pair (q : Nat) (h : q < 100) (dst : Nat) (b : Buffer) :
    copy_memory_small radix_100_table ((q : Int) * 2) dst 2 b
      = some ((b.store dst (48 + q / 10)).store (dst + 1) (48 + q % 10)) := by
  simp only [copy_memory_small, read_table_hi q h, read_table_lo q h]

theorem copy_step (y dst : Nat) (b : Buffer) :
    copy_memory_small radix_100_table (to_int (y % 4294967296 * 100 / 4294967296) * 2) dst 2 b
      = some ((b.store dst (48 + y % 4294967296 * 100 / 4294967296 / 10)).store (dst + 1)
          (48 + y % 4294967296 * 100 / 4294967296 % 10)) := by
  have h : y % 4294967296 * 100 / 4294967296 < 100 := by omega
  rw [to_int_small _ (by omega), copy_pair _ h]

theorem copy_E_minus (dst : Nat) (b : Buffer) :
    copy_memory_small E_minus 0 dst 2 b = some ((b.store dst 69).store (dst + 1) 45) := rfl

theorem store_congr {b c : Buffer} {a a1 v v1 : Nat} (hb : b = c) (ha : a = a1) (hv : v = v1) :
    b.store a v = c.store a1 v1 := by
  subst hb ha hv
  rfl

/-! ## Decimal digits -/

theorem lowDigits_length (k n : Nat) : (lowDigits k n).length = k := by
  induction k generalizing n with
  | zero => rfl
  | succ k ih => simp [lowDigits, ih]

theorem digits_split (k n : Nat) (h : 10 ^ k ≤ n) :
    Nat.digits 10 n = lowDigits k n ++ Nat.digits 10 (n / 10 ^ k) := by
  induction k generalizing n with
  | zero => simp [lowDigits]
  | succ k ih =>
    have hn : 0 < n := by
      have : 0 < 10 ^ (k + 1) := Nat.pow_pos (by norm_num)
      omega
    have h10 : 10 ^ k ≤ n / 10 := by
      rw [Nat.le_div_iff_mul_le (by norm_num)]
      rw [pow_succ] at h
      exact h
    rw [Nat.digits_def' (by norm_num) hn, ih (n / 10) h10, lowDigits, Nat.div_div_eq_div_mul,
      pow_succ, Nat.mul_comm 10 (10 ^ k)]
    rfl

theorem lowDigits_succ_eq (k n : Nat) :
    lowDigits (k + 1) n = lowDigits k n ++ [n / 10 ^ k % 10] := by
  induction k generalizing n with
  | zero => simp [lowDigits]
  | succ k ih =>
    have := ih (n / 10)
    rw [Nat.div_div_eq_div_mul, Nat.mul_comm 10, ← pow_succ] at this
    rw [lowDigits, this]
    rfl

theorem digits_of_range (k n : Nat) (h1 : 10 ^ k ≤ n) (h2 : n < 10 ^ (k + 1)) :
    Nat.digits 10 n = lowDigits (k + 1) n := by
  have hpos : 0 < 10 ^ k := Nat.pow_pos (by norm_num)
  have hq1 : 0 < n / 10 ^ k := Nat.div_pos h1 hpos
  have hq2 : n / 10 ^ k < 10 := by
    rw [Nat.div_lt_iff_lt_mul hpos, Nat.mul_comm, ← pow_succ]
    exact h2
  rw [digits_split k n h1, Nat.digits_def' (by norm_num) hq1]
  have hz : n / 10 ^ k / 10 = 0 := by omega
  rw [hz, Nat.digits_zero, lowDigits_succ_eq]

/-! ## Fixed-point digit extraction -/

theorem fx_quot (D n y : Nat) (hD : 0 < D) (h : Fx D n y) : y / 4294967296 = n / D := by
  obtain ⟨h1, h2⟩ := h
  have a1 : n / D * D ≤ n := Nat.div_mul_le_self n D
  have a2 : n + 1 ≤ (n / D + 1) * D := by
    have := Nat.lt_mul_div_succ n hD
    rw [Nat.mul_comm] at this
    exact this
  have b1 : n / D * 4294967296 ≤ y := by
    apply Nat.le_of_mul_le_mul_right _ hD
    calc n / D * 4294967296 * D = n / D * D * 4294967296 := by ring
      _ ≤ n * 4294967296 := Nat.mul_le_mul_right _ a1
      _ ≤ y * D := h1
  have b2 : y < (n / D + 1) * 4294967296 := by
    apply Nat.lt_of_mul_lt_mul_right (a := D)
    calc y * D < (n + 1) * 4294967296 := h2
      _ ≤ (n / D + 1) * D * 4294967296 := Nat.mul_le_mul_right _ a2
      _ = (n / D + 1) * 4294967296 * D := by ring
  omega

theorem fx_step (D n y : Nat) (h : Fx (100 * D) n y) (hD : 0 < D) :
    Fx D (n % (100 * D)) (y % 4294967296 * 100) := by
  have hq := fx_quot (100 * D) n y (by omega) h
  obtain ⟨h1, h2⟩ := h
  have e1 := Nat.div_add_mod n (100 * D)
  have e2 := Nat.div_add_mod y 4294967296
  rw [hq] at e2
  generalize n / (100 * D) = q at *
  generalize n % (100 * D) = r at *
  generalize y % 4294967296 = t at *
  subst e1 e2
  constructor <;> nlinarith

theorem fx_chain1 (n y : Nat) (h : Fx 100 n y) :
    y / 4294967296 = n / 100 ∧ y % 4294967296 * 100 / 4294967296 = n % 100 := by
  have q0 := fx_quot _ _ _ (by norm_num) h
  have q1 := fx_quot _ _ _ (by norm_num) (fx_step 1 _ _ h (by norm_num))
  clear h
  refine ⟨q0, q1.trans ?_⟩
  clear q0 q1
  omega

theorem fx_chain2 (n y : Nat) (h : Fx 10000 n y) :
    y / 4294967296 = n / 10000
    ∧ y % 4294967296 * 100 / 4294967296 = n / 100 % 100
    ∧ y % 4294967296 * 100 % 4294967296 * 100 / 4294967296 = n % 100 := by
  have q0 := fx_quot _ _ _ (by norm_num) h
  obtain ⟨q1, q2⟩ := fx_chain1 _ _ (fx_step 100 _ _ h (by norm_num))
  clear h
  refine ⟨q0, q1.trans ?_, q2.trans ?_⟩ <;> clear q0 q1 q2 <;> omega

theorem fx_chain3 (n y : Nat) (h : Fx 1000000 n y) :
    y / 4294967296 = n / 1000000
    ∧ y % 4294967296 * 100 / 4294967296 = n / 10000 % 100
    ∧ y % 4294967296 * 100 % 4294967296 * 100 / 4294967296 = n / 100 % 100
    ∧ y % 4294967296 * 100 % 4294967296 * 100 % 4294967296 * 100 / 4294967296 = n % 100 := by
  have q0 := fx_quot _ _ _ (by norm_num) h
  obtain ⟨q1, q2, q3⟩ := fx_chain2 _ _ (fx_step 10000 _ _ h (by norm_num))
  clear h
  refine ⟨q0, q1.trans ?_, q2.trans ?_, q3.trans ?_⟩ <;> clear q0 q1 q2 q3 <;> omega

theorem fx_chain4 (n y : Nat) (h : Fx 100000000 n y) :
    y / 4294967296 = n / 100000000
    ∧ y % 4294967296 * 100 / 4294967296 = n / 1000000 % 100
    ∧ y % 4294967296 * 100 % 4294967296 * 100 / 4294967296 = n / 10000 % 100
    ∧ y % 4294967296 * 100 % 4294967296 * 100 % 4294967296 * 100 / 4294967296 = n / 100 % 100
    ∧ y % 4294967296 * 100 % 4294967296 * 100 % 4294967296 * 100 % 4294967296 * 100
        / 4294967296 = n % 100 := by
  have q0 := fx_quot _ _ _ (by norm_num) h
  obtain ⟨q1, q2, q3, q4⟩ := fx_chain3 _ _ (fx_step 1000000 _ _ h (by norm_num))
  clear h
  refine ⟨q0, q1.trans ?_, q2.trans ?_, q3.trans ?_, q4.trans ?_⟩ <;> clear q0 q1 q2 q3 q4 <;> omega

/-! ## Memory -/

theorem writeBytes_append (b : Buffer) (p : Nat) (xs ys : List Nat) :
    b.writeBytes p (xs ++ ys) = (b.writeBytes p xs).writeBytes (p + xs.length) ys := by
  induction xs generalizing b p with
  | nil => rfl
  | cons x xs ih =>
    rw [List.cons_append, Buffer.writeBytes, Buffer.writeBytes, List.length_cons, ih,
      show p + 1 + xs.length = p + (xs.length + 1) by omega]

theorem writeBytes_mem_below (b : Buffer) (p : Nat) (xs : List Nat) (a : Nat) (h : a < p) :
    (b.writeBytes p xs).mem a = b.mem a := by
  induction xs generalizing b p with
  | nil => rfl
  | cons x xs ih =>
    rw [Buffer.writeBytes, ih _ _ (by omega)]
    simp only [Buffer.store]
    rw [if_neg (by omega)]

theorem writeBytes_mem_above (b : Buffer) (p : Nat) (xs : List Nat) (a : Nat)
    (h : p + xs.length ≤ a) : (b.writeBytes p xs).mem a = b.mem a := by
  induction xs generalizing b p with
  | nil => rfl
  | cons x xs ih =>
    rw [List.length_cons] at h
    rw [Buffer.writeBytes, ih _ _ (by omega)]
    simp only [Buffer.store]
    rw [if_neg (by omega)]

theorem readBytes_writeBytes (b : Buffer) (p : Nat) (xs : List Nat) :
    readBytes (b.writeBytes p xs).mem p xs.length = xs := by
  induction xs generalizing b p with
  | nil => rfl
  | cons x xs ih =>
    rw [Buffer.writeBytes, List.length_cons, readBytes, ih,
      writeBytes_mem_below _ _ _ _ (Nat.lt_succ_self p)]
    simp [Buffer.store]

theorem writeBytes_written (b : Buffer) (p : Nat) (xs : List Nat) :
    (b.writeBytes p xs).written = (List.range' p xs.length).reverse ++ b.written := by
  induction xs generalizing b p with
  | nil => rfl
  | cons x xs ih =>
    rw [Buffer.writeBytes, ih]
    simp [Buffer.store, List.range']

/-! ## The first block -/

theorem print_9_digits_1 (s32 : Nat) (h1 : 1 ≤ s32) (h2 : s32 < 10)
    (e : Int) (p : Nat) (b : Buffer) :
    print_9_digits s32 e p b
      = some (e + ((digitCount s32 : Nat) : Int) - 1, p + (significandText s32).length,
          b.writeBytes p (significandText s32)) := by
  have hd := digits_of_range 0 s32 (by omega) (by omega)
  simp only [print_9_digits, if_pos (show s32 < 100 by omega), if_pos (show s32 < 10 by omega),
    char_toNat_0]
  simp only [significandText, insertPoint, decimalBytes, digitCount, hd, lowDigits, List.reverse_cons, List.reverse_nil,
    List.nil_append, List.cons_append, List.map_cons, List.map_nil, Buffer.writeBytes,
    List.length_cons, List.length_nil, char_of_int, char_of_nat, u32_eq]
  clear hd
  refine congrArg some (Prod.ext ?_ (Prod.ext ?_ ?_))
  · simp only; omega
  · simp only
  · simp only
    repeat' (first | with_reducible rfl | apply store_congr)
    all_goals omega

theorem print_9_digits_2 (s32 : Nat) (h1 : 10 ≤ s32) (h2 : s32 < 100)
    (e : Int) (p : Nat) (b : Buffer) :
    print_9_digits s32 e p b
      = some (e + ((digitCount s32 : Nat) : Int) - 1, p + (significandText s32).length,
          b.writeBytes p (significandText s32)) := by
  have hd := digits_of_range 1 s32 (by omega) (by omega)
  have hti : to_int s32 = (s32 : Int) := to_int_small _ (by omega)
  simp only [print_9_digits, if_pos (show s32 < 100 by omega), if_neg (show ¬ s32 < 10 by omega),
    hti, read_table_hi s32 h2, read_table_lo s32 h2, char_toNat_dot]
  simp only [significandText, insertPoint, decimalBytes, digitCount, hd, lowDigits, List.reverse_cons, List.reverse_nil,
    List.nil_append, List.cons_append, List.map_cons, List.map_nil, Buffer.writeBytes,
    List.length_cons, List.length_nil, char_of_int, char_of_nat, u32_eq]
  clear hd hti
  refine congrArg some (Prod.ext ?_ (Prod.ext ?_ ?_))
  · simp only; omega
  · simp only
  · simp only
    repeat' (first | with_reducible rfl | apply store_congr)
    all_goals omega

theorem print_9_digits_3 (s32 : Nat) (h1 : 100 ≤ s32) (h2 : s32 < 1000)
    (e : Int) (p : Nat) (b : Buffer) :
    print_9_digits s32 e p b
      = some (e + ((digitCount s32 : Nat) : Int) - 1, p + (significandText s32).length,
          b.writeBytes p (significandText s32)) := by
  have hd := digits_of_range 2 s32 (by omega) (by omega)
  have hu : u64 (s32 * 42949673) = s32 * 42949673 := Nat.mod_eq_of_lt (by omega)
  obtain ⟨g0, g1⟩ := fx_chain1 s32 (s32 * 42949673) (by unfold Fx; omega)
  have hti : to_int (s32 / 100) = ((s32 / 100 : Nat) : Int) := to_int_small _ (by omega)
  have hlt : ((s32 / 100 : Nat) : Int) < 10 := by omega
  simp only [print_9_digits, if_neg (show ¬ s32 < 100 by omega), if_pos (show s32 < 1000000 by omega),
    if_pos (show s32 < 10000 by omega),
    hu, shr16, shr32, u32_eq, u64_step, copy_step, g0, hti, if_pos hlt,
    char_toNat_0, char_toNat_dot]
  simp only [g1,
    significandText, insertPoint, decimalBytes, digitCount, hd, lowDigits, List.reverse_cons, List.reverse_nil,
    List.nil_append, List.cons_append, List.map_cons, List.map_nil, Buffer.writeBytes,
    List.length_cons, List.length_nil, char_of_int, char_of_nat, u32_eq]
  clear hu g0 g1 hti hlt hd
  refine congrArg some (Prod.ext ?_ (Prod.ext ?_ ?_))
  · simp only; omega
  · simp only
  · simp only
    repeat' (first | with_reducible rfl | apply store_congr)
    all_goals omega

theorem print_9_digits_4 (s32 : Nat) (h1 : 1000 ≤ s32) (h2 : s32 < 10000)
    (e : Int) (p : Nat) (b : Buffer) :
    print_9_digits s32 e p b
      = some (e + ((digitCount s32 : Nat) : Int) - 1, p + (significandText s32).length,
          b.writeBytes p (significandText s32)) := by
  have hd := digits_of_range 3 s32 (by omega) (by omega)
  have hu : u64 (s32 * 42949673) = s32 * 42949673 := Nat.mod_eq_of_lt (by omega)
  obtain ⟨g0, g1⟩ := fx_chain1 s32 (s32 * 42949673) (by unfold Fx; omega)
  have hti : to_int (s32 / 100) = ((s32 / 100 : Nat) : Int) := to_int_small _ (by omega)
  have hlt : ¬ ((s32 / 100 : Nat) : Int) < 10 := by omega
  have hq : s32 / 100 < 100 := by omega
  simp only [print_9_digits, if_neg (show ¬ s32 < 100 by omega), if_pos (show s32 < 1000000 by omega),
    if_pos (show s32 < 10000 by omega),
    hu, shr16, shr32, u32_eq, u64_step, copy_step, g0, hti, if_neg hlt,
    read_table_hi _ hq, read_table_lo _ hq, char_toNat_0, char_toNat_dot]
  simp only [g1,
    significandText, insertPoint, decimalBytes, digitCount, hd, lowDigits, List.reverse_cons, List.reverse_nil,
    List.nil_append, List.cons_append, List.map_cons, List.map_nil, Buffer.writeBytes,
    List.length_cons, List.length_nil, char_of_int, char_of_nat, u32_eq]
  clear hu g0 g1 hti hlt hd
  refine congrArg some (Prod.ext ?_ (Prod.ext ?_ ?_))
  · simp only; omega
  · simp only
  · simp only
    repeat' (first | with_reducible rfl | apply store_congr)
    all_goals omega

theorem print_9_digits_5 (s32 : Nat) (h1 : 10000 ≤ s32) (h2 : s32 < 100000)
    (e : Int) (p : Nat) (b : Buffer) :
    print_9_digits s32 e p b
      = some (e + ((digitCount s32 : Nat) : Int) - 1, p + (significandText s32).length,
          b.writeBytes p (significandText s32)) := by
  have hd := digits_of_range 4 s32 (by omega) (by omega)
  have hu : u64 (s32 * 429497) = s32 * 429497 := Nat.mod_eq_of_lt (by omega)
  obtain ⟨g0, g1, g2⟩ := fx_chain2 s32 (s32 * 429497) (by unfold Fx; omega)
  have hti : to_int (s32 / 10000) = ((s32 / 10000 : Nat) : Int) := to_int_small _ (by omega)
  have hlt : ((s32 / 10000 : Nat) : Int) < 10 := by omega
  simp only [print_9_digits, if_neg (show ¬ s32 < 100 by omega), if_pos (show s32 < 1000000 by omega),
    if_neg (show ¬ s32 < 10000 by omega),
    hu, shr16, shr32, u32_eq, u64_step, copy_step, g0, hti, if_pos hlt,
    char_toNat_0, char_toNat_dot]
  simp only [g1, g2,
    significandText, insertPoint, decimalBytes, digitCount, hd, lowDigits, List.reverse_cons, List.reverse_nil,
    List.nil_append, List.cons_append, List.map_cons, List.map_nil, Buffer.writeBytes,
    List.length_cons, List.length_nil, char_of_int, char_of_nat, u32_eq]
  clear hu g0 g1 g2 hti hlt hd
  refine congrArg some (Prod.ext ?_ (Prod.ext ?_ ?_))
  · simp only; omega
  · simp only
  · simp only
    repeat' (first | with_reducible rfl | apply store_congr)
    all_goals omega

theorem print_9_digits_6 (s32 : Nat) (h1 : 100000 ≤ s32) (h2 : s32 < 1000000)
    (e : Int) (p : Nat) (b : Buffer) :
    print_9_digits s32 e p b
      = some (e + ((digitCount s32 : Nat) : Int) - 1, p + (significandText s32).length,
          b.writeBytes p (significandText s32)) := by
  have hd := digits_of_range 5 s32 (by omega) (by omega)
  have hu : u64 (s32 * 429497) = s32 * 429497 := Nat.mod_eq_of_lt (by omega)
  obtain ⟨g0, g1, g2⟩ := fx_chain2 s32 (s32 * 429497) (by unfold Fx; omega)
  have hti : to_int (s32 / 10000) = ((s32 / 10000 : Nat) : Int) := to_int_small _ (by omega)
  have hlt : ¬ ((s32 / 10000 : Nat) : Int) < 10 := by omega
  have hq : s32 / 10000 < 100 := by omega
  simp only [print_9_digits, if_neg (show ¬ s32 < 100 by omega), if_pos (show s32 < 1000000 by omega),
    if_neg (show ¬ s32 < 10000 by omega),
    hu, shr16, shr32, u32_eq, u64_step, copy_step, g0, hti, if_neg hlt,
    read_table_hi _ hq, read_table_lo _ hq, char_toNat_0, char_toNat_dot]
  simp only [g1, g2,
    significandText, insertPoint, decimalBytes, digitCount, hd, lowDigits, List.reverse_cons, List.reverse_nil,
    List.nil_append, List.cons_append, List.map_cons, List.map_nil, Buffer.writeBytes,
    List.length_cons, List.length_nil, char_of_int, char_of_nat, u32_eq]
  clear hu g0 g1 g2 hti hlt hd
  refine congrArg some (Prod.ext ?_ (Prod.ext ?_ ?_))
  · simp only; omega
  · simp only
  · simp only
    repeat' (first | with_reducible rfl | apply store_congr)
    all_goals omega

theorem print_9_digits_7 (s32 : Nat) (h1 : 1000000 ≤ s32) (h2 : s32 < 10000000)
    (e : Int) (p : Nat) (b : Buffer) :
    print_9_digits s32 e p b
      = some (e + ((digitCount s32 : Nat) : Int) - 1, p + (significandText s32).length,
          b.writeBytes p (significandText s32)) := by
  have hd := digits_of_range 6 s32 (by omega) (by omega)
  have hu : u64 (s32 * 281474978) = s32 * 281474978 := Nat.mod_eq_of_lt (by omega)
  obtain ⟨g0, g1, g2, g3⟩ := fx_chain3 s32 (s32 * 281474978 / 65536) (by unfold Fx; omega)
  have hti : to_int (s32 / 1000000) = ((s32 / 1000000 : Nat) : Int) := to_int_small _ (by omega)
  have hlt : ((s32 / 1000000 : Nat) : Int) < 10 := by omega
  simp only [print_9_digits, if_neg (show ¬ s32 < 100 by omega), if_neg (show ¬ s32 < 1000000 by omega),
    if_pos (show s32 < 100000000 by omega),
    hu, shr16, shr32, u32_eq, u64_step, copy_step, g0, hti, if_pos hlt,
    char_toNat_0, char_toNat_dot]
  simp only [g1, g2, g3,
    significandText, insertPoint, decimalBytes, digitCount, hd, lowDigits, List.reverse_cons, List.reverse_nil,
    List.nil_append, List.cons_append, List.map_cons, List.map_nil, Buffer.writeBytes,
    List.length_cons, List.length_nil, char_of_int, char_of_nat, u32_eq]
  clear hu g0 g1 g2 g3 hti hlt hd
  refine congrArg some (Prod.ext ?_ (Prod.ext ?_ ?_))
  · simp only; omega
  · simp only
  · simp only
    repeat' (first | with_reducible rfl | apply store_congr)
    all_goals omega

theorem print_9_digits_8 (s32 : Nat) (h1 : 10000000 ≤ s32) (h2 : s32 < 100000000)
    (e : Int) (p : Nat) (b : Buffer) :
    print_9_digits s32 e p b
      = some (e + ((digitCount s32 : Nat) : Int) - 1, p + (significandText s32).length,
          b.writeBytes p (significandText s32)) := by
  have hd := digits_of_range 7 s32 (by omega) (by omega)
  have hu : u64 (s32 * 281474978) = s32 * 281474978 := Nat.mod_eq_of_lt (by omega)
  obtain ⟨g0, g1, g2, g3⟩ := fx_chain3 s32 (s32 * 281474978 / 65536) (by unfold Fx; omega)
  have hti : to_int (s32 / 1000000) = ((s32 / 1000000 : Nat) : Int) := to_int_small _ (by omega)
  have hlt : ¬ ((s32 / 1000000 : Nat) : Int) < 10 := by omega
  have hq : s32 / 1000000 < 100 := by omega
  simp only [print_9_digits, if_neg (show ¬ s32 < 100 by omega), if_neg (show ¬ s32 < 1000000 by omega),
    if_pos (show s32 < 100000000 by omega),
    hu, shr16, shr32, u32_eq, u64_step, copy_step, g0, hti, if_neg hlt,
    read_table_hi _ hq, read_table_lo _ hq, char_toNat_0, char_toNat_dot]
  simp only [g1, g2, g3,
    significandText, insertPoint, decimalBytes, digitCount, hd, lowDigits, List.reverse_cons, List.reverse_nil,
    List.nil_append, List.cons_append, List.map_cons, List.map_nil, Buffer.writeBytes,
    List.length_cons, List.length_nil, char_of_int, char_of_nat, u32_eq]
  clear hu g0 g1 g2 g3 hti hlt hd
  refine congrArg some (Prod.ext ?_ (Prod.ext ?_ ?_))
  · simp only; omega
  · simp only
  · simp only
    repeat' (first | with_reducible rfl | apply store_congr)
    all_goals omega

theorem print_9_digits_9 (s32 : Nat) (h1 : 100000000 ≤ s32) (h2 : s32 < 1000000000)
    (e : Int) (p : Nat) (b : Buffer) :
    print_9_digits s32 e p b
      = some (e + ((digitCount s32 : Nat) : Int) - 1, p + (significandText s32).length,
          b.writeBytes p (significandText s32)) := by
  have hd := digits_of_range 8 s32 (by omega) (by omega)
  have hu : u64 (s32 * 1441151882) = s32 * 1441151882 := Nat.mod_eq_of_lt (by omega)
  obtain ⟨g0, g1, g2, g3, g4⟩ :=
    fx_chain4 s32 (s32 * 1441151882 / 33554432) (by unfold Fx; omega)
  have hti : to_int (s32 / 100000000) = ((s32 / 100000000 : Nat) : Int) :=
    to_int_small _ (by omega)
  simp only [print_9_digits, if_neg (show ¬ s32 < 100 by omega),
    if_neg (show ¬ s32 < 1000000 by omega), if_neg (show ¬ s32 < 100000000 by omega),
    hu, shr25, shr32, u32_eq, u64_step, copy_step, g0, hti, char_toNat_0, char_toNat_dot]
  simp only [g1, g2, g3, g4,
    significandText, insertPoint, decimalBytes, digitCount, hd, lowDigits, List.reverse_cons, List.reverse_nil,
    List.nil_append, List.cons_append, List.map_cons, List.map_nil, Buffer.writeBytes,
    List.length_cons, List.length_nil, char_of_int, char_of_nat, u32_eq]
  clear hu g0 g1 g2 g3 g4 hti hd
  refine congrArg some (Prod.ext ?_ (Prod.ext ?_ ?_))
  · simp only; omega
  · simp only
  · simp only
    repeat' (first | with_reducible rfl | apply store_congr)
    all_goals omega

/-- What `print_9_digits` does on a significand of 1 to 9 digits: the exponent grows by
the digit count minus one and the significand text is stored from `p` on. -/
theorem print_9_digits_spec (s32 : Nat) (h1 : 1 ≤ s32) (h2 : s32 < 1000000000)
    (e : Int) (p : Nat) (b : Buffer) :
    print_9_digits s32 e p b
      = some (e + ((digitCount s32 : Nat) : Int) - 1, p + (significandText s32).length,
          b.writeBytes p (significandText s32)) := by
  by_cases c1 : s32 < 10
  · exact print_9_digits_1 s32 h1 c1 e p b
  by_cases c2 : s32 < 100
  · exact print_9_digits_2 s32 (by omega) c2 e p b
  by_cases c3 : s32 < 1000
  · exact print_9_digits_3 s32 (by omega) c3 e p b
  by_cases c4 : s32 < 10000
  · exact print_9_digits_4 s32 (by omega) c4 e p b
  by_cases c5 : s32 < 100000
  · exact print_9_digits_5 s32 (by omega) c5 e p b
  by_cases c6 : s32 < 1000000
  · exact print_9_digits_6 s32 (by omega) c6 e p b
  by_cases c7 : s32 < 10000000
  · exact print_9_digits_7 s32 (by omega) c7 e p b
  by_cases c8 : s32 < 100000000
  · exact print_9_digits_8 s32 (by omega) c8 e p b
  · exact print_9_digits_9 s32 (by omega) h2 e p b

/-! ## The exponent suffix and the two printers -/

theorem natText_1 (n : Nat) (h : n < 10) : natText n = [48 + n] := by
  unfold natText
  by_cases h0 : n = 0
  · subst h0; rfl
  · rw [if_neg h0]
    unfold decimalBytes
    rw [digits_of_range 0 n (by simp; omega) (by simpa using h)]
    simp only [lowDigits, List.reverse_cons, List.reverse_nil, List.nil_append, List.map_cons,
      List.map_nil]
    congr 2
    omega

theorem natText_2 (n : Nat) (h1 : 10 ≤ n) (h2 : n < 100) :
    natText n = [48 + n / 10, 48 + n % 10] := by
  unfold natText
  rw [if_neg (by omega)]
  unfold decimalBytes
  rw [digits_of_range 1 n (by simpa using h1) (by simpa using h2)]
  simp only [lowDigits, List.reverse_cons, List.reverse_nil, List.nil_append, List.map_cons,
    List.map_nil, List.cons_append]
  congr 2
  omega

theorem natText_3 (n : Nat) (h1 : 100 ≤ n) (h2 : n < 1000) :
    natText n = [48 + n / 100, 48 + n / 10 % 10, 48 + n % 10] := by
  unfold natText
  rw [if_neg (by omega)]
  unfold decimalBytes
  rw [digits_of_range 2 n (by simpa using h1) (by simpa using h2)]
  simp only [lowDigits, List.reverse_cons, List.reverse_nil, List.nil_append, List.map_cons,
    List.map_nil, List.cons_append]
  congr 2
  omega

theorem exp3_arith (n : Nat) (h1 : 100 ≤ n) (h2 : n < 1000) :
    u32 (u32_of_int (n : Int) * 6554) >>> 16 = n / 10
    ∧ u32 (u16 (u32 (u32_of_int (n : Int) * 6554)) * 5) >>> 15 = n % 10 := by
  have h0 : u32_of_int (n : Int) = n := by
    unfold u32_of_int
    omega
  have m1 : n * 6554 % 4294967296 = n * 6554 := Nat.mod_eq_of_lt (by omega)
  have d1 : n * 6554 / 65536 = n / 10 := by omega
  have m2 : n * 6554 % 65536 * 5 % 4294967296 = n * 6554 % 65536 * 5 :=
    Nat.mod_eq_of_lt (by omega)
  have d2 : n * 6554 % 65536 * 5 / 32768 = n % 10 := by omega
  rw [h0]
  simp only [u32, u16, Nat.shiftRight_eq_div_pow, Nat.reducePow, m1, m2, d1, d2, and_self]

theorem print_exponent_float_spec (x : Int) (hx1 : -100 < x) (hx2 : x < 100) (q : Nat)
    (b : Buffer) :
    print_exponent_float x q b
      = some (q + (exponentText x).length, b.writeBytes q (exponentText x)) := by
  unfold print_exponent_float
  simp only [copy_E_minus, char_toNat_E, char_toNat_0]
  have key : ∀ (n : Nat) (q : Nat) (b : Buffer), n < 100 →
      (if (n : Int) ≥ 10 then
          match copy_memory_small radix_100_table ((n : Int) * 2) q 2 b with
          | none => none
          | some b => some (q + 2, b)
        else
          some (q + 1, b.store (q + 0) (char_of_int (((48 : Nat) : Int) + (n : Int)))))
        = some (q + (natText n).length, b.writeBytes q (natText n)) := by
    intro n q b hn
    by_cases h10 : n < 10
    · rw [if_neg (by omega), natText_1 n h10]
      simp only [char_of_int, Buffer.writeBytes, List.length_cons, List.length_nil]
      refine congrArg some (Prod.ext ?_ ?_)
      · simp only
      · simp only
        repeat' (first | with_reducible rfl | apply store_congr)
        all_goals omega
    · rw [if_pos (by omega), copy_pair n (by omega), natText_2 n (by omega) (by omega)]
      simp only [Buffer.writeBytes, List.length_cons, List.length_nil]
  by_cases hneg : x < 0
  · obtain ⟨n, rfl⟩ : ∃ n : Nat, x = -(n : Int) := ⟨x.natAbs, by omega⟩
    simp only [if_pos hneg, neg_neg, exponentText, Int.natAbs_neg, Int.natAbs_ofNat]
    rw [key n _ _ (by omega)]
    simp only [Buffer.writeBytes, List.cons_append, List.nil_append, List.length_cons]
    refine congrArg some (Prod.ext ?_ ?_)
    · simp only; omega
    · rfl
  · obtain ⟨n, rfl⟩ : ∃ n : Nat, x = (n : Int) := ⟨x.toNat, by omega⟩
    simp only [if_neg hneg, exponentText, Int.natAbs_ofNat]
    rw [key n _ _ (by omega)]
    simp only [Buffer.writeBytes, List.cons_append, List.nil_append, List.length_cons]
    refine congrArg some (Prod.ext ?_ ?_)
    · simp only; omega
    · rfl

theorem to_chars_float_eq (s32 : Nat) (h1 : 1 ≤ s32) (h2 : s32 < 1000000000) (e : Int)
    (p : Nat) (b : Buffer) :
    to_chars_float s32 e p b
      = print_exponent_float (adjustedExponent s32 e) (p + (significandText s32).length)
          (b.writeBytes p (significandText s32)) := by
  unfold to_chars_float adjustedExponent
  rw [print_9_digits_spec s32 h1 h2]

theorem to_chars_float_spec (s32 : Nat) (h1 : 1 ≤ s32) (h2 : s32 < 1000000000) (e : Int)
    (hx1 : -100 < adjustedExponent s32 e) (hx2 : adjustedExponent s32 e < 100)
    (p : Nat) (b : Buffer) :
    to_chars_float s32 e p b
      = some (p + (sciText s32 e).length, b.writeBytes p (sciText s32 e)) := by
  rw [to_chars_float_eq s32 h1 h2, print_exponent_float_spec _ hx1 hx2]
  unfold sciText
  rw [writeBytes_append, List.length_append, ← Nat.add_assoc]
  rfl

theorem split_arith (s : Nat) (h1 : 1000000000 ≤ s) (h2 : s < 100000000000000000) :
    u32 (s / 100000000) = s / 100000000
    ∧ u32 (u32 s + 2 ^ 32 - u32 (s / 100000000 * 100000000)) = s % 100000000 := by
  simp only [u32]
  constructor <;> omega

theorem decimalBytes_split (k n : Nat) (h : 10 ^ k ≤ n) :
    decimalBytes n = decimalBytes (n / 10 ^ k) ++ (lowDigits k n).reverse.map (fun d => 48 + d) := by
  unfold decimalBytes
  rw [digits_split k n h, List.reverse_append, List.map_append]

theorem decimalBytes_two (n : Nat) (h : 10 ≤ n) :
    ∃ d d2 r, decimalBytes n = d :: d2 :: r := by
  have h1 := decimalBytes_split 1 n (by simpa using h)
  have hne : Nat.digits 10 (n / 10 ^ 1) ≠ [] := by
    rw [Nat.digits_ne_nil_iff_ne_zero]
    norm_num
    omega
  unfold decimalBytes at h1 ⊢
  rw [h1]
  cases hr : (Nat.digits 10 (n / 10 ^ 1)).reverse with
  | nil => simp at hr; exact absurd hr hne
  | cons a l =>
    cases l with
    | nil => exact ⟨_, _, _, rfl⟩
    | cons a2 l2 => exact ⟨_, _, _, rfl⟩

theorem significandText_split (s : Nat) (h : 1000000000 ≤ s) :
    significandText s
        = significandText (s / 100000000) ++ (lowDigits 8 s).reverse.map (fun d => 48 + d)
    ∧ digitCount s = digitCount (s / 100000000) + 8 := by
  have h8 : (10 : Nat) ^ 8 = 100000000 := by norm_num
  have hs := decimalBytes_split 8 s (by omega)
  rw [h8] at hs
  obtain ⟨d, d2, r, hd⟩ := decimalBytes_two (s / 100000000) (by omega)
  constructor
  · unfold significandText
    rw [hs, hd]
    rfl
  · unfold digitCount
    rw [digits_split 8 s (by omega), List.length_append, lowDigits_length, h8, Nat.add_comm]

theorem print_exponent_double_spec (x : Int) (hx1 : -1000 < x) (hx2 : x < 1000) (q : Nat)
    (b : Buffer) :
    print_exponent_double x q b
      = some (q + (exponentText x).length, b.writeBytes q (exponentText x)) := by
  unfold print_exponent_double
  simp only [copy_E_minus, char_toNat_E, char_toNat_0]
  have key : ∀ (n : Nat) (q : Nat) (b : Buffer), n < 1000 →
      (if (n : Int) ≥ 100 then
          match copy_memory_small radix_100_table
            ((u32 (u32 (u32_of_int (n : Int) * 6554) >>> 16 * 2) : Nat) : Int) q 2 b with
          | none => none
          | some b => some (q + 3, b.store (q + 2) (char_of_nat (u32 (48 +
              u32 (u16 (u32 (u32_of_int (n : Int) * 6554)) * 5) >>> 15))))
        else if (n : Int) ≥ 10 then
          match copy_memory_small radix_100_table ((n : Int) * 2) q 2 b with
          | none => none
          | some b => some (q + 2, b)
        else
          some (q + 1, b.store (q + 0) (char_of_int (((48 : Nat) : Int) + (n : Int)))))
        = some (q + (natText n).length, b.writeBytes q (natText n)) := by
    intro n q b hn
    by_cases h100 : n < 100
    · rw [if_neg (by omega)]
      by_cases h10 : n < 10
      · rw [if_neg (by omega), natText_1 n h10]
        simp only [char_of_int, Buffer.writeBytes, List.length_cons, List.length_nil]
        refine congrArg some (Prod.ext ?_ ?_)
        · simp only
        · simp only
          repeat' (first | with_reducible rfl | apply store_congr)
          all_goals omega
      · rw [if_pos (by omega), copy_pair n (by omega), natText_2 n (by omega) (by omega)]
        simp only [Buffer.writeBytes, List.length_cons, List.length_nil]
    · obtain ⟨a1, a2⟩ := exp3_arith n (by omega) (by omega)
      have hu : u32 (n / 10 * 2) = n / 10 * 2 := Nat.mod_eq_of_lt (by omega)
      have hc : ((n / 10 * 2 : Nat) : Int) = ((n / 10 : Nat) : Int) * 2 := by push_cast; rfl
      rw [if_pos (by omega), a1, a2, hu, hc, copy_pair (n / 10) (by omega),
        natText_3 n (by omega) hn]
      simp only [char_of_nat, u32, Buffer.writeBytes, List.length_cons, List.length_nil]
      refine congrArg some (Prod.ext ?_ ?_)
      · simp only
      · simp only
        repeat' (first | with_reducible rfl | apply store_congr)
        all_goals omega
  by_cases hneg : x < 0
  · obtain ⟨n, rfl⟩ : ∃ n : Nat, x = -(n : Int) := ⟨x.natAbs, by omega⟩
    simp only [if_pos hneg, neg_neg, exponentText, Int.natAbs_neg, Int.natAbs_ofNat]
    rw [key n _ _ (by omega)]
    simp only [Buffer.writeBytes, List.cons_append, List.nil_append, List.length_cons]
    refine congrArg some (Prod.ext ?_ ?_)
    · simp only; omega
    · rfl
  · obtain ⟨n, rfl⟩ : ∃ n : Nat, x = (n : Int) := ⟨x.toNat, by omega⟩
    simp only [if_neg hneg, exponentText, Int.natAbs_ofNat]
    rw [key n _ _ (by omega)]
    simp only [Buffer.writeBytes, List.cons_append, List.nil_append, List.length_cons]
    refine congrArg some (Prod.ext ?_ ?_)
    · simp only; omega
    · rfl

theorem u64_u32_step (y : Nat) : u64 (u32 y * 100) = y % 4294967296 * 100 := by
  rw [u32_eq, u64_step]

theorem writeBytes_congr {b c : Buffer} {a a1 : Nat} (l : List Nat) (hb : b = c) (ha : a = a1) :
    b.writeBytes a l = c.writeBytes a1 l := by
  subst hb ha
  rfl

theorem second_block_arith (n : Nat) (h : n < 100000000) :
    u64 (u64 (n * 281474978) >>> 16 + 1) = n * 281474978 / 65536 + 1
    ∧ Fx 1000000 n (n * 281474978 / 65536 + 1) := by
  have hu : u64 (n * 281474978) = n * 281474978 := Nat.mod_eq_of_lt (by omega)
  rw [hu, shr16]
  refine ⟨Nat.mod_eq_of_lt (by omega), ?_⟩
  unfold Fx
  omega

theorem to_chars_double_eq (s : Nat) (h1 : 1 ≤ s) (h2 : s < 100000000000000000) (e : Int)
    (p : Nat) (b : Buffer) :
    to_chars_double s e p b
      = print_exponent_double (adjustedExponent s e) (p + (significandText s).length)
          (b.writeBytes p (significandText s)) := by
  unfold to_chars_double adjustedExponent
  by_cases hs : s < 1000000000
  · have hu : u32 s = s := Nat.mod_eq_of_lt (by omega)
    simp only [if_pos hs, hu, print_9_digits_spec s h1 hs, Bool.false_eq_true, if_false]
  · obtain ⟨a1, a2⟩ := split_arith s (by omega) h2
    obtain ⟨t1, t2⟩ := significandText_split s (by omega)
    obtain ⟨c1, c2⟩ := second_block_arith (s % 100000000) (by omega)
    obtain ⟨g0, g1, g2, g3⟩ := fx_chain3 _ _ c2
    have hti : to_int (s % 100000000 / 1000000) = ((s % 100000000 / 1000000 : Nat) : Int) :=
      to_int_small _ (by omega)
    simp only [if_neg hs, a1, a2, print_9_digits_spec (s / 100000000) (by omega) (by omega),
      if_true, c1, shr32, u64_u32_step, u64_step, copy_step, g0, hti,
      copy_pair (s % 100000000 / 1000000) (by omega)]
    simp only [g1, g2, g3]
    have hxe : e + ((digitCount (s / 100000000) : Nat) : Int) - 1 + 8
        = e + ((digitCount s : Nat) : Int) - 1 := by
      rw [t2]
      push_cast
      ring
    rw [hxe, t1, writeBytes_append, List.length_append]
    simp only [lowDigits, List.reverse_cons, List.reverse_nil, List.nil_append, List.cons_append,
      List.map_cons, List.map_nil, Buffer.writeBytes, List.length_cons, List.length_nil]
    clear a1 a2 t1 t2 c1 c2 g0 g1 g2 g3 hti hxe
    refine congr (congrArg (print_exponent_double _) ?_) ?_
    · omega
    · repeat' (first | with_reducible rfl | apply store_congr)
      all_goals omega

theorem to_chars_double_spec (s : Nat) (h1 : 1 ≤ s) (h2 : s < 100000000000000000) (e : Int)
    (hx1 : -1000 < adjustedExponent s e) (hx2 : adjustedExponent s e < 1000)
    (p : Nat) (b : Buffer) :
    to_chars_double s e p b
      = some (p + (sciText s e).length, b.writeBytes p (sciText s e)) := by
  rw [to_chars_double_eq s h1 h2, print_exponent_double_spec _ hx1 hx2]
  unfold sciText
  rw [writeBytes_append, List.length_append, ← Nat.add_assoc]
  rfl

/-! ## Reading the text back -/

theorem foldl_reverse_ofDigits (l : List Nat) :
    l.reverse.foldl (fun a d => a * 10 + d) 0 = Nat.ofDigits 10 l := by
  induction l with
  | nil => rfl
  | cons x l ih =>
    rw [List.reverse_cons, List.foldl_append, ih, Nat.ofDigits_cons]
    simp only [List.foldl_cons, List.foldl_nil]
    omega

theorem decimalBytes_form (s : Nat) (h : 1 ≤ s) :
    ∃ a l, decimalBytes s = (48 + a) :: l.map (fun d => 48 + d) ∧ 1 ≤ a ∧ a ≤ 9
      ∧ (∀ x ∈ l, x < 10) ∧ (a :: l).foldl (fun acc d => acc * 10 + d) 0 = s
      ∧ digitCount s = l.length + 1 := by
  have hne : Nat.digits 10 s ≠ [] := by
    rw [Nat.digits_ne_nil_iff_ne_zero]
    omega
  have hlast := Nat.getLast_digit_ne_zero 10 (show s ≠ 0 by omega)
  have hfold := foldl_reverse_ofDigits (Nat.digits 10 s)
  rw [Nat.ofDigits_digits] at hfold
  have hlt : ∀ x ∈ (Nat.digits 10 s).reverse, x < 10 := by
    intro x hx
    exact Nat.digits_lt_base (by norm_num) (List.mem_reverse.mp hx)
  have hlen : digitCount s = (Nat.digits 10 s).reverse.length := by
    rw [List.length_reverse]
    rfl
  have hhead : ∀ a l, (Nat.digits 10 s).reverse = a :: l → a ≠ 0 := by
    intro a l hr
    have h2 : Nat.digits 10 s = (a :: l).reverse := by
      rw [← hr, List.reverse_reverse]
    have h3 : (Nat.digits 10 s).getLast hne = a := by
      simp [h2]
    rw [← h3]
    exact hlast
  unfold decimalBytes
  cases hr : (Nat.digits 10 s).reverse with
  | nil => simp at hr; exact absurd hr hne
  | cons a l =>
    rw [hr] at hfold hlt hlen
    have ha0 := hhead a l hr
    have ha10 := hlt a (List.mem_cons_self a l)
    refine ⟨a, l, rfl, by omega, by omega, ?_, hfold, ?_⟩
    · intro x hx
      exact hlt x (List.mem_cons_of_mem a hx)
    · rw [hlen, List.length_cons]

theorem parseDigits_map (l : List Nat) (h : ∀ x ∈ l, x < 10) (acc : Nat) :
    parseDigits (l.map (fun d => 48 + d)) acc
      = some (l.foldl (fun a d => a * 10 + d) acc) := by
  induction l generalizing acc with
  | nil => rfl
  | cons x l ih =>
    have hx := h x (List.mem_cons_self x l)
    have hd : digitValue (48 + x) = some x := by
      unfold digitValue
      rw [if_pos (by omega)]
      congr 1
      omega
    rw [List.map_cons, parseDigits, hd]
    exact ih (fun y hy => h y (List.mem_cons_of_mem x hy)) _

theorem span_E (xs ys : List Nat) (h : ∀ x ∈ xs, x ≠ 69) :
    (xs ++ 69 :: ys).span (fun c => c != 69) = (xs, 69 :: ys) := by
  rw [List.span_eq_take_drop]
  induction xs with
  | nil => rfl
  | cons x xs ih =>
    have hx : (x != 69) = true := by
      simpa using h x (List.mem_cons_self x xs)
    have ih2 := ih (fun y hy => h y (List.mem_cons_of_mem x hy))
    rw [Prod.mk.injEq] at ih2
    rw [List.cons_append, List.takeWhile_cons, List.dropWhile_cons, hx]
    simp only [if_true]
    rw [ih2.1, ih2.2]

theorem natText_form (n : Nat) :
    ∃ a l, natText n = (48 + a) :: l.map (fun d => 48 + d) ∧ a ≤ 9
      ∧ (∀ x ∈ l, x < 10) ∧ (a :: l).foldl (fun acc d => acc * 10 + d) 0 = n
      ∧ (l = [] ∨ a ≠ 0) := by
  by_cases h : n = 0
  · subst h
    exact ⟨0, [], rfl, by omega, by simp, rfl, Or.inl rfl⟩
  · obtain ⟨a, l, h1, h2, h3, h4, h5, _⟩ := decimalBytes_form n (by omega)
    refine ⟨a, l, ?_, h3, h4, h5, Or.inr (by omega)⟩
    unfold natText
    rw [if_neg h, h1]

theorem significandText_form (s : Nat) (h : 1 ≤ s) :
    ∃ a l, significandText s
        = (48 + a) :: (if l = [] then [] else 46 :: l.map (fun d => 48 + d))
      ∧ 1 ≤ a ∧ a ≤ 9 ∧ (∀ x ∈ l, x < 10)
      ∧ (a :: l).foldl (fun acc d => acc * 10 + d) 0 = s
      ∧ digitCount s = l.length + 1 := by
  obtain ⟨a, l, h1, h2, h3, h4, h5, h6⟩ := decimalBytes_form s h
  refine ⟨a, l, ?_, h2, h3, h4, h5, h6⟩
  unfold significandText
  rw [h1]
  cases l with
  | nil => rfl
  | cons x l => rfl

theorem significandText_no_E (s : Nat) (h : 1 ≤ s) : ∀ x ∈ significandText s, x ≠ 69 := by
  obtain ⟨a, l, h1, h2, h3, h4, _, _⟩ := significandText_form s h
  intro x hx
  rw [h1] at hx
  by_cases hl : l = []
  · rw [if_pos hl] at hx
    simp only [List.mem_cons, List.mem_singleton, List.not_mem_nil, or_false] at hx
    omega
  · rw [if_neg hl] at hx
    simp only [List.mem_cons, List.mem_map] at hx
    rcases hx with hx | hx | ⟨y, hy, hx⟩
    · omega
    · omega
    · have := h4 y hy
      omega

theorem parseMantissa_significandText (s : Nat) (h : 1 ≤ s) :
    parseMantissa (significandText s) = some (s, digitCount s - 1) := by
  obtain ⟨a, l, h1, h2, h3, h4, h5, h6⟩ := significandText_form s h
  have hal : ∀ x ∈ a :: l, x < 10 := by
    intro x hx
    rcases List.mem_cons.mp hx with hx | hx
    · omega
    · exact h4 x hx
  have hp := parseDigits_map (a :: l) hal 0
  rw [h5, List.map_cons] at hp
  rw [h1, h6, Nat.add_sub_cancel]
  cases l with
  | nil =>
    rw [if_pos rfl]
    simp only [parseMantissa]
    rw [List.map_nil] at hp
    rw [hp]
    rfl
  | cons x l =>
    rw [if_neg (by simp)]
    rw [List.map_cons] at hp
    simp [parseMantissa, hp]

theorem parseExponent_exponentText (x : Int) :
    ∃ r, exponentText x = 69 :: r ∧ parseExponent r = some x := by
  obtain ⟨a, l, h1, h2, h3, h4, _⟩ := natText_form x.natAbs
  have hal : ∀ y ∈ a :: l, y < 10 := by
    intro y hy
    rcases List.mem_cons.mp hy with hy | hy
    · omega
    · exact h3 y hy
  have hp := parseDigits_map (a :: l) hal 0
  rw [h4, List.map_cons, ← h1] at hp
  refine ⟨_, rfl, ?_⟩
  by_cases hneg : x < 0
  · rw [if_pos hneg, List.singleton_append]
    have hne : natText x.natAbs ≠ [] := by rw [h1]; simp
    simp only [parseExponent, if_true, if_neg hne, hp, Option.map_some']
    congr 1
    omega
  · rw [if_neg hneg, List.nil_append, h1]
    simp only [parseExponent]
    rw [if_neg (by omega), ← h1, hp]
    simp only [Option.map_some']
    congr 1
    omega

theorem sciValue_sciText (s : Nat) (h : 1 ≤ s) (e : Int) :
    sciValue (sciText s e) = some ((s : ℚ) * (10 : ℚ) ^ e) := by
  obtain ⟨r, hr, hpe⟩ := parseExponent_exponentText (e + ((digitCount s : Nat) : Int) - 1)
  have hdc : 1 ≤ digitCount s := by
    obtain ⟨a, l, _, _, _, _, _, h6⟩ := significandText_form s h
    omega
  unfold sciText sciValue
  rw [hr, span_E _ _ (significandText_no_E s h)]
  simp only [parseMantissa_significandText s h, hpe]
  congr 3
  omega

theorem all_isDigit_map (l : List Nat) (h : ∀ x ∈ l, x < 10) :
    (l.map (fun d => 48 + d)).all isDigit = true := by
  rw [List.all_eq_true]
  intro y hy
  obtain ⟨x, hx, rfl⟩ := List.mem_map.mp hy
  have := h x hx
  unfold isDigit
  simp only [Bool.and_eq_true, decide_eq_true_eq]
  omega

theorem matchesGrammar_sciText (s : Nat) (h : 1 ≤ s) (e : Int) :
    matchesGrammar (sciText s e) = true := by
  obtain ⟨a, l, h1, h2, h3, h4, _, _⟩ := significandText_form s h
  obtain ⟨a1, l1, k1, k2, k3, _, k5⟩ :=
    natText_form (e + ((digitCount s : Nat) : Int) - 1).natAbs
  have hd1 : isDigit (48 + a1) = true := by
    unfold isDigit
    simp only [Bool.and_eq_true, decide_eq_true_eq]
    omega
  have hz : ((l1.map (fun d => 48 + d)).isEmpty || (48 + a1 != 48)) = true := by
    rcases k5 with k5 | k5
    · subst k5
      rfl
    · have : (48 + a1 != 48) = true := by simpa using k5
      rw [this, Bool.or_true]
  have hlead : (decide (49 ≤ 48 + a) && decide (48 + a ≤ 57)) = true := by
    simp only [Bool.and_eq_true, decide_eq_true_eq]
    omega
  have hfrac : (match (if l = [] then [] else 46 :: l.map (fun d => 48 + d)) with
        | [] => true
        | c :: f => c == 46 && !f.isEmpty && f.all isDigit) = true := by
    cases l with
    | nil => rfl
    | cons x l =>
      rw [if_neg (by simp)]
      simp only [all_isDigit_map _ h4]
      rfl
  unfold matchesGrammar sciText exponentText
  rw [span_E _ _ (significandText_no_E s h), h1, k1]
  simp only [hlead, hfrac, Bool.true_and]
  by_cases hneg : e + ((digitCount s : Nat) : Int) - 1 < 0
  · simp only [if_pos hneg, List.singleton_append, if_true, hd1, all_isDigit_map _ k3, hz,
      Bool.true_and]
  · have h45 : ¬ (48 + a1 = 45) := by omega
    simp only [if_neg hneg, List.nil_append, if_neg h45, hd1, all_isDigit_map _ k3, hz,
      Bool.true_and]

/-! ## Lengths and shapes of the texts -/

theorem digitCount_of_range (k n : Nat) (h1 : 10 ^ k ≤ n) (h2 : n < 10 ^ (k + 1)) :
    digitCount n = k + 1 := by
  unfold digitCount
  rw [digits_of_range k n h1 h2, lowDigits_length]

theorem digitCount_pos (n : Nat) (h : 1 ≤ n) : 1 ≤ digitCount n := by
  obtain ⟨a, l, _, _, _, _, _, h6⟩ := decimalBytes_form n h
  omega

theorem digitCount_lt_ten (n : Nat) (h1 : 1 ≤ n) : n < 10 ↔ digitCount n = 1 := by
  constructor
  · intro h
    exact digitCount_of_range 0 n (by simpa using h1) (by simpa using h)
  · intro h
    by_contra hc
    have h10 : 10 ^ 1 ≤ n := by norm_num; omega
    have := digits_split 1 n h10
    unfold digitCount at h
    rw [this, List.length_append, lowDigits_length] at h
    have hne : Nat.digits 10 (n / 10 ^ 1) ≠ [] := by
      rw [Nat.digits_ne_nil_iff_ne_zero]
      norm_num
      omega
    have := List.length_pos.mpr hne
    omega

theorem significandText_eq (s : Nat) (h : 1 ≤ s) :
    significandText s
      = (decimalBytes s).take 1 ++ (if 10 ≤ s then 46 :: (decimalBytes s).drop 1 else []) := by
  obtain ⟨a, l, h1, _, _, _, _, h6⟩ := decimalBytes_form s h
  have hlt := digitCount_lt_ten s h
  unfold significandText
  rw [h1]
  cases l with
  | nil =>
    rw [if_neg (by simp at h6; omega)]
    rfl
  | cons x l =>
    rw [if_pos (by simp at h6; omega)]
    rfl

theorem significandText_length (s : Nat) (h : 1 ≤ s) :
    (significandText s).length = if s < 10 then 1 else digitCount s + 1 := by
  obtain ⟨a, l, h1, _, _, _, _, h6⟩ := significandText_form s h
  have hlt := digitCount_lt_ten s h
  rw [h1]
  cases l with
  | nil =>
    rw [if_pos rfl, if_pos (by simp at h6; omega)]
    rfl
  | cons x l =>
    rw [if_neg (by simp), if_neg (by simp at h6; omega), h6]
    simp

theorem natText_length (n : Nat) (h : n < 1000) :
    (natText n).length = if n < 10 then 1 else if n < 100 then 2 else 3 := by
  by_cases h10 : n < 10
  · rw [if_pos h10, natText_1 n h10]
    rfl
  · rw [if_neg h10]
    by_cases h100 : n < 100
    · rw [if_pos h100, natText_2 n (by omega) h100]
      rfl
    · rw [if_neg h100, natText_3 n (by omega) h]
      rfl

theorem exponentText_length (x : Int) :
    (exponentText x).length = 1 + (if x < 0 then 1 else 0) + (natText x.natAbs).length := by
  unfold exponentText
  by_cases h : x < 0
  · simp only [if_pos h, List.length_cons, List.length_append, List.length_nil]
    omega
  · simp only [if_neg h, List.length_cons, List.length_append, List.length_nil]
    omega

theorem lowDigits_eq_digits (k n : Nat) (h : n < 10 ^ k) :
    lowDigits k n = Nat.digits 10 n ++ List.replicate (k - (Nat.digits 10 n).length) 0 := by
  induction k generalizing n with
  | zero =>
    have : n = 0 := by simpa using h
    subst this
    simp [lowDigits]
  | succ k ih =>
    have hk : n / 10 < 10 ^ k := by
      rw [Nat.div_lt_iff_lt_mul (by norm_num), ← pow_succ]
      exact h
    rw [lowDigits, ih (n / 10) hk]
    by_cases h0 : n = 0
    · subst h0
      simp [List.replicate_succ]
    · have hd := Nat.digits_def' (show 1 < 10 by norm_num) (show 0 < n by omega)
      rw [hd, List.length_cons, Nat.succ_sub_succ, List.cons_append]

theorem digitCount_le (k n : Nat) (h : n < 10 ^ k) : digitCount n ≤ k := by
  have h1 := congrArg List.length (lowDigits_eq_digits k n h)
  rw [lowDigits_length, List.length_append, List.length_replicate] at h1
  unfold digitCount
  omega

theorem zeroPadded_eq (k n : Nat) (h : n < 10 ^ k) :
    zeroPadded k n = (lowDigits k n).reverse.map (fun d => 48 + d) := by
  unfold zeroPadded decimalBytes
  rw [lowDigits_eq_digits k n h]
  simp

theorem readBytes_writeBytes_append (b : Buffer) (p : Nat) (xs ys zs : List Nat) :
    readBytes (b.writeBytes p (xs ++ ys ++ zs)).mem (p + xs.length) ys.length = ys := by
  rw [List.append_assoc, writeBytes_append, writeBytes_append]
  generalize b.writeBytes p xs = b1
  generalize p + xs.length = q
  have h : ∀ (m1 m2 : Nat → Nat) (q n : Nat), (∀ a, q ≤ a → a < q + n → m1 a = m2 a) →
      readBytes m1 q n = readBytes m2 q n := by
    intro m1 m2 q n
    induction n generalizing q with
    | zero => intro _; rfl
    | succ n ih =>
      intro hm
      rw [readBytes, readBytes, hm q (by omega) (by omega),
        ih (q + 1) (fun a h1 h2 => hm a (by omega) (by omega))]
  rw [h _ (b1.writeBytes q ys).mem q ys.length, readBytes_writeBytes]
  intro a _ h2
  exact writeBytes_mem_below _ _ _ _ h2

theorem significandText_of_range (k s : Nat) (h1 : 10 ^ k ≤ s) (h2 : s < 10 ^ (k + 1)) :
    significandText s = insertPoint ((lowDigits (k + 1) s).reverse.map (fun d => 48 + d)) := by
  unfold significandText decimalBytes
  rw [digits_of_range k s h1 h2]

theorem print_9_digits_read (s32 : Nat) (h1 : 1 ≤ s32) (h2 : s32 < 1000000000) (e : Int)
    (p : Nat) (b : Buffer) :
    ∃ b1, print_9_digits s32 e p b
        = some (adjustedExponent s32 e, p + (significandText s32).length, b1)
      ∧ readBytes b1.mem p (significandText s32).length = significandText s32
      ∧ b1.written = (List.range' p (significandText s32).length).reverse ++ b.written :=
  ⟨_, print_9_digits_spec s32 h1 h2 e p b, readBytes_writeBytes b p _,
    writeBytes_written b p _⟩

/-! ## The claims -/

/-- C1: for every `s32` with `1 ≤ s32 < 10^9` and every input exponent `e` whose adjusted
value has magnitude below 100, `to_chars<float>` returns, and the text it has written
(the bytes from the start of the buffer up to the returned pointer), read as decimal
scientific notation, denotes exactly the rational number `s32 × 10^e`. -/
theorem C1_float_text_denotes_value (s32 : Nat) (e : Int) (p : Nat) (b : Buffer)
    (h1 : 1 ≤ s32) (h2 : s32 < 10 ^ 9) (hx : |adjustedExponent s32 e| < 100) :
    ∃ q b1, to_chars_float s32 e p b = some (q, b1) ∧ p ≤ q
      ∧ sciValue (readBytes b1.mem p (q - p)) = some ((s32 : ℚ) * (10 : ℚ) ^ e) := by
  obtain ⟨hx1, hx2⟩ := abs_lt.mp hx
  refine ⟨_, _, to_chars_float_spec s32 h1 (by simpa using h2) e hx1 hx2 p b, by omega, ?_⟩
  rw [Nat.add_sub_cancel_left, readBytes_writeBytes, sciValue_sciText s32 h1]

theorem C1_witness :
    (1 ≤ 987654321 ∧ 987654321 < 10 ^ 9 ∧ |adjustedExponent 987654321 (-3)| < 100)
    ∧ ∃ q b1, to_chars_float 987654321 (-3) 0 ⟨fun _ => 0, []⟩ = some (q, b1) ∧ 0 ≤ q
      ∧ sciValue (readBytes b1.mem 0 (q - 0))
          = some (((987654321 : Nat) : ℚ) * (10 : ℚ) ^ (-3 : Int)) :=
  ⟨⟨by decide, by decide, by simp [adjustedExponent, digitCount]⟩,
    C1_float_text_denotes_value 987654321 (-3) 0 ⟨fun _ => 0, []⟩ (by decide) (by decide)
      (by simp [adjustedExponent, digitCount])⟩

/-- C2: for every significand `s` with `1 ≤ s < 10^17` and every input exponent `e` whose
adjusted value has magnitude below 1000, `to_chars<double>` returns, and the text it has
written, read as decimal scientific notation, denotes exactly the rational number
`s × 10^e`. -/
theorem C2_double_text_denotes_value (s : Nat) (e : Int) (p : Nat) (b : Buffer)
    (h1 : 1 ≤ s) (h2 : s < 10 ^ 17) (hx : |adjustedExponent s e| < 1000) :
    ∃ q b1, to_chars_double s e p b = some (q, b1) ∧ p ≤ q
      ∧ sciValue (readBytes b1.mem p (q - p)) = some ((s : ℚ) * (10 : ℚ) ^ e) := by
  obtain ⟨hx1, hx2⟩ := abs_lt.mp hx
  refine ⟨_, _, to_chars_double_spec s h1 (by simpa using h2) e hx1 hx2 p b, by omega, ?_⟩
  rw [Nat.add_sub_cancel_left, readBytes_writeBytes, sciValue_sciText s h1]

theorem C2_witness :
    (1 ≤ 12345678901234567 ∧ 12345678901234567 < 10 ^ 17
      ∧ |adjustedExponent 12345678901234567 (-340)| < 1000)
    ∧ ∃ q b1, to_chars_double 12345678901234567 (-340) 0 ⟨fun _ => 0, []⟩ = some (q, b1)
      ∧ 0 ≤ q
      ∧ sciValue (readBytes b1.mem 0 (q - 0))
          = some (((12345678901234567 : Nat) : ℚ) * (10 : ℚ) ^ (-340 : Int)) :=
  ⟨⟨by decide, by decide, by simp [adjustedExponent, digitCount]⟩,
    C2_double_text_denotes_value 12345678901234567 (-340) 0 ⟨fun _ => 0, []⟩ (by decide)
      (by decide) (by simp [adjustedExponent, digitCount])⟩

/-- C3: for every `s32` with `1 ≤ s32 < 10^9`, `print_9_digits` writes the leading decimal
digit of `s32` and then, if and only if `s32 ≥ 10`, a `.` followed by all the remaining
decimal digits in order (the digits are those of `Nat.digits`, so there is no leading zero
and trailing zeros are kept), and it advances the buffer by the number of characters
written: 1 when `s32 < 10`, digit count + 1 otherwise (the addresses stored to are exactly
those from the old to the new pointer). So 5 gives `5`, 123 gives `1.23` and 100000000
gives `1.00000000`. -/
theorem C3_print_9_digits_text :
    (∀ (s32 : Nat) (e : Int) (p : Nat) (b : Buffer), 1 ≤ s32 → s32 < 10 ^ 9 →
      ∃ x q b1, print_9_digits s32 e p b = some (x, q, b1)
        ∧ q = p + (if s32 < 10 then 1 else digitCount s32 + 1)
        ∧ readBytes b1.mem p (q - p)
            = (decimalBytes s32).take 1
              ++ (if 10 ≤ s32 then 46 :: (decimalBytes s32).drop 1 else [])
        ∧ b1.written = (List.range' p (q - p)).reverse ++ b.written
        ∧ (decimalBytes s32).length = digitCount s32
        ∧ (decimalBytes s32).head? ≠ some 48)
    ∧ (∀ (e : Int) (p : Nat) (b : Buffer), ∃ x b1,
        print_9_digits 5 e p b = some (x, p + 1, b1)
        ∧ readBytes b1.mem p 1 = bytesOf "5")
    ∧ (∀ (e : Int) (p : Nat) (b : Buffer), ∃ x b1,
        print_9_digits 123 e p b = some (x, p + 4, b1)
        ∧ readBytes b1.mem p 4 = bytesOf "1.23")
    ∧ (∀ (e : Int) (p : Nat) (b : Buffer), ∃ x b1,
        print_9_digits 100000000 e p b = some (x, p + 10, b1)
        ∧ readBytes b1.mem p 10 = bytesOf "1.00000000") := by
  refine ⟨?_, ?_, ?_, ?_⟩
  · intro s32 e p b h1 h2
    obtain ⟨b1, hb, hr, hw⟩ := print_9_digits_read s32 h1 (by simpa using h2) e p b
    obtain ⟨a, l, k1, k2, _, _, _, _⟩ := decimalBytes_form s32 h1
    refine ⟨_, _, b1, hb, ?_, ?_, ?_, ?_, ?_⟩
    · rw [significandText_length s32 h1]
    · rw [Nat.add_sub_cancel_left, hr, significandText_eq s32 h1]
    · rw [Nat.add_sub_cancel_left, hw]
    · unfold decimalBytes digitCount
      rw [List.length_map, List.length_reverse]
    · rw [k1, List.head?_cons]
      intro h
      have := Option.some.inj h
      omega
  · intro e p b
    obtain ⟨b1, hb, hr, _⟩ := print_9_digits_read 5 (by norm_num) (by norm_num) e p b
    have ht : significandText 5 = bytesOf "5" :=
      (significandText_of_range 0 5 (by norm_num) (by norm_num)).trans (by decide)
    rw [ht] at hb hr
    exact ⟨_, b1, hb, hr⟩
  · intro e p b
    obtain ⟨b1, hb, hr, _⟩ := print_9_digits_read 123 (by norm_num) (by norm_num) e p b
    have ht : significandText 123 = bytesOf "1.23" :=
      (significandText_of_range 2 123 (by norm_num) (by norm_num)).trans (by decide)
    rw [ht] at hb hr
    exact ⟨_, b1, hb, hr⟩
  · intro e p b
    obtain ⟨b1, hb, hr, _⟩ := print_9_digits_read 100000000 (by norm_num) (by norm_num) e p b
    have ht : significandText 100000000 = bytesOf "1.00000000" :=
      (significandText_of_range 8 100000000 (by norm_num) (by norm_num)).trans (by decide)
    rw [ht] at hb hr
    exact ⟨_, b1, hb, hr⟩

theorem C3_witness :
    (1 ≤ 123 ∧ 123 < 10 ^ 9)
    ∧ ∃ x q b1, print_9_digits 123 0 0 ⟨fun _ => 0, []⟩ = some (x, q, b1)
        ∧ q = 0 + (if 123 < 10 then 1 else digitCount 123 + 1)
        ∧ readBytes b1.mem 0 (q - 0)
            = (decimalBytes 123).take 1
              ++ (if 10 ≤ 123 then 46 :: (decimalBytes 123).drop 1 else [])
        ∧ b1.written
            = (List.range' 0 (q - 0)).reverse ++ (Buffer.mk (fun _ => 0) []).written
        ∧ (decimalBytes 123).length = digitCount 123
        ∧ (decimalBytes 123).head? ≠ some 48 :=
  ⟨⟨by decide, by decide⟩,
    C3_print_9_digits_text.1 123 0 0 ⟨fun _ => 0, []⟩ (by decide) (by decide)⟩

theorem zeroPadded_length (n : Nat) (h : n < 100000000) : (zeroPadded 8 n).length = 8 := by
  rw [zeroPadded_eq 8 n (by simpa using h), List.length_map, List.length_reverse,
    lowDigits_length]

theorem to_chars_double_small (s : Nat) (h : s < 1000000000) (e : Int) (p : Nat) (b : Buffer) :
    to_chars_double s e p b
      = match print_9_digits s e p b with
        | none => none
        | some (x, q, b1) => print_exponent_double x q b1 := by
  have hu : u32 s = s := Nat.mod_eq_of_lt (by omega)
  unfold to_chars_double
  simp only [if_pos h, hu, Bool.false_eq_true, if_false]

/-- C5: in `to_chars<double>` no second block is printed when the significand is below
`10^9` (the exponent is formatted right after what `print_9_digits` wrote for `s`), and for
every `s` with `10^9 ≤ s < 10^17` the first block `s / 10^8` is followed by a second block
of exactly 8 characters, the zero-padded 8-digit decimal representation of `s mod 10^8`,
before the exponent (then 8 larger) is formatted. -/
theorem C5_double_second_block :
    (∀ (s : Nat) (e : Int) (p : Nat) (b : Buffer), s < 10 ^ 9 →
      to_chars_double s e p b
        = match print_9_digits s e p b with
          | none => none
          | some (x, q, b1) => print_exponent_double x q b1)
    ∧ (∀ (s : Nat) (e : Int) (p : Nat) (b : Buffer), 10 ^ 9 ≤ s → s < 10 ^ 17 →
      ∃ x q b1, print_9_digits (s / 10 ^ 8) e p b = some (x, q, b1)
        ∧ to_chars_double s e p b
            = print_exponent_double (x + 8) (q + 8)
                (b1.writeBytes q (zeroPadded 8 (s % 10 ^ 8)))
        ∧ (zeroPadded 8 (s % 10 ^ 8)).length = 8
        ∧ readBytes (b1.writeBytes q (zeroPadded 8 (s % 10 ^ 8))).mem q 8
            = zeroPadded 8 (s % 10 ^ 8))
    ∧ (∀ (s : Nat) (e : Int) (p : Nat) (b : Buffer), 10 ^ 9 ≤ s → s < 10 ^ 17 →
      |adjustedExponent s e| < 1000 →
      ∃ q b1, to_chars_double s e p b = some (q, b1)
        ∧ readBytes b1.mem p (q - p)
            = significandText (s / 10 ^ 8) ++ zeroPadded 8 (s % 10 ^ 8)
              ++ exponentText (adjustedExponent s e)) := by
  refine ⟨?_, ?_, ?_⟩
  · intro s e p b h
    exact to_chars_double_small s (by simpa using h) e p b
  rotate_left
  · intro s e p b h1 h2 hx
    have h8 : (10 : Nat) ^ 8 = 100000000 := by norm_num
    have h1' : 1000000000 ≤ s := by simpa using h1
    have h2' : s < 100000000000000000 := by simpa using h2
    obtain ⟨hx1, hx2⟩ := abs_lt.mp hx
    rw [h8]
    obtain ⟨t1, _⟩ := significandText_split s h1'
    have hz := zeroPadded_eq 8 (s % 100000000) (by omega)
    have hlow : lowDigits 8 (s % 100000000) = lowDigits 8 s := by
      simp only [lowDigits, List.cons.injEq, and_true]
      refine ⟨?_, ?_, ?_, ?_, ?_, ?_, ?_, ?_⟩ <;> omega
    rw [hlow] at hz
    refine ⟨_, _, to_chars_double_spec s (by omega) h2' e hx1 hx2 p b, ?_⟩
    rw [Nat.add_sub_cancel_left, readBytes_writeBytes, hz, ← t1]
    rfl
  · intro s e p b h1 h2
    have h8 : (10 : Nat) ^ 8 = 100000000 := by norm_num
    have h1' : 1000000000 ≤ s := by simpa using h1
    have h2' : s < 100000000000000000 := by simpa using h2
    rw [h8]
    obtain ⟨t1, t2⟩ := significandText_split s h1'
    have hz := zeroPadded_eq 8 (s % 100000000) (by omega)
    have hl := zeroPadded_length (s % 100000000) (by omega)
    have hlow : lowDigits 8 (s % 100000000) = lowDigits 8 s := by
      simp only [lowDigits, List.cons.injEq, and_true]
      refine ⟨?_, ?_, ?_, ?_, ?_, ?_, ?_, ?_⟩ <;> omega
    rw [hlow] at hz
    refine ⟨_, _, _, print_9_digits_spec (s / 100000000) (by omega) (by omega) e p b, ?_, hl, ?_⟩
    · rw [to_chars_double_eq s (by omega) h2' e p b, t1, writeBytes_append, List.length_append,
        ← hz, hl, ← Nat.add_assoc]
      unfold adjustedExponent
      rw [t2]
      congr 1
      push_cast
      ring
    · have := readBytes_writeBytes (b.writeBytes p (significandText (s / 100000000)))
        (p + (significandText (s / 100000000)).length) (zeroPadded 8 (s % 100000000))
      rw [hl] at this
      exact this

theorem C5_witness :
    (10 ^ 9 ≤ 12345678900001234 ∧ 12345678900001234 < 10 ^ 17)
    ∧ ∃ x q b1, print_9_digits (12345678900001234 / 10 ^ 8) 0 0 ⟨fun _ => 0, []⟩
          = some (x, q, b1)
        ∧ to_chars_double 12345678900001234 0 0 ⟨fun _ => 0, []⟩
            = print_exponent_double (x + 8) (q + 8)
                (b1.writeBytes q (zeroPadded 8 (12345678900001234 % 10 ^ 8)))
        ∧ (zeroPadded 8 (12345678900001234 % 10 ^ 8)).length = 8
        ∧ readBytes (b1.writeBytes q (zeroPadded 8 (12345678900001234 % 10 ^ 8))).mem q 8
            = zeroPadded 8 (12345678900001234 % 10 ^ 8) :=
  ⟨⟨by norm_num, by norm_num⟩,
    C5_double_second_block.2.1 12345678900001234 0 0 ⟨fun _ => 0, []⟩ (by norm_num)
      (by norm_num)⟩

theorem adjustedExponent_of_range (k s : Nat) (e : Int) (h1 : 10 ^ k ≤ s)
    (h2 : s < 10 ^ (k + 1)) : adjustedExponent s e = e + (k : Int) := by
  unfold adjustedExponent
  rw [digitCount_of_range k s h1 h2]
  push_cast
  ring

theorem to_chars_double_read (s : Nat) (h1 : 1 ≤ s) (h2 : s < 100000000000000000) (e : Int)
    (hx1 : -1000 < adjustedExponent s e) (hx2 : adjustedExponent s e < 1000)
    (p : Nat) (b : Buffer) :
    ∃ q b1, to_chars_double s e p b = some (q, b1) ∧ q = p + (sciText s e).length
      ∧ readBytes b1.mem p (q - p) = sciText s e := by
  refine ⟨_, _, to_chars_double_spec s h1 h2 e hx1 hx2 p b, rfl, ?_⟩
  rw [Nat.add_sub_cancel_left, readBytes_writeBytes]

theorem to_chars_float_read (s32 : Nat) (h1 : 1 ≤ s32) (h2 : s32 < 1000000000) (e : Int)
    (hx1 : -100 < adjustedExponent s32 e) (hx2 : adjustedExponent s32 e < 100)
    (p : Nat) (b : Buffer) :
    ∃ q b1, to_chars_float s32 e p b = some (q, b1) ∧ q = p + (sciText s32 e).length
      ∧ readBytes b1.mem p (q - p) = sciText s32 e := by
  refine ⟨_, _, to_chars_float_spec s32 h1 h2 e hx1 hx2 p b, rfl, ?_⟩
  rw [Nat.add_sub_cancel_left, readBytes_writeBytes]

theorem natText_digits (n : Nat) : natText n ≠ [] ∧ (natText n).all isDigit = true := by
  obtain ⟨a, l, h1, h2, h3, _, _⟩ := natText_form n
  rw [h1]
  refine ⟨by simp, ?_⟩
  rw [List.all_cons, all_isDigit_map l h3, Bool.and_true]
  unfold isDigit
  simp only [Bool.and_eq_true, decide_eq_true_eq]
  omega

/-- C7: in both `to_chars<float>` and `to_chars<double>`, for every valid input, the
significand text is followed by `E` and then by exactly one `-` if and only if the adjusted
exponent is negative; otherwise the exponent digits follow the `E` directly (what follows
the optional `-` is a non-empty run of decimal digits, so there is never a `+`), and an
adjusted exponent of 0 is written `E0`. -/
theorem C7_exponent_sign :
    (∀ (s32 : Nat) (e : Int) (p : Nat) (b : Buffer), 1 ≤ s32 → s32 < 10 ^ 9 →
      |adjustedExponent s32 e| < 100 →
      ∃ q b1 ds, to_chars_float s32 e p b = some (q, b1)
        ∧ readBytes b1.mem p (q - p)
            = significandText s32
              ++ 69 :: ((if adjustedExponent s32 e < 0 then [45] else []) ++ ds)
        ∧ ds ≠ [] ∧ ds.all isDigit = true
        ∧ (adjustedExponent s32 e = 0 →
            readBytes b1.mem p (q - p) = significandText s32 ++ bytesOf "E0"))
    ∧ (∀ (s : Nat) (e : Int) (p : Nat) (b : Buffer), 1 ≤ s → s < 10 ^ 17 →
      |adjustedExponent s e| < 1000 →
      ∃ q b1 ds, to_chars_double s e p b = some (q, b1)
        ∧ readBytes b1.mem p (q - p)
            = significandText s
              ++ 69 :: ((if adjustedExponent s e < 0 then [45] else []) ++ ds)
        ∧ ds ≠ [] ∧ ds.all isDigit = true
        ∧ (adjustedExponent s e = 0 →
            readBytes b1.mem p (q - p) = significandText s ++ bytesOf "E0")) := by
  constructor
  · intro s32 e p b h1 h2 hx
    obtain ⟨hx1, hx2⟩ := abs_lt.mp hx
    obtain ⟨q, b1, hq, _, hr⟩ := to_chars_float_read s32 h1 (by simpa using h2) e hx1 hx2 p b
    obtain ⟨d1, d2⟩ := natText_digits (adjustedExponent s32 e).natAbs
    refine ⟨q, b1, natText (adjustedExponent s32 e).natAbs, hq, hr, d1, d2, ?_⟩
    intro h0
    rw [hr]
    unfold sciText exponentText
    rw [show e + ((digitCount s32 : Nat) : Int) - 1 = adjustedExponent s32 e from rfl, h0]
    rfl
  · intro s e p b h1 h2 hx
    obtain ⟨hx1, hx2⟩ := abs_lt.mp hx
    obtain ⟨q, b1, hq, _, hr⟩ := to_chars_double_read s h1 (by simpa using h2) e hx1 hx2 p b
    obtain ⟨d1, d2⟩ := natText_digits (adjustedExponent s e).natAbs
    refine ⟨q, b1, natText (adjustedExponent s e).natAbs, hq, hr, d1, d2, ?_⟩
    intro h0
    rw [hr]
    unfold sciText exponentText
    rw [show e + ((digitCount s : Nat) : Int) - 1 = adjustedExponent s e from rfl, h0]
    rfl

theorem C7_witness :
    (1 ≤ 5 ∧ 5 < 10 ^ 9 ∧ |adjustedExponent 5 (-1)| < 100)
    ∧ ∃ q b1 ds, to_chars_float 5 (-1) 0 ⟨fun _ => 0, []⟩ = some (q, b1)
        ∧ readBytes b1.mem 0 (q - 0)
            = significandText 5
              ++ 69 :: ((if adjustedExponent 5 (-1) < 0 then [45] else []) ++ ds)
        ∧ ds ≠ [] ∧ ds.all isDigit = true
        ∧ (adjustedExponent 5 (-1) = 0 →
            readBytes b1.mem 0 (q - 0) = significandText 5 ++ bytesOf "E0") :=
  ⟨⟨by norm_num, by norm_num, by simp [adjustedExponent, digitCount]⟩,
    C7_exponent_sign.1 5 (-1) 0 ⟨fun _ => 0, []⟩ (by norm_num) (by norm_num)
      (by simp [adjustedExponent, digitCount])⟩

/-- C8: for every adjusted exponent `x` with `|x| ≤ 999` in `to_chars<double>` (and
`|x| ≤ 99` in `to_chars<float>`), the characters written after `E` and the optional `-`
are exactly the decimal representation of `|x|` without leading zeros: one digit if
`|x| < 10`, two digits if `10 ≤ |x| < 100`, three digits if `100 ≤ |x| < 1000`. -/
theorem C8_exponent_digits :
    (∀ (s : Nat) (e : Int) (p : Nat) (b : Buffer) (n : Nat), 1 ≤ s → s < 10 ^ 17 →
      |adjustedExponent s e| ≤ 999 → n = (adjustedExponent s e).natAbs →
      ∃ q b1, to_chars_double s e p b = some (q, b1)
        ∧ readBytes b1.mem p (q - p)
            = significandText s
              ++ 69 :: ((if adjustedExponent s e < 0 then [45] else []) ++ natText n)
        ∧ natText n
            = (if n < 10 then [48 + n]
               else if n < 100 then [48 + n / 10, 48 + n % 10]
               else [48 + n / 100, 48 + n / 10 % 10, 48 + n % 10]))
    ∧ (∀ (s32 : Nat) (e : Int) (p : Nat) (b : Buffer) (n : Nat), 1 ≤ s32 → s32 < 10 ^ 9 →
      |adjustedExponent s32 e| ≤ 99 → n = (adjustedExponent s32 e).natAbs →
      ∃ q b1, to_chars_float s32 e p b = some (q, b1)
        ∧ readBytes b1.mem p (q - p)
            = significandText s32
              ++ 69 :: ((if adjustedExponent s32 e < 0 then [45] else []) ++ natText n)
        ∧ natText n = (if n < 10 then [48 + n] else [48 + n / 10, 48 + n % 10])) := by
  constructor
  · intro s e p b n h1 h2 hx hn
    obtain ⟨hx1, hx2⟩ := abs_le.mp hx
    obtain ⟨q, b1, hq, _, hr⟩ :=
      to_chars_double_read s h1 (by simpa using h2) e (by omega) (by omega) p b
    refine ⟨q, b1, hq, by rw [hr, hn]; rfl, ?_⟩
    have hn3 : n < 1000 := by omega
    by_cases c1 : n < 10
    · rw [if_pos c1, natText_1 n c1]
    · rw [if_neg c1]
      by_cases c2 : n < 100
      · rw [if_pos c2, natText_2 n (by omega) c2]
      · rw [if_neg c2, natText_3 n (by omega) hn3]
  · intro s32 e p b n h1 h2 hx hn
    obtain ⟨hx1, hx2⟩ := abs_le.mp hx
    obtain ⟨q, b1, hq, _, hr⟩ :=
      to_chars_float_read s32 h1 (by simpa using h2) e (by omega) (by omega) p b
    refine ⟨q, b1, hq, by rw [hr, hn]; rfl, ?_⟩
    by_cases c1 : n < 10
    · rw [if_pos c1, natText_1 n c1]
    · rw [if_neg c1, natText_2 n (by omega) (by omega)]

theorem C8_witness :
    (1 ≤ 7 ∧ 7 < 10 ^ 17 ∧ |adjustedExponent 7 (-999)| ≤ 999
      ∧ 999 = (adjustedExponent 7 (-999)).natAbs)
    ∧ ∃ q b1, to_chars_double 7 (-999) 0 ⟨fun _ => 0, []⟩ = some (q, b1)
        ∧ readBytes b1.mem 0 (q - 0)
            = significandText 7
              ++ 69 :: ((if adjustedExponent 7 (-999) < 0 then [45] else []) ++ natText 999)
        ∧ natText 999
            = (if 999 < 10 then [48 + 999]
               else if 999 < 100 then [48 + 999 / 10, 48 + 999 % 10]
               else [48 + 999 / 100, 48 + 999 / 10 % 10, 48 + 999 % 10]) :=
  ⟨⟨by norm_num, by norm_num, by simp [adjustedExponent, digitCount],
      by simp [adjustedExponent, digitCount]⟩,
    C8_exponent_digits.1 7 (-999) 0 ⟨fun _ => 0, []⟩ 999 (by norm_num) (by norm_num)
      (by simp [adjustedExponent, digitCount]) (by simp [adjustedExponent, digitCount])⟩

/-- C9: for every valid input (float: `1 ≤ s32 < 10^9` and adjusted exponent of magnitude
below 100; double: `1 ≤ s < 10^17` and adjusted exponent of magnitude below 1000) the
complete output of `to_chars` matches the grammar `digit ["." digit+] "E" ["-"] digit+`,
with exactly one non-zero leading digit before the optional fraction and an exponent with
no leading zero and no `+`. -/
theorem C9_output_grammar :
    (∀ (s32 : Nat) (e : Int) (p : Nat) (b : Buffer), 1 ≤ s32 → s32 < 10 ^ 9 →
      |adjustedExponent s32 e| < 100 →
      ∃ q b1, to_chars_float s32 e p b = some (q, b1)
        ∧ matchesGrammar (readBytes b1.mem p (q - p)) = true)
    ∧ (∀ (s : Nat) (e : Int) (p : Nat) (b : Buffer), 1 ≤ s → s < 10 ^ 17 →
      |adjustedExponent s e| < 1000 →
      ∃ q b1, to_chars_double s e p b = some (q, b1)
        ∧ matchesGrammar (readBytes b1.mem p (q - p)) = true) := by
  constructor
  · intro s32 e p b h1 h2 hx
    obtain ⟨hx1, hx2⟩ := abs_lt.mp hx
    obtain ⟨q, b1, hq, _, hr⟩ := to_chars_float_read s32 h1 (by simpa using h2) e hx1 hx2 p b
    exact ⟨q, b1, hq, by rw [hr]; exact matchesGrammar_sciText s32 h1 e⟩
  · intro s e p b h1 h2 hx
    obtain ⟨hx1, hx2⟩ := abs_lt.mp hx
    obtain ⟨q, b1, hq, _, hr⟩ := to_chars_double_read s h1 (by simpa using h2) e hx1 hx2 p b
    exact ⟨q, b1, hq, by rw [hr]; exact matchesGrammar_sciText s h1 e⟩

theorem C9_witness :
    (1 ≤ 100000000 ∧ 100000000 < 10 ^ 9 ∧ |adjustedExponent 100000000 0| < 100)
    ∧ ∃ q b1, to_chars_float 100000000 0 0 ⟨fun _ => 0, []⟩ = some (q, b1)
        ∧ matchesGrammar (readBytes b1.mem 0 (q - 0)) = true :=
  ⟨⟨by norm_num, by norm_num, by simp [adjustedExponent, digitCount]⟩,
    C9_output_grammar.1 100000000 0 0 ⟨fun _ => 0, []⟩ (by norm_num) (by norm_num)
      (by simp [adjustedExponent, digitCount])⟩

theorem natText_length_eq (s : Nat) (h : 1 ≤ s) : (natText s).length = digitCount s := by
  unfold natText decimalBytes digitCount
  rw [if_neg (by omega), List.length_map, List.length_reverse]

theorem sciText_length_le (s : Nat) (h : 1 ≤ s) (e : Int) (k : Nat) (hk : s < 10 ^ k)
    (hx : (adjustedExponent s e).natAbs < 1000) :
    (sciText s e).length
      ≤ k + 1 + 2 + (if (adjustedExponent s e).natAbs < 10 then 1
          else if (adjustedExponent s e).natAbs < 100 then 2 else 3) := by
  have h1 := significandText_length s h
  have h2 := digitCount_le k s hk
  have h3 := exponentText_length (adjustedExponent s e)
  have h4 := natText_length _ hx
  unfold sciText
  rw [List.length_append, show e + ((digitCount s : Nat) : Int) - 1 = adjustedExponent s e from rfl,
    h1, h3, h4]
  split_ifs <;> omega

theorem print_9_digits_zero (e : Int) (p : Nat) (b : Buffer) :
    print_9_digits 0 e p b = some (e, p + 1, b.writeBytes p [48]) := rfl

theorem written_bound (b : Buffer) (p : Nat) (xs : List Nat) (a : Nat)
    (h : a ∈ (b.writeBytes p xs).written) :
    a ∈ b.written ∨ (p ≤ a ∧ a < p + xs.length) := by
  rw [writeBytes_written, List.mem_append, List.mem_reverse, List.mem_range'_1] at h
  rcases h with h | h
  · exact Or.inr h
  · exact Or.inl h

/-- C10: the number of bytes written never exceeds the guaranteed capacity. For every
`s32 < 10^9` (0 included, written with one digit) and adjusted exponent of magnitude below
100, `to_chars<float>` returns a pointer at most 15 bytes past the start of the buffer, and
for every `s < 10^17` and adjusted exponent of magnitude below 1000, `to_chars<double>`
returns a pointer at most 25 bytes past the start; every address stored to by the call lies
between the start and that bound. -/
theorem C10_capacity :
    (∀ (s32 : Nat) (e : Int) (p : Nat) (b : Buffer), s32 < 10 ^ 9 →
      |e + (((natText s32).length : Nat) : Int) - 1| < 100 →
      ∃ q b1, to_chars_float s32 e p b = some (q, b1) ∧ p ≤ q ∧ q ≤ p + 15
        ∧ ∀ a ∈ b1.written, a ∈ b.written ∨ (p ≤ a ∧ a < p + 15))
    ∧ (∀ (s : Nat) (e : Int) (p : Nat) (b : Buffer), s < 10 ^ 17 →
      |e + (((natText s).length : Nat) : Int) - 1| < 1000 →
      ∃ q b1, to_chars_double s e p b = some (q, b1) ∧ p ≤ q ∧ q ≤ p + 25
        ∧ ∀ a ∈ b1.written, a ∈ b.written ∨ (p ≤ a ∧ a < p + 25)) := by
  constructor
  · intro s32 e p b h2 hx
    obtain ⟨hx1, hx2⟩ := abs_lt.mp hx
    by_cases h0 : s32 = 0
    · subst h0
      have hl : (natText 0).length = 1 := rfl
      rw [hl] at hx1 hx2
      have hspec := print_exponent_float_spec e (by omega) (by omega) (p + 1)
        (b.writeBytes p [48])
      have hlen := exponentText_length e
      have hnt := natText_length e.natAbs (by omega)
      have htc : to_chars_float 0 e p b
          = print_exponent_float e (p + 1) (b.writeBytes p [48]) := rfl
      refine ⟨_, _, htc.trans hspec, by omega, ?_, ?_⟩
      · rw [hlen, hnt]
        split_ifs <;> omega
      · intro a ha
        rcases written_bound _ _ _ a ha with h | h
        · rcases written_bound _ _ _ a h with h | h
          · exact Or.inl h
          · simp only [List.length_cons, List.length_nil] at h
            exact Or.inr (by omega)
        · rw [hlen, hnt] at h
          refine Or.inr ⟨by omega, ?_⟩
          have := h.2
          split_ifs at this <;> omega
    · have h1 : 1 ≤ s32 := by omega
      rw [natText_length_eq s32 h1] at hx1 hx2
      have hle := sciText_length_le s32 h1 e 9 h2 (by unfold adjustedExponent; omega)
      have hn : (adjustedExponent s32 e).natAbs < 100 := by unfold adjustedExponent; omega
      refine ⟨_, _, to_chars_float_spec s32 h1 (by simpa using h2) e hx1 hx2 p b, by omega, ?_, ?_⟩
      · split_ifs at hle <;> omega
      · intro a ha
        rcases written_bound _ _ _ a ha with h | h
        · exact Or.inl h
        · refine Or.inr ⟨h.1, ?_⟩
          have := h.2
          split_ifs at hle <;> omega
  · intro s e p b h2 hx
    obtain ⟨hx1, hx2⟩ := abs_lt.mp hx
    by_cases h0 : s = 0
    · subst h0
      have hl : (natText 0).length = 1 := rfl
      rw [hl] at hx1 hx2
      have hspec := print_exponent_double_spec e (by omega) (by omega) (p + 1)
        (b.writeBytes p [48])
      have hlen := exponentText_length e
      have hnt := natText_length e.natAbs (by omega)
      have htc : to_chars_double 0 e p b
          = print_exponent_double e (p + 1) (b.writeBytes p [48]) := rfl
      refine ⟨_, _, htc.trans hspec, by omega, ?_, ?_⟩
      · rw [hlen, hnt]
        split_ifs <;> omega
      · intro a ha
        rcases written_bound _ _ _ a ha with h | h
        · rcases written_bound _ _ _ a h with h | h
          · exact Or.inl h
          · simp only [List.length_cons, List.length_nil] at h
            exact Or.inr (by omega)
        · rw [hlen, hnt] at h
          refine Or.inr ⟨by omega, ?_⟩
          have := h.2
          split_ifs at this <;> omega
    · have h1 : 1 ≤ s := by omega
      rw [natText_length_eq s h1] at hx1 hx2
      have hle := sciText_length_le s h1 e 17 h2 (by unfold adjustedExponent; omega)
      refine ⟨_, _, to_chars_double_spec s h1 (by simpa using h2) e hx1 hx2 p b, by omega, ?_, ?_⟩
      · split_ifs at hle <;> omega
      · intro a ha
        rcases written_bound _ _ _ a ha with h | h
        · exact Or.inl h
        · refine Or.inr ⟨h.1, ?_⟩
          have := h.2
          split_ifs at hle <;> omega

theorem C10_witness :
    (99999999999999999 < 10 ^ 17
      ∧ |(-1015 : Int) + (((natText 99999999999999999).length : Nat) : Int) - 1| < 1000)
    ∧ ∃ q b1, to_chars_double 99999999999999999 (-1015) 0 ⟨fun _ => 0, []⟩ = some (q, b1)
        ∧ 0 ≤ q ∧ q ≤ 0 + 25
        ∧ ∀ a ∈ b1.written, a ∈ (Buffer.mk (fun _ => 0) []).written ∨ (0 ≤ a ∧ a < 0 + 25) :=
  ⟨⟨by norm_num, by simp [natText, decimalBytes]⟩,
    C10_capacity.2 99999999999999999 (-1015) 0 ⟨fun _ => 0, []⟩ (by norm_num)
      (by simp [natText, decimalBytes])⟩

theorem frame_of_writeBytes (b : Buffer) (p : Nat) (xs : List Nat) :
    (b.writeBytes p xs).written = (List.range' p xs.length).reverse ++ b.written
    ∧ (∀ a, a ∈ (List.range' p xs.length).reverse ↔ p ≤ a ∧ a < p + xs.length)
    ∧ (∀ a, a < p ∨ p + xs.length ≤ a → (b.writeBytes p xs).mem a = b.mem a) := by
  refine ⟨writeBytes_written b p xs, ?_, ?_⟩
  · intro a
    rw [List.mem_reverse, List.mem_range'_1]
  · intro a h
    rcases h with h | h
    · exact writeBytes_mem_below b p xs a h
    · exact writeBytes_mem_above b p xs a h

/-- C11: for every valid input, `to_chars` (float and double) returns the first unwritten
position. The stores of the call are exactly the positions from the start up to, and
excluding, the returned end (each once, in ascending order), and the memory at every
position before the start or at or after the returned end is what it was before the call:
no terminator is appended and no two-byte copy passes the end. -/
theorem C11_to_chars_frame :
    (∀ (s32 : Nat) (e : Int) (p : Nat) (b : Buffer), 1 ≤ s32 → s32 < 10 ^ 9 →
      |adjustedExponent s32 e| < 100 →
      ∃ q b1, to_chars_float s32 e p b = some (q, b1) ∧ p ≤ q
        ∧ b1.written = (List.range' p (q - p)).reverse ++ b.written
        ∧ (∀ a, a ∈ (List.range' p (q - p)).reverse ↔ p ≤ a ∧ a < q)
        ∧ (∀ a, a < p ∨ q ≤ a → b1.mem a = b.mem a))
    ∧ (∀ (s : Nat) (e : Int) (p : Nat) (b : Buffer), 1 ≤ s → s < 10 ^ 17 →
      |adjustedExponent s e| < 1000 →
      ∃ q b1, to_chars_double s e p b = some (q, b1) ∧ p ≤ q
        ∧ b1.written = (List.range' p (q - p)).reverse ++ b.written
        ∧ (∀ a, a ∈ (List.range' p (q - p)).reverse ↔ p ≤ a ∧ a < q)
        ∧ (∀ a, a < p ∨ q ≤ a → b1.mem a = b.mem a)) := by
  constructor
  · intro s32 e p b h1 h2 hx
    obtain ⟨hx1, hx2⟩ := abs_lt.mp hx
    obtain ⟨f1, f2, f3⟩ := frame_of_writeBytes b p (sciText s32 e)
    refine ⟨_, _, to_chars_float_spec s32 h1 (by simpa using h2) e hx1 hx2 p b,
      Nat.le_add_right _ _, ?_, ?_, ?_⟩
    · rw [Nat.add_sub_cancel_left]
      exact f1
    · rw [Nat.add_sub_cancel_left]
      exact f2
    · exact f3
  · intro s e p b h1 h2 hx
    obtain ⟨hx1, hx2⟩ := abs_lt.mp hx
    obtain ⟨f1, f2, f3⟩ := frame_of_writeBytes b p (sciText s e)
    refine ⟨_, _, to_chars_double_spec s h1 (by simpa using h2) e hx1 hx2 p b,
      Nat.le_add_right _ _, ?_, ?_, ?_⟩
    · rw [Nat.add_sub_cancel_left]
      exact f1
    · rw [Nat.add_sub_cancel_left]
      exact f2
    · exact f3

theorem C11_witness :
    (1 ≤ 12345678901234567 ∧ 12345678901234567 < 10 ^ 17
      ∧ |adjustedExponent 12345678901234567 (-340)| < 1000)
    ∧ ∃ q b1, to_chars_double 12345678901234567 (-340) 7 ⟨fun _ => 255, []⟩ = some (q, b1)
        ∧ 7 ≤ q
        ∧ b1.written
            = (List.range' 7 (q - 7)).reverse ++ (Buffer.mk (fun _ => 255) []).written
        ∧ (∀ a, a ∈ (List.range' 7 (q - 7)).reverse ↔ 7 ≤ a ∧ a < q)
        ∧ (∀ a, a < 7 ∨ q ≤ a → b1.mem a = (Buffer.mk (fun _ => 255) []).mem a) :=
  ⟨⟨by norm_num, by norm_num, by simp [adjustedExponent, digitCount]⟩,
    C11_to_chars_frame.2 12345678901234567 (-340) 7 ⟨fun _ => 255, []⟩ (by norm_num)
      (by norm_num) (by simp [adjustedExponent, digitCount])⟩

/-- C15: given the shortest decimal of binary64 1.0 (significand 1, exponent 0)
`to_chars<double>` writes exactly `1E0`; given that of binary64 0.1 (significand 1,
exponent −1) it writes exactly `1E-1`; and given that of binary32 100.0 (significand 1,
exponent 2) `to_chars<float>` writes exactly `1E2`. In each case the stores are those of
the text at the start of the buffer and the returned pointer is just past it. -/
theorem C15_examples :
    (∀ (p : Nat) (b : Buffer),
      to_chars_double 1 0 p b = some (p + 3, b.writeBytes p (bytesOf "1E0"))
      ∧ readBytes (b.writeBytes p (bytesOf "1E0")).mem p 3 = bytesOf "1E0")
    ∧ (∀ (p : Nat) (b : Buffer),
      to_chars_double 1 (-1) p b = some (p + 4, b.writeBytes p (bytesOf "1E-1"))
      ∧ readBytes (b.writeBytes p (bytesOf "1E-1")).mem p 4 = bytesOf "1E-1")
    ∧ (∀ (p : Nat) (b : Buffer),
      to_chars_float 1 2 p b = some (p + 3, b.writeBytes p (bytesOf "1E2"))
      ∧ readBytes (b.writeBytes p (bytesOf "1E2")).mem p 3 = bytesOf "1E2") := by
  refine ⟨?_, ?_, ?_⟩
  · intro p b
    exact ⟨rfl, readBytes_writeBytes b p (bytesOf "1E0")⟩
  · intro p b
    exact ⟨rfl, readBytes_writeBytes b p (bytesOf "1E-1")⟩
  · intro p b
    exact ⟨rfl, readBytes_writeBytes b p (bytesOf "1E2")⟩

theorem ceil_2_32_100 : ⌈(2 : ℚ) ^ 32 / 100⌉₊ = 42949673 := by
  rw [Nat.ceil_eq_iff (by norm_num)]
  norm_num

theorem ceil_2_32_10000 : ⌈(2 : ℚ) ^ 32 / 10 ^ 4⌉₊ = 429497 := by
  rw [Nat.ceil_eq_iff (by norm_num)]
  norm_num

theorem ceil_2_48_1000000 : ⌈(2 : ℚ) ^ 48 / 10 ^ 6⌉₊ + 1 = 281474978 := by
  have h : ⌈(2 : ℚ) ^ 48 / 10 ^ 6⌉₊ = 281474977 := by
    rw [Nat.ceil_eq_iff (by norm_num)]
    norm_num
  rw [h]

theorem ceil_2_57_100000000 : ⌈(2 : ℚ) ^ 57 / 10 ^ 8⌉₊ + 1 = 1441151882 := by
  have h : ⌈(2 : ℚ) ^ 57 / 10 ^ 8⌉₊ = 1441151881 := by
    rw [Nat.ceil_eq_iff (by norm_num)]
    norm_num
  rw [h]

theorem ceil_2_16_10 : ⌈(2 : ℚ) ^ 16 / 10⌉₊ = 6554 := by
  rw [Nat.ceil_eq_iff (by norm_num)]
  norm_num

theorem print_9_digits_eq_with :
    print_9_digits = print_9_digits_with 42949673 429497 281474978 1441151882 := rfl

theorem print_exponent_double_eq_with :
    print_exponent_double = print_exponent_double_with 6554 := rfl

theorem to_chars_double_eq_with :
    to_chars_double = to_chars_double_with 42949673 429497 281474978 1441151882 6554 := rfl

/-- C14: the reciprocal literals used by the printer equal their stated formulas:
`42949673 = ceil(2^32/100)`, `429497 = ceil(2^32/10^4)`, `281474978 = ceil(2^48/10^6) + 1`,
`1441151882 = ceil(2^57/10^8) + 1` and `6554 = ceil(2^16/10)`; `print_9_digits`, the
exponent block of `to_chars<double>` and `to_chars<double>` itself (second block included)
are the same functions when the formulas stand in place of the literals. -/
theorem C14_reciprocal_literals :
    ((42949673 : Nat) = ⌈(2 : ℚ) ^ 32 / 100⌉₊
      ∧ (429497 : Nat) = ⌈(2 : ℚ) ^ 32 / 10 ^ 4⌉₊
      ∧ (281474978 : Nat) = ⌈(2 : ℚ) ^ 48 / 10 ^ 6⌉₊ + 1
      ∧ (1441151882 : Nat) = ⌈(2 : ℚ) ^ 57 / 10 ^ 8⌉₊ + 1
      ∧ (6554 : Nat) = ⌈(2 : ℚ) ^ 16 / 10⌉₊)
    ∧ print_9_digits
        = print_9_digits_with ⌈(2 : ℚ) ^ 32 / 100⌉₊ ⌈(2 : ℚ) ^ 32 / 10 ^ 4⌉₊
            (⌈(2 : ℚ) ^ 48 / 10 ^ 6⌉₊ + 1) (⌈(2 : ℚ) ^ 57 / 10 ^ 8⌉₊ + 1)
    ∧ print_exponent_double = print_exponent_double_with ⌈(2 : ℚ) ^ 16 / 10⌉₊
    ∧ to_chars_double
        = to_chars_double_with ⌈(2 : ℚ) ^ 32 / 100⌉₊ ⌈(2 : ℚ) ^ 32 / 10 ^ 4⌉₊
            (⌈(2 : ℚ) ^ 48 / 10 ^ 6⌉₊ + 1) (⌈(2 : ℚ) ^ 57 / 10 ^ 8⌉₊ + 1)
            ⌈(2 : ℚ) ^ 16 / 10⌉₊ := by
  rw [ceil_2_32_100, ceil_2_32_10000, ceil_2_48_1000000, ceil_2_57_100000000, ceil_2_16_10]
  exact ⟨⟨rfl, rfl, rfl, rfl, rfl⟩, print_9_digits_eq_with, print_exponent_double_eq_with,
    to_chars_double_eq_with⟩

/-- C20: in the 3–4 digit branch, for every `n` with `100 ≤ n < 10^4`, the 64-bit product
`p = n × 42949673` is exact, `floor(p / 2^32) = floor(n / 100)` and
`floor(((p mod 2^32) × 100) / 2^32) = n mod 100`; these are the values the branch computes
as `int(prod >> 32)` before and after `prod = uint4::raw_type(prod) * 100`. -/
theorem C20_branch_3_4_arithmetic (n : Nat) (h1 : 100 ≤ n) (h2 : n < 10 ^ 4) :
    u64 (n * 42949673) = n * 42949673
    ∧ n * 42949673 / 2 ^ 32 = n / 100
    ∧ n * 42949673 % 2 ^ 32 * 100 / 2 ^ 32 = n % 100
    ∧ to_int (u64 (n * 42949673) >>> 32) = ((n / 100 : Nat) : Int)
    ∧ to_int (u64 (u32 (u64 (n * 42949673)) * 100) >>> 32) = ((n % 100 : Nat) : Int) := by
  have h2' : n < 10000 := by simpa using h2
  have hu : u64 (n * 42949673) = n * 42949673 := Nat.mod_eq_of_lt (by omega)
  obtain ⟨g0, g1⟩ := fx_chain1 n (n * 42949673) (by unfold Fx; omega)
  have e32 : (2 : Nat) ^ 32 = 4294967296 := by norm_num
  refine ⟨hu, ?_, ?_, ?_, ?_⟩
  · rw [e32]; exact g0
  · rw [e32]; exact g1
  · rw [hu, shr32, g0, to_int_small _ (by omega)]
  · rw [hu, u64_u32_step, shr32, g1, to_int_small _ (by omega)]

theorem C20_witness :
    (100 ≤ 9999 ∧ 9999 < 10 ^ 4)
    ∧ (u64 (9999 * 42949673) = 9999 * 42949673
      ∧ 9999 * 42949673 / 2 ^ 32 = 9999 / 100
      ∧ 9999 * 42949673 % 2 ^ 32 * 100 / 2 ^ 32 = 9999 % 100
      ∧ to_int (u64 (9999 * 42949673) >>> 32) = ((9999 / 100 : Nat) : Int)
      ∧ to_int (u64 (u32 (u64 (9999 * 42949673)) * 100) >>> 32) = ((9999 % 100 : Nat) : Int)) :=
  ⟨⟨by norm_num, by norm_num⟩, C20_branch_3_4_arithmetic 9999 (by norm_num) (by norm_num)⟩

/-- C21: in the 5–6 digit branch, for every `n` with `10^4 ≤ n < 10^6`, with
`p0 = n × 429497` and `p(k+1) = (p(k) mod 2^32) × 100`, `floor(p0 / 2^32) = floor(n / 10^4)`,
`floor(p1 / 2^32) = floor(n / 100) mod 100` and `floor(p2 / 2^32) = n mod 100`; the products
are exact in 64 bits, so these are the values of `int(prod >> 32)` after
`prod = s32 * uint8::raw_type(429497)` and after each
`prod = uint4::raw_type(prod) * uint8::raw_type(100)`. -/
theorem C21_branch_5_6_arithmetic (n : Nat) (h1 : 10 ^ 4 ≤ n) (h2 : n < 10 ^ 6) :
    (n * 429497 / 2 ^ 32 = n / 10 ^ 4
      ∧ n * 429497 % 2 ^ 32 * 100 / 2 ^ 32 = n / 100 % 100
      ∧ n * 429497 % 2 ^ 32 * 100 % 2 ^ 32 * 100 / 2 ^ 32 = n % 100)
    ∧ u64 (n * 429497) = n * 429497
    ∧ to_int (u64 (n * 429497) >>> 32) = ((n / 10 ^ 4 : Nat) : Int)
    ∧ to_int (u64 (u32 (u64 (n * 429497)) * 100) >>> 32) = ((n / 100 % 100 : Nat) : Int)
    ∧ to_int (u64 (u32 (u64 (u32 (u64 (n * 429497)) * 100)) * 100) >>> 32)
        = ((n % 100 : Nat) : Int) := by
  have h1' : 10000 ≤ n := by simpa using h1
  have h2' : n < 1000000 := by simpa using h2
  have hu : u64 (n * 429497) = n * 429497 := Nat.mod_eq_of_lt (by omega)
  obtain ⟨g0, g1, g2⟩ := fx_chain2 n (n * 429497) (by unfold Fx; omega)
  have e32 : (2 : Nat) ^ 32 = 4294967296 := by norm_num
  have e4 : (10 : Nat) ^ 4 = 10000 := by norm_num
  rw [e32, e4]
  refine ⟨⟨g0, g1, g2⟩, hu, ?_, ?_, ?_⟩
  · rw [hu, shr32, g0, to_int_small _ (by omega)]
  · rw [hu, u64_u32_step, shr32, g1, to_int_small _ (by omega)]
  · rw [hu, u64_u32_step, u64_u32_step, shr32, g2, to_int_small _ (by omega)]

theorem C21_witness :
    (10 ^ 4 ≤ 123456 ∧ 123456 < 10 ^ 6)
    ∧ (123456 * 429497 / 2 ^ 32 = 123456 / 10 ^ 4
      ∧ 123456 * 429497 % 2 ^ 32 * 100 / 2 ^ 32 = 123456 / 100 % 100
      ∧ 123456 * 429497 % 2 ^ 32 * 100 % 2 ^ 32 * 100 / 2 ^ 32 = 123456 % 100) :=
  ⟨⟨by norm_num, by norm_num⟩, (C21_branch_5_6_arithmetic 123456 (by norm_num) (by norm_num)).1⟩

/-- C22: in the 7–8 digit branch (no bias), for every `n` with `10^6 ≤ n < 10^8`, with
`p0 = floor(n × 281474978 / 2^16)` and `p(k+1) = (p(k) mod 2^32) × 100`,
`floor(p0 / 2^32) = floor(n / 10^6)` and `floor(p1 / 2^32)`, `floor(p2 / 2^32)`,
`floor(p3 / 2^32)` are the successive two-digit groups `floor(n / 10^4) mod 100`,
`floor(n / 100) mod 100` and `n mod 100`; the products are exact in 64 bits, so these are
the values of `int(prod >> 32)` after `prod >>= 16` and after each
`prod = uint4::raw_type(prod) * uint8::raw_type(100)`. -/
theorem C22_branch_7_8_arithmetic (n : Nat) (h1 : 10 ^ 6 ≤ n) (h2 : n < 10 ^ 8) :
    (n * 281474978 / 2 ^ 16 / 2 ^ 32 = n / 10 ^ 6
      ∧ n * 281474978 / 2 ^ 16 % 2 ^ 32 * 100 / 2 ^ 32 = n / 10 ^ 4 % 100
      ∧ n * 281474978 / 2 ^ 16 % 2 ^ 32 * 100 % 2 ^ 32 * 100 / 2 ^ 32 = n / 100 % 100
      ∧ n * 281474978 / 2 ^ 16 % 2 ^ 32 * 100 % 2 ^ 32 * 100 % 2 ^ 32 * 100 / 2 ^ 32
          = n % 100)
    ∧ u64 (n * 281474978) >>> 16 = n * 281474978 / 2 ^ 16
    ∧ to_int (u64 (n * 281474978) >>> 16 >>> 32) = ((n / 10 ^ 6 : Nat) : Int)
    ∧ to_int (u64 (u32 (u64 (n * 281474978) >>> 16) * 100) >>> 32)
        = ((n / 10 ^ 4 % 100 : Nat) : Int)
    ∧ to_int (u64 (u32 (u64 (u32 (u64 (n * 281474978) >>> 16) * 100)) * 100) >>> 32)
        = ((n / 100 % 100 : Nat) : Int)
    ∧ to_int (u64 (u32 (u64 (u32 (u64 (u32 (u64 (n * 281474978) >>> 16) * 100)) * 100))
          * 100) >>> 32) = ((n % 100 : Nat) : Int) := by
  have h1' : 1000000 ≤ n := by simpa using h1
  have h2' : n < 100000000 := by simpa using h2
  have hu : u64 (n * 281474978) = n * 281474978 := Nat.mod_eq_of_lt (by omega)
  obtain ⟨g0, g1, g2, g3⟩ := fx_chain3 n (n * 281474978 / 65536) (by unfold Fx; omega)
  have e32 : (2 : Nat) ^ 32 = 4294967296 := by norm_num
  have e16 : (2 : Nat) ^ 16 = 65536 := by norm_num
  have e6 : (10 : Nat) ^ 6 = 1000000 := by norm_num
  have e4 : (10 : Nat) ^ 4 = 10000 := by norm_num
  rw [e32, e16, e6, e4]
  refine ⟨⟨g0, g1, g2, g3⟩, ?_, ?_, ?_, ?_, ?_⟩
  · rw [hu, shr16]
  · rw [hu, shr16, shr32, g0, to_int_small _ (by omega)]
  · rw [hu, shr16, u64_u32_step, shr32, g1, to_int_small _ (by omega)]
  · rw [hu, shr16, u64_u32_step, u64_u32_step, shr32, g2, to_int_small _ (by omega)]
  · rw [hu, shr16, u64_u32_step, u64_u32_step, u64_u32_step, shr32, g3,
      to_int_small _ (by omega)]

theorem C22_witness :
    (10 ^ 6 ≤ 12345678 ∧ 12345678 < 10 ^ 8)
    ∧ (12345678 * 281474978 / 2 ^ 16 / 2 ^ 32 = 12345678 / 10 ^ 6
      ∧ 12345678 * 281474978 / 2 ^ 16 % 2 ^ 32 * 100 / 2 ^ 32 = 12345678 / 10 ^ 4 % 100
      ∧ 12345678 * 281474978 / 2 ^ 16 % 2 ^ 32 * 100 % 2 ^ 32 * 100 / 2 ^ 32
          = 12345678 / 100 % 100
      ∧ 12345678 * 281474978 / 2 ^ 16 % 2 ^ 32 * 100 % 2 ^ 32 * 100 % 2 ^ 32 * 100 / 2 ^ 32
          = 12345678 % 100) :=
  ⟨⟨by norm_num, by norm_num⟩,
    (C22_branch_7_8_arithmetic 12345678 (by norm_num) (by norm_num)).1⟩

/-- C23: in the 9-digit branch, for every `n` with `10^8 ≤ n < 10^9`, with
`p0 = floor(n × 1441151882 / 2^25)` and `p(k+1) = (p(k) mod 2^32) × 100`,
`floor(p0 / 2^32) = floor(n / 10^8)`, a single digit 1..9, and `floor(p1 / 2^32)`, …,
`floor(p4 / 2^32)` are the four successive two-digit groups of `n mod 10^8`, most
significant first; the products are exact in 64 bits, so these are the values of
`int(prod >> 32)` after `prod >>= 25` and after each
`prod = uint4::raw_type(prod) * uint8::raw_type(100)`. -/
theorem C23_branch_9_arithmetic (n : Nat) (h1 : 10 ^ 8 ≤ n) (h2 : n < 10 ^ 9) :
    (n * 1441151882 / 2 ^ 25 / 2 ^ 32 = n / 10 ^ 8
      ∧ 1 ≤ n / 10 ^ 8 ∧ n / 10 ^ 8 ≤ 9
      ∧ n * 1441151882 / 2 ^ 25 % 2 ^ 32 * 100 / 2 ^ 32 = n % 10 ^ 8 / 10 ^ 6
      ∧ n * 1441151882 / 2 ^ 25 % 2 ^ 32 * 100 % 2 ^ 32 * 100 / 2 ^ 32
          = n % 10 ^ 8 / 10 ^ 4 % 100
      ∧ n * 1441151882 / 2 ^ 25 % 2 ^ 32 * 100 % 2 ^ 32 * 100 % 2 ^ 32 * 100 / 2 ^ 32
          = n % 10 ^ 8 / 100 % 100
      ∧ n * 1441151882 / 2 ^ 25 % 2 ^ 32 * 100 % 2 ^ 32 * 100 % 2 ^ 32 * 100 % 2 ^ 32 * 100
          / 2 ^ 32 = n % 10 ^ 8 % 100)
    ∧ u64 (n * 1441151882) >>> 25 = n * 1441151882 / 2 ^ 25
    ∧ to_int (u64 (n * 1441151882) >>> 25 >>> 32) = ((n / 10 ^ 8 : Nat) : Int)
    ∧ to_int (u64 (u32 (u64 (n * 1441151882) >>> 25) * 100) >>> 32)
        = ((n % 10 ^ 8 / 10 ^ 6 : Nat) : Int)
    ∧ to_int (u64 (u32 (u64 (u32 (u64 (n * 1441151882) >>> 25) * 100)) * 100) >>> 32)
        = ((n % 10 ^ 8 / 10 ^ 4 % 100 : Nat) : Int)
    ∧ to_int (u64 (u32 (u64 (u32 (u64 (u32 (u64 (n * 1441151882) >>> 25) * 100)) * 100))
          * 100) >>> 32) = ((n % 10 ^ 8 / 100 % 100 : Nat) : Int)
    ∧ to_int (u64 (u32 (u64 (u32 (u64 (u32 (u64 (u32 (u64 (n * 1441151882) >>> 25) * 100))
          * 100)) * 100)) * 100) >>> 32) = ((n % 10 ^ 8 % 100 : Nat) : Int) := by
  have h1' : 100000000 ≤ n := by simpa using h1
  have h2' : n < 1000000000 := by simpa using h2
  have k1 : n % 100000000 / 1000000 = n / 1000000 % 100 := by omega
  have k2 : n % 100000000 / 10000 % 100 = n / 10000 % 100 := by omega
  have k3 : n % 100000000 / 100 % 100 = n / 100 % 100 := by omega
  have k4 : n % 100000000 % 100 = n % 100 := by omega
  have hu : u64 (n * 1441151882) = n * 1441151882 := Nat.mod_eq_of_lt (by omega)
  obtain ⟨g0, g1, g2, g3, g4⟩ :=
    fx_chain4 n (n * 1441151882 / 33554432) (by unfold Fx; omega)
  have e32 : (2 : Nat) ^ 32 = 4294967296 := by norm_num
  have e25 : (2 : Nat) ^ 25 = 33554432 := by norm_num
  have e8 : (10 : Nat) ^ 8 = 100000000 := by norm_num
  have e6 : (10 : Nat) ^ 6 = 1000000 := by norm_num
  have e4 : (10 : Nat) ^ 4 = 10000 := by norm_num
  rw [e32, e25, e8, e6, e4, k1, k2, k3, k4]
  refine ⟨⟨g0, by omega, by omega, g1, g2, g3, g4⟩, ?_, ?_, ?_, ?_, ?_, ?_⟩
  · rw [hu, shr25]
  · rw [hu, shr25, shr32, g0, to_int_small _ (by omega)]
  · rw [hu, shr25, u64_u32_step, shr32, g1, to_int_small _ (by omega)]
  · rw [hu, shr25, u64_u32_step, u64_u32_step, shr32, g2, to_int_small _ (by omega)]
  · rw [hu, shr25, u64_u32_step, u64_u32_step, u64_u32_step, shr32, g3,
      to_int_small _ (by omega)]
  · rw [hu, shr25, u64_u32_step, u64_u32_step, u64_u32_step, u64_u32_step, shr32, g4,
      to_int_small _ (by omega)]

theorem C23_witness :
    (10 ^ 8 ≤ 987654321 ∧ 987654321 < 10 ^ 9)
    ∧ (987654321 * 1441151882 / 2 ^ 25 / 2 ^ 32 = 987654321 / 10 ^ 8
      ∧ 1 ≤ 987654321 / 10 ^ 8 ∧ 987654321 / 10 ^ 8 ≤ 9
      ∧ 987654321 * 1441151882 / 2 ^ 25 % 2 ^ 32 * 100 / 2 ^ 32
          = 987654321 % 10 ^ 8 / 10 ^ 6
      ∧ 987654321 * 1441151882 / 2 ^ 25 % 2 ^ 32 * 100 % 2 ^ 32 * 100 / 2 ^ 32
          = 987654321 % 10 ^ 8 / 10 ^ 4 % 100
      ∧ 987654321 * 1441151882 / 2 ^ 25 % 2 ^ 32 * 100 % 2 ^ 32 * 100 % 2 ^ 32 * 100
          / 2 ^ 32 = 987654321 % 10 ^ 8 / 100 % 100
      ∧ 987654321 * 1441151882 / 2 ^ 25 % 2 ^ 32 * 100 % 2 ^ 32 * 100 % 2 ^ 32 * 100
          % 2 ^ 32 * 100 / 2 ^ 32 = 987654321 % 10 ^ 8 % 100) :=
  ⟨⟨by norm_num, by norm_num⟩,
    (C23_branch_9_arithmetic 987654321 (by norm_num) (by norm_num)).1⟩

/-- The specialisation `to_chars<double, …>` runs `print_9_digits` on the first block, then
the second-block statements with bias 1 when there is a second block, then the exponent
block. -/
theorem to_chars_double_blocks (significand : Nat) (exponent : Int) (buffer : Nat)
    (b : Buffer) :
    to_chars_double significand exponent buffer b
      = match print_9_digits
            (if significand < 1000000000 then u32 significand
              else u32 (significand / 100000000)) exponent buffer b with
        | none => none
        | some (exponent, buffer, b) =>
          match (if (if significand < 1000000000 then false else true) = true then
              print_second_block_with 1
                (if significand < 1000000000 then 0
                  else u32 (u32 significand + 2 ^ 32
                    - u32 ((if significand < 1000000000 then u32 significand
                        else u32 (significand / 100000000)) * 100000000)))
                exponent buffer b
            else some (exponent, buffer, b)) with
          | none => none
          | some (exponent, buffer, b) => print_exponent_double exponent buffer b := by
  unfold to_chars_double print_second_block_with
  rfl

/-- With the bias, the second-block statements store the 8 zero-padded digits of every
`n < 10^8`. -/
theorem print_second_block_spec (n : Nat) (h : n < 100000000) (e : Int) (p : Nat)
    (b : Buffer) :
    print_second_block_with 1 n e p b = some (e + 8, p + 8, b.writeBytes p (zeroPadded 8 n)) := by
  obtain ⟨c1, c2⟩ := second_block_arith n h
  obtain ⟨g0, g1, g2, g3⟩ := fx_chain3 _ _ c2
  have hti : to_int (n / 1000000) = ((n / 1000000 : Nat) : Int) := to_int_small _ (by omega)
  unfold print_second_block_with
  simp only [c1, shr32, u64_u32_step, u64_step, copy_step, g0, hti,
    copy_pair (n / 1000000) (by omega)]
  simp only [g1, g2, g3]
  rw [zeroPadded_eq 8 n (by norm_num; omega)]
  simp only [lowDigits, List.reverse_cons, List.reverse_nil, List.nil_append, List.cons_append,
    List.map_cons, List.map_nil, Buffer.writeBytes]
  clear c1 c2 g0 g1 g2 g3 hti
  refine congrArg some (Prod.ext rfl (Prod.ext rfl ?_))
  simp only
  repeat' (first | with_reducible rfl | apply store_congr)
  all_goals omega

/-- C24: the `+ 1` bias of the second-block routine changes the output for some input. For
the second-block value `n = 1` (below `10^8`) the same 8-digit extraction with the `+ 1`
omitted stores `00000000`, which is not the zero-padded decimal `00000001` of 1, whereas
with the bias the extraction stores `00000001`; and with the bias the digits stored are the
zero-padded decimal of `n` for every `n < 10^8`. -/
theorem C24_second_block_bias :
    (1 : Nat) < 10 ^ 8
    ∧ zeroPadded 8 1 = bytesOf "00000001"
    ∧ (∀ (e : Int) (p : Nat) (b : Buffer), ∃ x q b1,
        print_second_block_with 0 1 e p b = some (x, q, b1)
        ∧ readBytes b1.mem p 8 = bytesOf "00000000"
        ∧ readBytes b1.mem p 8 ≠ zeroPadded 8 1)
    ∧ (∀ (e : Int) (p : Nat) (b : Buffer), ∃ x q b1,
        print_second_block_with 1 1 e p b = some (x, q, b1)
        ∧ readBytes b1.mem p 8 = zeroPadded 8 1)
    ∧ (∀ (n : Nat) (e : Int) (p : Nat) (b : Buffer), n < 10 ^ 8 → ∃ x q b1,
        print_second_block_with 1 n e p b = some (x, q, b1)
        ∧ readBytes b1.mem p 8 = zeroPadded 8 n) := by
  have hz : zeroPadded 8 1 = bytesOf "00000001" := by
    rw [zeroPadded_eq 8 1 (by norm_num)]
    decide
  have hgen : ∀ (n : Nat) (e : Int) (p : Nat) (b : Buffer), n < 10 ^ 8 → ∃ x q b1,
      print_second_block_with 1 n e p b = some (x, q, b1)
      ∧ readBytes b1.mem p 8 = zeroPadded 8 n := by
    intro n e p b h
    have h' : n < 100000000 := by simpa using h
    refine ⟨_, _, _, print_second_block_spec n h' e p b, ?_⟩
    have := readBytes_writeBytes b p (zeroPadded 8 n)
    rw [zeroPadded_length n h'] at this
    exact this
  refine ⟨by norm_num, hz, ?_, fun e p b => hgen 1 e p b (by norm_num), hgen⟩
  intro e p b
  have hr : readBytes (b.writeBytes p (bytesOf "00000000")).mem p 8 = bytesOf "00000000" :=
    readBytes_writeBytes b p (bytesOf "00000000")
  refine ⟨e + 8, p + 8, b.writeBytes p (bytesOf "00000000"), rfl, hr, ?_⟩
  rw [hr, hz]
  decide

theorem C24_witness :
    (12345678 : Nat) < 10 ^ 8
    ∧ ∃ x q b1, print_second_block_with 1 12345678 0 0 ⟨fun _ => 0, []⟩ = some (x, q, b1)
        ∧ readBytes b1.mem 0 8 = zeroPadded 8 12345678 :=
  ⟨by norm_num, C24_second_block_bias.2.2.2.2 12345678 0 0 ⟨fun _ => 0, []⟩ (by norm_num)⟩

/-- C25: block split arithmetic. For every significand `s` with `10^9 ≤ s < 10^17`,
`first_block = floor(s / 10^8)` satisfies `10 ≤ first_block < 10^9` (so the conversion to
32 bits keeps it), and `second_block`, computed as `(s mod 2^32) − first_block × 10^8` in
wrapping 32-bit unsigned arithmetic, equals `s mod 10^8`; hence
`first_block × 10^8 + second_block = s`. -/
theorem C25_block_split (s : Nat) (h1 : 10 ^ 9 ≤ s) (h2 : s < 10 ^ 17) :
    (10 ≤ s / 10 ^ 8 ∧ s / 10 ^ 8 < 10 ^ 9)
    ∧ u32 (s / 100000000) = s / 10 ^ 8
    ∧ u32 (u32 s + 2 ^ 32 - u32 (u32 (s / 100000000) * 100000000)) = s % 10 ^ 8
    ∧ ((u32 s : Int) - ((u32 (u32 (s / 100000000) * 100000000) : Nat) : Int)) % 2 ^ 32
        = ((s % 10 ^ 8 : Nat) : Int)
    ∧ u32 (s / 100000000) * 10 ^ 8
        + u32 (u32 s + 2 ^ 32 - u32 (u32 (s / 100000000) * 100000000)) = s := by
  have h1' : 1000000000 ≤ s := by simpa using h1
  have h2' : s < 100000000000000000 := by simpa using h2
  obtain ⟨a1, a2⟩ := split_arith s h1' h2'
  have e8 : (10 : Nat) ^ 8 = 100000000 := by norm_num
  have e9 : (10 : Nat) ^ 9 = 1000000000 := by norm_num
  rw [a1, a2, e8, e9]
  refine ⟨⟨by omega, by omega⟩, rfl, rfl, ?_, by omega⟩
  simp only [u32]
  omega

theorem C25_witness :
    (10 ^ 9 ≤ 12345678900001234 ∧ 12345678900001234 < 10 ^ 17)
    ∧ u32 (u32 12345678900001234 + 2 ^ 32
        - u32 (u32 (12345678900001234 / 100000000) * 100000000))
        = 12345678900001234 % 10 ^ 8 :=
  ⟨⟨by norm_num, by norm_num⟩,
    (C25_block_split 12345678900001234 (by norm_num) (by norm_num)).2.2.1⟩

/-- C26: three-digit exponent arithmetic. For every `x` with `100 ≤ x < 1000`, with
`p = x × 6554` in 32-bit arithmetic (the product is exact), `d1 = p >> 16` equals
`floor(x / 10)` and `d2 = ((p mod 2^16) × 5) >> 15` equals `x mod 10`, as the code comment
`d1 = exponent / 10; d2 = exponent % 10` states. -/
theorem C26_exponent_3_digits (x : Nat) (h1 : 100 ≤ x) (h2 : x < 1000) :
    u32 (u32_of_int (x : Int) * 6554) = x * 6554
    ∧ u32 (u32_of_int (x : Int) * 6554) >>> 16 = x / 10
    ∧ u32 (u16 (u32 (u32_of_int (x : Int) * 6554)) * 5) >>> 15 = x % 10
    ∧ x * 6554 / 2 ^ 16 = x / 10
    ∧ x * 6554 % 2 ^ 16 * 5 / 2 ^ 15 = x % 10 := by
  have m1 : x * 6554 / 2 ^ 16 = x / 10 := by omega
  have m2 : x * 6554 % 2 ^ 16 * 5 / 2 ^ 15 = x % 10 := by omega
  have h0 : u32_of_int (x : Int) = x := by
    unfold u32_of_int
    omega
  obtain ⟨d1, d2⟩ := exp3_arith x h1 h2
  refine ⟨?_, d1, d2, m1, m2⟩
  rw [h0]
  exact Nat.mod_eq_of_lt (by omega)

theorem C26_witness :
    (100 ≤ 308 ∧ 308 < 1000)
    ∧ (u32 (u32_of_int ((308 : Nat) : Int) * 6554) = 308 * 6554
      ∧ u32 (u32_of_int ((308 : Nat) : Int) * 6554) >>> 16 = 308 / 10
      ∧ u32 (u16 (u32 (u32_of_int ((308 : Nat) : Int) * 6554)) * 5) >>> 15 = 308 % 10
      ∧ 308 * 6554 / 2 ^ 16 = 308 / 10
      ∧ 308 * 6554 % 2 ^ 16 * 5 / 2 ^ 15 = 308 % 10) :=
  ⟨⟨by norm_num, by norm_num⟩, C26_exponent_3_digits 308 (by norm_num) (by norm_num)⟩

/-- C27: `radix_100_table` has exactly 200 characters and, for every `i` with
`0 ≤ i ≤ 99`, the characters at positions `2i` and `2i + 1` are the ASCII tens digit and
units digit of `i`, that is `'0' + i / 10` and `'0' + i mod 10`. -/
theorem C27_radix_100_table :
    radix_100_table.length = 200
    ∧ ∀ i : Nat, i ≤ 99 →
        radix_100_table.get? (2 * i) = some (Char.ofNat ('0'.toNat + i / 10))
        ∧ radix_100_table.get? (2 * i + 1) = some (Char.ofNat ('0'.toNat + i % 10)) := by
  refine ⟨rfl, ?_⟩
  intro i hi
  interval_cases i <;> exact ⟨rfl, rfl⟩

theorem C27_witness :
    (42 : Nat) ≤ 99
    ∧ radix_100_table.get? (2 * 42) = some (Char.ofNat ('0'.toNat + 42 / 10))
    ∧ radix_100_table.get? (2 * 42 + 1) = some (Char.ofNat ('0'.toNat + 42 % 10)) :=
  ⟨by norm_num, C27_radix_100_table.2 42 (by norm_num)⟩

/-- A read of `radix_100_table` succeeds exactly at the indices 0..199. -/
theorem read_at_table_isSome (i : Int) :
    (read_at radix_100_table i).isSome = true ↔ (0 ≤ i ∧ i ≤ 199) := by
  unfold read_at
  by_cases h : i < 0
  · rw [if_pos h]
    constructor
    · intro h'
      exact absurd h' (by simp)
    · intro h'
      omega
  · rw [if_neg h, Option.isSome_map']
    have hl : radix_100_table.length = 200 := rfl
    rw [List.get?_eq_getElem?, Option.isSome_iff_ne_none, Ne, List.getElem?_eq_none_iff, hl]
    omega

/-- A two-byte copy out of `radix_100_table` succeeds exactly when both indices are in
0..199. -/
theorem copy_table_isSome (off : Int) (dst : Nat) (b : Buffer) :
    (copy_memory_small radix_100_table off dst 2 b).isSome = true
      ↔ (0 ≤ off ∧ off + 1 ≤ 199) := by
  have h0 := read_at_table_isSome off
  have h1 := read_at_table_isSome (off + 1)
  cases e0 : read_at radix_100_table off with
  | none =>
    rw [e0] at h0
    simp only [copy_memory_small, e0]
    constructor
    · intro h'
      exact absurd h' (by simp)
    · intro h'
      have := h0.mpr ⟨h'.1, by omega⟩
      exact absurd this (by simp)
  | some c0 =>
    rw [e0] at h0
    have k0 := h0.mp rfl
    cases e1 : read_at radix_100_table (off + 1) with
    | none =>
      rw [e1] at h1
      simp only [copy_memory_small, e0, e1]
      constructor
      · intro h'
        exact absurd h' (by simp)
      · intro h'
        have := h1.mpr ⟨by omega, h'.2⟩
        exact absurd this (by simp)
    | some c1 =>
      rw [e1] at h1
      have k1 := h1.mp rfl
      simp only [copy_memory_small, e0, e1, Option.isSome_some, true_iff]
      exact ⟨k0.1, k1.2⟩

theorem to_int_two_digits (v : Nat) (h : v ≤ 99) : 0 ≤ to_int v ∧ to_int v ≤ 99 := by
  rw [to_int_small v (by omega)]
  omega

/-- C28: under the input preconditions (first block below `10^9`, second block below
`10^8`, adjusted exponent of magnitude below 100 for `float` and below 1000 for `double`)
every index used to read `radix_100_table` in `print_9_digits` and in both `to_chars`
specialisations lies in `[0, 199]`. A read, or a two-byte copy, out of the table succeeds
exactly when its indices are in `[0, 199]`, and under the preconditions `print_9_digits`,
the second-block statements, both exponent blocks and both `to_chars` succeed; every
two-digit quantity taken from the high half of a product or from the exponent is in
`[0, 99]`. At exponent 100 the `float` exponent block would read index 200. -/
theorem C28_table_reads_in_bounds :
    (∀ i : Int, (read_at radix_100_table i).isSome = true ↔ (0 ≤ i ∧ i ≤ 199))
    ∧ (∀ (off : Int) (dst : Nat) (b : Buffer),
        (copy_memory_small radix_100_table off dst 2 b).isSome = true
          ↔ (0 ≤ off ∧ off + 1 ≤ 199))
    ∧ (∀ s32 : Nat, s32 < 100 → 0 ≤ to_int s32 ∧ to_int s32 ≤ 99)
    ∧ (∀ s32 : Nat, s32 < 10 ^ 4 →
        0 ≤ to_int (u64 (s32 * 42949673) >>> 32)
        ∧ to_int (u64 (s32 * 42949673) >>> 32) ≤ 99)
    ∧ (∀ s32 : Nat, s32 < 10 ^ 6 →
        0 ≤ to_int (u64 (s32 * 429497) >>> 32) ∧ to_int (u64 (s32 * 429497) >>> 32) ≤ 99)
    ∧ (∀ s32 : Nat, s32 < 10 ^ 8 →
        0 ≤ to_int (u64 (s32 * 281474978) >>> 16 >>> 32)
        ∧ to_int (u64 (s32 * 281474978) >>> 16 >>> 32) ≤ 99)
    ∧ (∀ prod : Nat,
        0 ≤ to_int (u64 (u32 prod * 100) >>> 32) ∧ to_int (u64 (u32 prod * 100) >>> 32) ≤ 99)
    ∧ (∀ second_block : Nat, second_block < 10 ^ 8 →
        0 ≤ to_int (u64 (u64 (second_block * 281474978) >>> 16 + 1) >>> 32)
        ∧ to_int (u64 (u64 (second_block * 281474978) >>> 16 + 1) >>> 32) ≤ 99)
    ∧ (∀ x : Nat, 100 ≤ x → x < 1000 →
        u32 (u32_of_int (x : Int) * 6554) >>> 16 ≤ 99
        ∧ u32 (u32 (u32_of_int (x : Int) * 6554) >>> 16 * 2) + 1 ≤ 199)
    ∧ (∀ (s32 : Nat) (e : Int) (p : Nat) (b : Buffer), s32 < 10 ^ 9 →
        (print_9_digits s32 e p b).isSome = true)
    ∧ (∀ (n : Nat) (e : Int) (p : Nat) (b : Buffer), n < 10 ^ 8 →
        (print_second_block_with 1 n e p b).isSome = true)
    ∧ (∀ (x : Int) (p : Nat) (b : Buffer), |x| < 100 →
        (print_exponent_float x p b).isSome = true)
    ∧ (∀ (x : Int) (p : Nat) (b : Buffer), |x| < 1000 →
        (print_exponent_double x p b).isSome = true)
    ∧ (∀ (s32 : Nat) (e : Int) (p : Nat) (b : Buffer), 1 ≤ s32 → s32 < 10 ^ 9 →
        |adjustedExponent s32 e| < 100 → (to_chars_float s32 e p b).isSome = true)
    ∧ (∀ (s : Nat) (e : Int) (p : Nat) (b : Buffer), 1 ≤ s → s < 10 ^ 17 →
        |adjustedExponent s e| < 1000 → (to_chars_double s e p b).isSome = true)
    ∧ (∀ (e : Int) (p : Nat) (b : Buffer), |e| < 100 →
        (to_chars_float 0 e p b).isSome = true)
    ∧ (∀ (e : Int) (p : Nat) (b : Buffer), |e| < 1000 →
        (to_chars_double 0 e p b).isSome = true)
    ∧ (∀ (p : Nat) (b : Buffer), print_exponent_float 100 p b = none) := by
  have hpf : ∀ (x : Int) (p : Nat) (b : Buffer), |x| < 100 →
      (print_exponent_float x p b).isSome = true := by
    intro x p b hx
    obtain ⟨hx1, hx2⟩ := abs_lt.mp hx
    rw [print_exponent_float_spec x hx1 hx2]
    rfl
  have hpd : ∀ (x : Int) (p : Nat) (b : Buffer), |x| < 1000 →
      (print_exponent_double x p b).isSome = true := by
    intro x p b hx
    obtain ⟨hx1, hx2⟩ := abs_lt.mp hx
    rw [print_exponent_double_spec x hx1 hx2]
    rfl
  refine ⟨read_at_table_isSome, copy_table_isSome, ?_, ?_, ?_, ?_, ?_, ?_, ?_, ?_, ?_, hpf, hpd,
    ?_, ?_, ?_, ?_, ?_⟩
  · intro s32 h
    exact to_int_two_digits s32 (by omega)
  · intro s32 h
    have h' : s32 < 10000 := by simpa using h
    have hu : u64 (s32 * 42949673) = s32 * 42949673 := Nat.mod_eq_of_lt (by omega)
    rw [hu, shr32]
    exact to_int_two_digits _ (by omega)
  · intro s32 h
    have h' : s32 < 1000000 := by simpa using h
    have hu : u64 (s32 * 429497) = s32 * 429497 := Nat.mod_eq_of_lt (by omega)
    rw [hu, shr32]
    exact to_int_two_digits _ (by omega)
  · intro s32 h
    have h' : s32 < 100000000 := by simpa using h
    have hu : u64 (s32 * 281474978) = s32 * 281474978 := Nat.mod_eq_of_lt (by omega)
    rw [hu, shr16, shr32]
    exact to_int_two_digits _ (by omega)
  · intro prod
    rw [u64_u32_step, shr32]
    exact to_int_two_digits _ (by omega)
  · intro n h
    have h' : n < 100000000 := by simpa using h
    rw [(second_block_arith n h').1, shr32]
    exact to_int_two_digits _ (by omega)
  · intro x h1 h2
    rw [(exp3_arith x h1 h2).1]
    unfold u32
    omega
  · intro s32 e p b h
    have h' : s32 < 1000000000 := by simpa using h
    by_cases h0 : s32 = 0
    · subst h0
      rfl
    · rw [print_9_digits_spec s32 (by omega) h']
      rfl
  · intro n e p b h
    rw [print_second_block_spec n (by simpa using h)]
    rfl
  · intro s32 e p b h1 h2 hx
    rw [to_chars_float_eq s32 h1 (by simpa using h2)]
    exact hpf _ _ _ hx
  · intro s e p b h1 h2 hx
    rw [to_chars_double_eq s h1 (by simpa using h2)]
    exact hpd _ _ _ hx
  · intro e p b hx
    exact hpf e (p + 1) _ hx
  · intro e p b hx
    exact hpd e (p + 1) _ hx
  · intro p b
    rfl

theorem C28_witness :
    ((1 : Nat) ≤ 12345678900001234 ∧ 12345678900001234 < 10 ^ 17
      ∧ |adjustedExponent 12345678900001234 (-340)| < 1000)
    ∧ (to_chars_double 12345678900001234 (-340) 0 ⟨fun _ => 0, []⟩).isSome = true :=
  have hx : |adjustedExponent 12345678900001234 (-340)| < 1000 := by
    rw [adjustedExponent_of_range 16 12345678900001234 (-340) (by norm_num) (by norm_num)]
    decide
  ⟨⟨by norm_num, by norm_num, hx⟩,
    C28_table_reads_in_bounds.2.2.2.2.2.2.2.2.2.2.2.2.2.2.1 12345678900001234 (-340) 0
      ⟨fun _ => 0, []⟩ (by norm_num) (by norm_num) hx⟩

/-- C30: for every significand `s` with `1 ≤ s < 10^9` and every exponent `e` with
`|e + (digit count of s) − 1| < 100`, `to_chars<double>(s, e)` and `to_chars<float>(s, e)`
write exactly the same bytes and return the same length: the two calls have the same
result, the returned pointer is the start plus the length of the text and the bytes from
the start to it are the text of `s × 10^e`. -/
theorem C30_double_agrees_with_float (s : Nat) (e : Int) (p : Nat) (b : Buffer)
    (h1 : 1 ≤ s) (h2 : s < 10 ^ 9) (hx : |e + ((digitCount s : Nat) : Int) - 1| < 100) :
    to_chars_double s e p b = to_chars_float s e p b
    ∧ ∃ q b1, to_chars_float s e p b = some (q, b1)
        ∧ to_chars_double s e p b = some (q, b1)
        ∧ q - p = (sciText s e).length
        ∧ readBytes b1.mem p (q - p) = sciText s e := by
  have h2' : s < 1000000000 := by simpa using h2
  obtain ⟨hx1, hx2⟩ := abs_lt.mp hx
  have hf := to_chars_float_spec s h1 h2' e hx1 hx2 p b
  have hd := to_chars_double_spec s h1 (by omega) e (by unfold adjustedExponent; omega)
    (by unfold adjustedExponent; omega) p b
  refine ⟨hd.trans hf.symm, _, _, hf, hd, Nat.add_sub_cancel_left _ _, ?_⟩
  rw [Nat.add_sub_cancel_left]
  exact readBytes_writeBytes b p (sciText s e)

theorem C30_witness :
    ((1 : Nat) ≤ 123 ∧ 123 < 10 ^ 9 ∧ |(-5 : Int) + ((digitCount 123 : Nat) : Int) - 1| < 100)
    ∧ to_chars_double 123 (-5) 0 ⟨fun _ => 0, []⟩ = to_chars_float 123 (-5) 0 ⟨fun _ => 0, []⟩ :=
  have hx : |(-5 : Int) + ((digitCount 123 : Nat) : Int) - 1| < 100 := by
    simp [digitCount]
  ⟨⟨by norm_num, by norm_num, hx⟩,
    (C30_double_agrees_with_float 123 (-5) 0 ⟨fun _ => 0, []⟩ (by norm_num) (by norm_num) hx).1⟩

/-- What `print_9_digits` does on a 32-bit significand of ten digits: the 9-digit branch
runs, and the first store puts `'0' + q` at the start, `q` being the high half of the
product. -/
theorem print_9_digits_ten (s32 : Nat) (h1 : 1000000000 ≤ s32) (h2 : s32 < 4294967296)
    (e : Int) (p : Nat) (b : Buffer) :
    ∃ b1, print_9_digits s32 e p b = some (e + 8, p + 10, b1)
      ∧ b1.mem p = 48 + s32 * 1441151882 / 33554432 / 4294967296
      ∧ b1.written
          = [p + 9, p + 8, p + 7, p + 6, p + 5, p + 4, p + 3, p + 2, p + 1, p] ++ b.written := by
  have hu : u64 (s32 * 1441151882) = s32 * 1441151882 := Nat.mod_eq_of_lt (by omega)
  have hq : s32 * 1441151882 / 33554432 / 4294967296 < 43 := by omega
  have hti : to_int (s32 * 1441151882 / 33554432 / 4294967296)
      = ((s32 * 1441151882 / 33554432 / 4294967296 : Nat) : Int) := to_int_small _ (by omega)
  simp only [print_9_digits, if_neg (show ¬ s32 < 100 by omega),
    if_neg (show ¬ s32 < 1000000 by omega), if_neg (show ¬ s32 < 100000000 by omega),
    hu, shr25, shr32, u32_eq, u64_step, copy_step, hti, char_toNat_0, char_toNat_dot]
  refine ⟨_, rfl, ?_, ?_⟩
  · simp only [Buffer.store, char_of_int]
    repeat rw [if_neg (show ¬ p = _ by omega)]
    rw [if_pos (show p = p + 0 by omega)]
    omega
  · simp only [Buffer.store, List.cons_append, List.nil_append, Nat.add_zero]

/-- C31: the bound `s32 < 10^9` is necessary for `print_9_digits`. For every 32-bit `s32`
with `10^9 ≤ s32 < 2^32` the 9-digit branch runs and the first character it writes, at the
start of the buffer, is not an ASCII decimal digit: its code is `'0' + q`, where
`q = int(prod >> 32)` after `prod >>= 25` is at least 10. -/
theorem C31_nine_digit_bound_needed (s32 : Nat) (e : Int) (p : Nat) (b : Buffer)
    (h1 : 10 ^ 9 ≤ s32) (h2 : s32 < 2 ^ 32) :
    ∃ x q b1, print_9_digits s32 e p b = some (x, q, b1)
      ∧ to_int (u64 (s32 * 1441151882) >>> 25 >>> 32)
          = ((u64 (s32 * 1441151882) >>> 25 >>> 32 : Nat) : Int)
      ∧ 10 ≤ u64 (s32 * 1441151882) >>> 25 >>> 32
      ∧ b1.mem p = '0'.toNat + u64 (s32 * 1441151882) >>> 25 >>> 32
      ∧ isDigit (b1.mem p) = false
      ∧ b1.written
          = [p + 9, p + 8, p + 7, p + 6, p + 5, p + 4, p + 3, p + 2, p + 1, p]
            ++ b.written := by
  have h1' : 1000000000 ≤ s32 := by simpa using h1
  have h2' : s32 < 4294967296 := by simpa using h2
  have hu : u64 (s32 * 1441151882) = s32 * 1441151882 := Nat.mod_eq_of_lt (by omega)
  have hq1 : 10 ≤ s32 * 1441151882 / 33554432 / 4294967296 := by omega
  have hq2 : s32 * 1441151882 / 33554432 / 4294967296 < 43 := by omega
  obtain ⟨b1, hb, hm, hw⟩ := print_9_digits_ten s32 h1' h2' e p b
  rw [hu, shr25, shr32, char_toNat_0]
  refine ⟨_, _, b1, hb, to_int_small _ (by omega), hq1, hm, ?_, hw⟩
  rw [hm]
  unfold isDigit
  have : ¬ (48 + s32 * 1441151882 / 33554432 / 4294967296 ≤ 57) := by omega
  simp [this]

theorem C31_witness :
    ((10 : Nat) ^ 9 ≤ 4000000000 ∧ (4000000000 : Nat) < 2 ^ 32)
    ∧ ∃ x q b1, print_9_digits 4000000000 0 0 ⟨fun _ => 0, []⟩ = some (x, q, b1)
      ∧ to_int (u64 (4000000000 * 1441151882) >>> 25 >>> 32)
          = ((u64 (4000000000 * 1441151882) >>> 25 >>> 32 : Nat) : Int)
      ∧ 10 ≤ u64 (4000000000 * 1441151882) >>> 25 >>> 32
      ∧ b1.mem 0 = '0'.toNat + u64 (4000000000 * 1441151882) >>> 25 >>> 32
      ∧ isDigit (b1.mem 0) = false
      ∧ b1.written
          = [0 + 9, 0 + 8, 0 + 7, 0 + 6, 0 + 5, 0 + 4, 0 + 3, 0 + 2, 0 + 1, 0]
            ++ (Buffer.mk (fun _ => 0) []).written :=
  ⟨⟨by norm_num, by norm_num⟩,
    C31_nine_digit_bound_needed 4000000000 0 0 ⟨fun _ => 0, []⟩ (by norm_num) (by norm_num)⟩

/-- The specialisation `to_chars<double, …>` is its significand part followed by the
exponent block. -/
theorem to_chars_double_parts (significand : Nat) (exponent : Int) (buffer : Nat)
    (b : Buffer) :
    to_chars_double significand exponent buffer b
      = match to_chars_double_significand significand exponent buffer b with
        | none => none
        | some (x, q, b1) => print_exponent_double x q b1 := by
  rw [to_chars_double_blocks]
  unfold to_chars_double_significand
  dsimp only
  generalize print_9_digits (if significand < 1000000000 then u32 significand
      else u32 (significand / 100000000)) exponent buffer b = r
  cases r with
  | none => rfl
  | some r =>
    obtain ⟨x, q, b1⟩ := r
    by_cases h : significand < 1000000000
    · simp only [if_pos h, Bool.false_eq_true, if_false]
    · simp only [if_neg h, if_true]

/-- What the significand part of `to_chars<double, …>` hands to the exponent block. -/
theorem to_chars_double_significand_eq (s : Nat) (h1 : 1 ≤ s) (h2 : s < 100000000000000000)
    (e : Int) (p : Nat) (b : Buffer) :
    to_chars_double_significand s e p b
      = some (adjustedExponent s e, p + (significandText s).length,
          b.writeBytes p (significandText s)) := by
  unfold to_chars_double_significand adjustedExponent
  by_cases hs : s < 1000000000
  · have hu : u32 s = s := Nat.mod_eq_of_lt (by omega)
    simp only [if_pos hs, hu, print_9_digits_spec s h1 hs, Bool.false_eq_true, if_false]
  · obtain ⟨a1, a2⟩ := split_arith s (by omega) h2
    obtain ⟨t1, t2⟩ := significandText_split s (by omega)
    simp only [if_neg hs, a1, a2, print_9_digits_spec (s / 100000000) (by omega) (by omega),
      if_true, print_second_block_spec (s % 100000000) (by omega)]
    have hz := zeroPadded_eq 8 (s % 100000000) (by norm_num; omega)
    have hlow : lowDigits 8 (s % 100000000) = lowDigits 8 s := by
      simp only [lowDigits, List.cons.injEq, and_true]
      refine ⟨?_, ?_, ?_, ?_, ?_, ?_, ?_, ?_⟩ <;> omega
    rw [hlow] at hz
    rw [t1, writeBytes_append, List.length_append, hz, t2]
    refine congrArg some (Prod.ext ?_ (Prod.ext ?_ rfl))
    · simp only
      push_cast
      ring
    · simp only [List.length_map, List.length_reverse, lowDigits_length]
      omega

theorem checked_int_of (e x : Int) (q : Nat) (b1 : Buffer) (r : Option (Int × Nat × Buffer))
    (hr : r = some (x, q, b1)) (he : is_int e) (hx : is_int x) :
    checked_int e r = some (x, q, b1) := by
  subst hr
  unfold checked_int
  rw [if_pos he]
  simp only [if_pos hx]

/-- C4, as stated, fails at `s32 = 10`, `e = 2147483647` (the largest `int`): the claimed
exponent `e + (d − 1) = 2147483648` is not a value of `int`. The embedding, which computes
in ℤ, gives 2147483648; in the code `exponent += 1` overflows, so the run with the range of
`int` enforced is undefined (`none`). -/
theorem C4_counterexample :
    is_int 2147483647 ∧ ((1 : Nat) ≤ 10 ∧ (10 : Nat) < 10 ^ 9)
    ∧ (2147483647 : Int) + (((digitCount 10 : Nat) : Int) - 1) = 2147483648
    ∧ ¬ is_int 2147483648
    ∧ (print_9_digits 10 2147483647 0 ⟨fun _ => 0, []⟩).map (fun r => r.1) = some 2147483648
    ∧ (checked_int 2147483647 (print_9_digits 10 2147483647 0 ⟨fun _ => 0, []⟩)).isNone
        = true := by
  refine ⟨by decide, ⟨by norm_num, by norm_num⟩, ?_, by decide, rfl, rfl⟩
  rw [digitCount_of_range 1 10 (by norm_num) (by norm_num)]
  norm_num

/-- C4, amended: for every `s32` with `1 ≤ s32 < 10^9` and every `int` exponent `e` for
which `e + (d − 1)` is still a value of `int`, where `d` is the number of decimal digits of
`s32`, `print_9_digits` leaves the exponent equal to `e + (d − 1)` without overflow; and on
both sides of each boundary 9/10, 99/100, …, 99999999/100000000 (that is `10^(k+1) − 1` and
`10^(k+1)` for `k = 0, …, 7`) the exponent becomes `e + k` and `e + (k + 1)`. -/
theorem C4_print_9_digits_exponent :
    (∀ (s32 : Nat) (e : Int) (p : Nat) (b : Buffer), 1 ≤ s32 → s32 < 10 ^ 9 →
      is_int e → is_int (e + (((digitCount s32 : Nat) : Int) - 1)) →
      ∃ q b1, print_9_digits s32 e p b = some (e + (((digitCount s32 : Nat) : Int) - 1), q, b1)
        ∧ checked_int e (print_9_digits s32 e p b)
            = some (e + (((digitCount s32 : Nat) : Int) - 1), q, b1))
    ∧ (∀ (k : Nat) (e : Int) (p : Nat) (b : Buffer), k ≤ 7 →
        is_int e → is_int (e + ((k : Int) + 1)) →
        (∃ q b1, checked_int e (print_9_digits (10 ^ (k + 1) - 1) e p b)
            = some (e + (k : Int), q, b1))
        ∧ (∃ q b1, checked_int e (print_9_digits (10 ^ (k + 1)) e p b)
            = some (e + ((k : Int) + 1), q, b1))) := by
  have gen : ∀ (s32 : Nat) (e : Int) (p : Nat) (b : Buffer), 1 ≤ s32 → s32 < 10 ^ 9 →
      is_int e → is_int (e + (((digitCount s32 : Nat) : Int) - 1)) →
      ∃ q b1, print_9_digits s32 e p b
          = some (e + (((digitCount s32 : Nat) : Int) - 1), q, b1)
        ∧ checked_int e (print_9_digits s32 e p b)
            = some (e + (((digitCount s32 : Nat) : Int) - 1), q, b1) := by
    intro s32 e p b h1 h2 he hx
    have hp : print_9_digits s32 e p b
        = some (e + (((digitCount s32 : Nat) : Int) - 1), p + (significandText s32).length,
            b.writeBytes p (significandText s32)) := by
      rw [print_9_digits_spec s32 h1 (by simpa using h2) e p b, Int.add_sub_assoc]
    exact ⟨_, _, hp, checked_int_of e _ _ _ _ hp he hx⟩
  refine ⟨gen, ?_⟩
  intro k e p b hk he hx
  have hp1 : (10 : Nat) ^ (k + 1) = 10 * 10 ^ k := by rw [pow_succ, Nat.mul_comm]
  have hpos : 0 < 10 ^ k := Nat.pow_pos (by norm_num)
  have hle : (10 : Nat) ^ (k + 1) ≤ 10 ^ 8 := Nat.pow_le_pow_right (by norm_num) (by omega)
  have hlt : (10 : Nat) ^ 8 < 10 ^ 9 := by norm_num
  have d1 : digitCount (10 ^ (k + 1) - 1) = k + 1 :=
    digitCount_of_range k _ (by omega) (by omega)
  have d2 : digitCount (10 ^ (k + 1)) = k + 1 + 1 :=
    digitCount_of_range (k + 1) _ (le_refl _) (by rw [pow_succ (10 : Nat) (k + 1)]; omega)
  have e1 : e + ((((k + 1 : Nat) : Nat) : Int) - 1) = e + (k : Int) := by
    push_cast
    omega
  have e2 : e + ((((k + 1 + 1 : Nat) : Nat) : Int) - 1) = e + ((k : Int) + 1) := by
    push_cast
    omega
  have hx1 : is_int (e + (k : Int)) := by
    unfold is_int at he hx ⊢
    omega
  constructor
  · obtain ⟨q, b1, _, h⟩ := gen (10 ^ (k + 1) - 1) e p b (by omega) (by omega) he
      (by rw [d1, e1]; exact hx1)
    rw [d1, e1] at h
    exact ⟨q, b1, h⟩
  · obtain ⟨q, b1, _, h⟩ := gen (10 ^ (k + 1)) e p b (by omega) (by omega) he
      (by rw [d2, e2]; exact hx)
    rw [d2, e2] at h
    exact ⟨q, b1, h⟩

theorem C4_witness :
    ((1 : Nat) ≤ 99999999 ∧ (99999999 : Nat) < 10 ^ 9 ∧ is_int (-5)
      ∧ is_int (-5 + (((digitCount 99999999 : Nat) : Int) - 1)))
    ∧ ∃ q b1, print_9_digits 99999999 (-5) 0 ⟨fun _ => 0, []⟩
          = some (-5 + (((digitCount 99999999 : Nat) : Int) - 1), q, b1)
        ∧ checked_int (-5) (print_9_digits 99999999 (-5) 0 ⟨fun _ => 0, []⟩)
            = some (-5 + (((digitCount 99999999 : Nat) : Int) - 1), q, b1) :=
  have hx : is_int (-5 + (((digitCount 99999999 : Nat) : Int) - 1)) := by
    rw [digitCount_of_range 7 99999999 (by norm_num) (by norm_num)]
    decide
  ⟨⟨by norm_num, by norm_num, by decide, hx⟩,
    C4_print_9_digits_exponent.1 99999999 (-5) 0 ⟨fun _ => 0, []⟩ (by norm_num) (by norm_num)
      (by decide) hx⟩

/-- C6, as stated, fails at `s = 1000000000`, `e = 2147483640`: `e` is an `int`, but the
claimed exponent `e + (number of digits of s) − 1 = 2147483649` is not. The first block
leaves 2147483641; the embedding, which computes in ℤ, then gives 2147483649, while in the
code `exponent += 8` overflows, so the run with the range of `int` enforced is undefined
(`none`). And at `s = 1`, `e = 5000` the value 5000 reaches the exponent block, which then
reads outside `radix_100_table`: nothing is formatted. -/
theorem C6_counterexample :
    is_int 2147483640 ∧ ((1 : Nat) ≤ 1000000000 ∧ (1000000000 : Nat) < 10 ^ 17)
    ∧ (2147483640 : Int) + ((digitCount 1000000000 : Nat) : Int) - 1 = 2147483649
    ∧ ¬ is_int 2147483649
    ∧ (print_9_digits (1000000000 / 100000000) 2147483640 0 ⟨fun _ => 0, []⟩).map
        (fun r => r.1) = some 2147483641
    ∧ (to_chars_double_significand 1000000000 2147483640 0 ⟨fun _ => 0, []⟩).map
        (fun r => r.1) = some 2147483649
    ∧ (checked_int 2147483640
        (to_chars_double_significand 1000000000 2147483640 0 ⟨fun _ => 0, []⟩)).isNone
          = true
    ∧ (to_chars_double_significand 1 5000 0 ⟨fun _ => 0, []⟩).map (fun r => r.1) = some 5000
    ∧ (to_chars_double 1 5000 0 ⟨fun _ => 0, []⟩).isNone = true := by
  refine ⟨by decide, ⟨by norm_num, by norm_num⟩, ?_, by decide, rfl, rfl, rfl, rfl, rfl⟩
  rw [digitCount_of_range 9 1000000000 (by norm_num) (by norm_num)]
  norm_num

/-- C6, amended: for every significand `s` with `1 ≤ s < 10^17` and every `int` input
exponent `e` for which `e + (number of decimal digits of s) − 1` is still a value of `int`,
the exponent value that `to_chars<double>` hands to its exponent block, after the
significand text, is `e + (number of decimal digits of s) − 1`, reached without overflow;
for `s ≥ 10^9` this is the first block's digit count − 1 plus 8 for the second block. It is
`e + 8` for `s = 999999999` and `e + 9` for `s = 1000000000`. When its magnitude is below
1000 the exponent block writes the text of this value, which reads back as it. -/
theorem C6_double_exponent_value :
    (∀ (s : Nat) (e : Int) (p : Nat) (b : Buffer), 1 ≤ s → s < 10 ^ 17 →
      is_int e → is_int (e + ((digitCount s : Nat) : Int) - 1) →
      ∃ q b1, to_chars_double_significand s e p b
          = some (e + ((digitCount s : Nat) : Int) - 1, q, b1)
        ∧ checked_int e (to_chars_double_significand s e p b)
            = some (e + ((digitCount s : Nat) : Int) - 1, q, b1)
        ∧ to_chars_double s e p b
            = print_exponent_double (e + ((digitCount s : Nat) : Int) - 1) q b1)
    ∧ (∀ (s : Nat), 10 ^ 9 ≤ s →
        ((digitCount s : Nat) : Int) - 1 = (((digitCount (s / 10 ^ 8) : Nat) : Int) - 1) + 8)
    ∧ (∀ (e : Int) (p : Nat) (b : Buffer), is_int e → is_int (e + 8) →
        ∃ q b1, checked_int e (to_chars_double_significand 999999999 e p b)
          = some (e + 8, q, b1))
    ∧ (∀ (e : Int) (p : Nat) (b : Buffer), is_int e → is_int (e + 9) →
        ∃ q b1, checked_int e (to_chars_double_significand 1000000000 e p b)
          = some (e + 9, q, b1))
    ∧ (∀ (s : Nat) (e : Int) (p : Nat) (b : Buffer), 1 ≤ s → s < 10 ^ 17 →
        |e + ((digitCount s : Nat) : Int) - 1| < 1000 →
        ∃ q b1 r, to_chars_double s e p b = some (q, b1)
          ∧ readBytes b1.mem p (q - p)
              = significandText s ++ exponentText (e + ((digitCount s : Nat) : Int) - 1)
          ∧ exponentText (e + ((digitCount s : Nat) : Int) - 1) = 69 :: r
          ∧ parseExponent r = some (e + ((digitCount s : Nat) : Int) - 1)) := by
  have gen : ∀ (s : Nat) (e : Int) (p : Nat) (b : Buffer), 1 ≤ s → s < 10 ^ 17 →
      is_int e → is_int (e + ((digitCount s : Nat) : Int) - 1) →
      ∃ q b1, to_chars_double_significand s e p b
          = some (e + ((digitCount s : Nat) : Int) - 1, q, b1)
        ∧ checked_int e (to_chars_double_significand s e p b)
            = some (e + ((digitCount s : Nat) : Int) - 1, q, b1)
        ∧ to_chars_double s e p b
            = print_exponent_double (e + ((digitCount s : Nat) : Int) - 1) q b1 := by
    intro s e p b h1 h2 he hx
    have hp := to_chars_double_significand_eq s h1 (by simpa using h2) e p b
    unfold adjustedExponent at hp
    refine ⟨_, _, hp, checked_int_of e _ _ _ _ hp he hx, ?_⟩
    rw [to_chars_double_parts, hp]
  refine ⟨gen, ?_, ?_, ?_, ?_⟩
  · intro s h
    have h8 : (10 : Nat) ^ 8 = 100000000 := by norm_num
    rw [h8, (significandText_split s (by simpa using h)).2]
    push_cast
    ring
  · intro e p b he hx
    have hd : e + ((digitCount 999999999 : Nat) : Int) - 1 = e + 8 := by
      rw [digitCount_of_range 8 999999999 (by norm_num) (by norm_num)]
      push_cast
      ring
    obtain ⟨q, b1, _, h, _⟩ := gen 999999999 e p b (by norm_num) (by norm_num) he
      (by rw [hd]; exact hx)
    rw [hd] at h
    exact ⟨q, b1, h⟩
  · intro e p b he hx
    have hd : e + ((digitCount 1000000000 : Nat) : Int) - 1 = e + 9 := by
      rw [digitCount_of_range 9 1000000000 (by norm_num) (by norm_num)]
      push_cast
      ring
    obtain ⟨q, b1, _, h, _⟩ := gen 1000000000 e p b (by norm_num) (by norm_num) he
      (by rw [hd]; exact hx)
    rw [hd] at h
    exact ⟨q, b1, h⟩
  · intro s e p b h1 h2 hx
    obtain ⟨hx1, hx2⟩ := abs_lt.mp hx
    obtain ⟨q, b1, hq, _, hr⟩ := to_chars_double_read s h1 (by simpa using h2) e hx1 hx2 p b
    obtain ⟨r, hr1, hr2⟩ := parseExponent_exponentText (e + ((digitCount s : Nat) : Int) - 1)
    exact ⟨q, b1, r, hq, hr, hr1, hr2⟩

theorem C6_witness :
    ((1 : Nat) ≤ 12345678901234567 ∧ (12345678901234567 : Nat) < 10 ^ 17 ∧ is_int (-7)
      ∧ is_int (-7 + ((digitCount 12345678901234567 : Nat) : Int) - 1))
    ∧ ∃ q b1, to_chars_double_significand 12345678901234567 (-7) 0 ⟨fun _ => 0, []⟩
          = some (-7 + ((digitCount 12345678901234567 : Nat) : Int) - 1, q, b1)
        ∧ checked_int (-7)
            (to_chars_double_significand 12345678901234567 (-7) 0 ⟨fun _ => 0, []⟩)
            = some (-7 + ((digitCount 12345678901234567 : Nat) : Int) - 1, q, b1)
        ∧ to_chars_double 12345678901234567 (-7) 0 ⟨fun _ => 0, []⟩
            = print_exponent_double
                (-7 + ((digitCount 12345678901234567 : Nat) : Int) - 1) q b1 :=
  have hx : is_int (-7 + ((digitCount 12345678901234567 : Nat) : Int) - 1) := by
    rw [digitCount_of_range 16 12345678901234567 (by norm_num) (by norm_num)]
    decide
  ⟨⟨by norm_num, by norm_num, by decide, hx⟩,
    C6_double_exponent_value.1 12345678901234567 (-7) 0 ⟨fun _ => 0, []⟩ (by norm_num)
      (by norm_num) (by decide) hx⟩

/-- C29, as stated, fails at the significand `10^10`: the printer holds a multiplication
that wraps around. There `first_block = 100` and the 32-bit product
`first_block * 1'0000'0000 = 10^10` exceeds `2^32`, so the machine product is 1410065408;
the subtraction, whose two operands are then equal, does not wrap. -/
theorem C29_counterexample :
    ((10 : Nat) ^ 9 ≤ 10 ^ 10 ∧ (10 : Nat) ^ 10 < 10 ^ 17)
    ∧ u32 (10 ^ 10 / 100000000) = 100
    ∧ 2 ^ 32 ≤ u32 (10 ^ 10 / 100000000) * 100000000
    ∧ u32 (u32 (10 ^ 10 / 100000000) * 100000000) = 1410065408
    ∧ u32 (u32 (10 ^ 10 / 100000000) * 100000000) ≠ u32 (10 ^ 10 / 100000000) * 100000000
    ∧ u32 (10 ^ 10) = 1410065408
    ∧ u32 (u32 (10 ^ 10) + 2 ^ 32 - u32 (u32 (10 ^ 10 / 100000000) * 100000000)) = 0 := by
  unfold u32
  norm_num

/-- C29, amended: no multiplication in `print_9_digits`, in the second-block routine or in
the exponent block wraps around. For every 32-bit `s32` and every 32-bit `second_block`
each 64-bit product computed in `print_9_digits` (`s32` times a reciprocal literal, and
`uint4::raw_type(prod) * 100`) and in the second-block routine is below `2^64`, as is the
`prod + 1` there, and for every exponent `x` in `[100, 1000)` the 32-bit products
`x × 6554` and `(p mod 2^16) × 5` are below `2^32`; so there the machine arithmetic equals
exact integer arithmetic. The intended wraps are in the computation of `second_block`,
whose 32-bit product `first_block * 1'0000'0000` and subtraction, taken modulo `2^32`,
give `s mod 10^8` for every significand `s` with `10^9 ≤ s < 10^17`. -/
theorem C29_products_exact :
    (∀ s32 : Nat, s32 < 2 ^ 32 →
        (s32 * 42949673 < 2 ^ 64 ∧ u64 (s32 * 42949673) = s32 * 42949673)
        ∧ (s32 * 429497 < 2 ^ 64 ∧ u64 (s32 * 429497) = s32 * 429497)
        ∧ (s32 * 281474978 < 2 ^ 64 ∧ u64 (s32 * 281474978) = s32 * 281474978)
        ∧ (s32 * 1441151882 < 2 ^ 64 ∧ u64 (s32 * 1441151882) = s32 * 1441151882))
    ∧ (∀ prod : Nat, u32 prod * 100 < 2 ^ 64 ∧ u64 (u32 prod * 100) = u32 prod * 100)
    ∧ (∀ second_block : Nat, second_block < 2 ^ 32 →
        second_block * 281474978 < 2 ^ 64
        ∧ u64 (second_block * 281474978) = second_block * 281474978
        ∧ u64 (second_block * 281474978) >>> 16 + 1 < 2 ^ 64
        ∧ u64 (u64 (second_block * 281474978) >>> 16 + 1)
            = second_block * 281474978 / 2 ^ 16 + 1)
    ∧ (∀ x : Int, 100 ≤ x → x < 1000 →
        ((u32_of_int x : Nat) : Int) = x
        ∧ u32_of_int x * 6554 < 2 ^ 32
        ∧ u32 (u32_of_int x * 6554) = u32_of_int x * 6554
        ∧ u16 (u32 (u32_of_int x * 6554)) * 5 < 2 ^ 32
        ∧ u32 (u16 (u32 (u32_of_int x * 6554)) * 5) = u32_of_int x * 6554 % 2 ^ 16 * 5)
    ∧ (∀ s : Nat, 10 ^ 9 ≤ s → s < 10 ^ 17 →
        u32 (u32 s + 2 ^ 32 - u32 (u32 (s / 100000000) * 100000000)) = s % 10 ^ 8) := by
  refine ⟨?_, ?_, ?_, ?_, ?_⟩
  · intro s32 h
    have h' : s32 < 4294967296 := by simpa using h
    have e64 : (2 : Nat) ^ 64 = 18446744073709551616 := by norm_num
    simp only [u64, e64]
    refine ⟨⟨by omega, Nat.mod_eq_of_lt (by omega)⟩, ⟨by omega, Nat.mod_eq_of_lt (by omega)⟩,
      ⟨by omega, Nat.mod_eq_of_lt (by omega)⟩, ⟨by omega, Nat.mod_eq_of_lt (by omega)⟩⟩
  · intro prod
    have e64 : (2 : Nat) ^ 64 = 18446744073709551616 := by norm_num
    have hlt : u32 prod < 4294967296 := Nat.mod_lt _ (by norm_num)
    simp only [u64, e64]
    exact ⟨by omega, Nat.mod_eq_of_lt (by omega)⟩
  · intro n h
    have h' : n < 4294967296 := by simpa using h
    have e64 : (2 : Nat) ^ 64 = 18446744073709551616 := by norm_num
    have e16 : (2 : Nat) ^ 16 = 65536 := by norm_num
    have hu : u64 (n * 281474978) = n * 281474978 := Nat.mod_eq_of_lt (by omega)
    rw [hu, shr16, e64, e16]
    refine ⟨by omega, rfl, by omega, ?_⟩
    exact Nat.mod_eq_of_lt (by omega)
  · intro x h1 h2
    have h0 : ((u32_of_int x : Nat) : Int) = x := by
      unfold u32_of_int
      omega
    have hn : u32_of_int x < 1000 := by omega
    have e32 : (2 : Nat) ^ 32 = 4294967296 := by norm_num
    have e16 : (2 : Nat) ^ 16 = 65536 := by norm_num
    have m1 : u32 (u32_of_int x * 6554) = u32_of_int x * 6554 := Nat.mod_eq_of_lt (by omega)
    rw [m1]
    simp only [u16, u32, e32, e16]
    refine ⟨h0, by omega, trivial, by omega, Nat.mod_eq_of_lt (by omega)⟩
  · intro s h1 h2
    obtain ⟨a1, a2⟩ := split_arith s (by simpa using h1) (by simpa using h2)
    rw [a1, a2]
    norm_num

theorem C29_witness :
    (4294967295 : Nat) < 2 ^ 32
    ∧ ((4294967295 * 42949673 < 2 ^ 64
        ∧ u64 (4294967295 * 42949673) = 4294967295 * 42949673)
      ∧ (4294967295 * 429497 < 2 ^ 64 ∧ u64 (4294967295 * 429497) = 4294967295 * 429497)
      ∧ (4294967295 * 281474978 < 2 ^ 64
        ∧ u64 (4294967295 * 281474978) = 4294967295 * 281474978)
      ∧ (4294967295 * 1441151882 < 2 ^ 64
        ∧ u64 (4294967295 * 1441151882) = 4294967295 * 1441151882)) :=
  ⟨by norm_num, C29_products_exact.1 4294967295 (by norm_num)⟩

end Dragonbox

namespace Cat

/-! ## `Result` -/

/-- C16: a `Result` constructed from a data value `v` is ok (`is_ok = true`) and
`or_panic()` on it returns exactly `v` without exiting; a `Result` constructed from an
`Error` is not ok (`is_ok = false`, `code` = that error) and `or_panic()` on it exits the
process with `EXIT_FAILURE` instead of returning a value. The same holds for
`Result<void>`, whose `or_panic()` returns nothing. -/
theorem C16_result_or_panic :
    (∀ (α : Type) (v : α),
      (Result.of_data v).is_ok = true ∧ (Result.of_data v).data = some v
      ∧ (Result.of_data v).or_panic = Outcome.returned v)
    ∧ (∀ (α : Type) (e : Error),
      (Result.of_error e : Result α).is_ok = false
      ∧ (Result.of_error e : Result α).code = some e
      ∧ (Result.of_error e : Result α).or_panic = Outcome.exited EXIT_FAILURE)
    ∧ (∀ (c : Nat), (Result.of_data c).or_panic_void = Outcome.returned ())
    ∧ (∀ (e : Error),
      (Result.of_error e : Result Nat).or_panic_void = Outcome.exited EXIT_FAILURE) :=
  ⟨fun _ _ => ⟨rfl, rfl, rfl⟩, fun _ _ => ⟨rfl, rfl, rfl⟩, fun _ => rfl, fun _ => rfl⟩

/-- C17, at the failing input: `Result(false).or_panic()` returns normally. The `bool`
reaches the data constructor, so the `Result` is ok whatever the condition is, and
`or_panic()` never exits on `Result(b)`. -/
theorem C17_result_of_false_returns :
    (Result.of_condition false).is_ok = true
    ∧ (Result.of_condition false).or_panic_void = Outcome.returned ()
    ∧ (Result.of_condition false).or_panic_void ≠ Outcome.exited EXIT_FAILURE
    ∧ (∀ b : Bool, (Result.of_condition b).or_panic_void = Outcome.returned ()) := by
  refine ⟨rfl, rfl, by decide, ?_⟩
  intro b
  cases b <;> rfl

/-! ## String length -/

theorem string_length_as_step (T : IntegerType) (p_string : Nat → Nat) (n : Nat)
    (h0 : p_string n = 0) (hn : n ≤ T.max)
    (k : Nat) : ∀ (fuel result : Nat), result + k = n → k < fuel →
      (∀ i, result ≤ i → i < n → p_string i ≠ 0) →
      string_length_as T p_string fuel result = some n := by
  induction k with
  | zero =>
    intro fuel result hr hf _
    obtain ⟨f, rfl⟩ : ∃ f, fuel = f + 1 := ⟨fuel - 1, by omega⟩
    have : result = n := by omega
    subst this
    rw [string_length_as, if_neg (by simp [h0])]
  | succ k ih =>
    intro fuel result hr hf hne
    obtain ⟨f, rfl⟩ : ∃ f, fuel = f + 1 := ⟨fuel - 1, by omega⟩
    rw [string_length_as, if_pos (hne result (le_refl _) (by omega)),
      if_pos (show result < T.max by omega)]
    exact ih f (result + 1) (by omega) (by omega) (fun i h1 h2 => hne i (by omega) h2)

/-- The scalar routine returns the index of the first NUL, when the type `T` holds that
index and the loop is given more tests than it. -/
theorem string_length_as_eq (T : IntegerType) (p_string : Nat → Nat) (n : Nat)
    (h0 : p_string n = 0) (hn : n ≤ T.max)
    (hne : ∀ i, i < n → p_string i ≠ 0) (fuel : Nat) (hf : n < fuel) :
    string_length_as T p_string fuel 0 = some n :=
  string_length_as_step T p_string n h0 hn n fuel 0 (by omega) hf (fun i _ h => hne i h)

/-- With no more tests than the index of the first NUL the loop has not returned. -/
theorem string_length_as_none (T : IntegerType) (p_string : Nat → Nat) (n : Nat)
    (hn : n ≤ T.max) (hne : ∀ i, i < n → p_string i ≠ 0) :
    ∀ (fuel result : Nat), result + fuel ≤ n →
      string_length_as T p_string fuel result = none := by
  intro fuel
  induction fuel with
  | zero =>
    intro result _
    rfl
  | succ f ih =>
    intro result hr
    rw [string_length_as, if_pos (hne result (by omega)),
      if_pos (show result < T.max by omega)]
    exact ih (result + 1) (by omega)

/-- When no character at an index up to `T.max` is NUL, the loop never returns: the counter
of an unsigned `T` wraps to 0 and that of a signed `T` overflows. -/
theorem string_length_as_never (T : IntegerType) (p_string : Nat → Nat)
    (hne : ∀ i, i ≤ T.max → p_string i ≠ 0) :
    ∀ (fuel result : Nat), result ≤ T.max →
      string_length_as T p_string fuel result = none := by
  intro fuel
  induction fuel with
  | zero =>
    intro result _
    rfl
  | succ f ih =>
    intro result hr
    rw [string_length_as, if_pos (hne result hr)]
    by_cases h : result < T.max
    · rw [if_pos h]
      exact ih (result + 1) (by omega)
    · rw [if_neg h]
      by_cases hs : T.signed = true
      · rw [if_pos hs]
      · rw [if_neg hs]
        exact ih 0 (by omega)

theorem load_charx16_getElem (p_string : Nat → Nat) (i : Nat)
    (h : i < (load_charx16 p_string 0).length) :
    (load_charx16 p_string 0)[i] = p_string i := by
  simp [load_charx16]

theorem load_charx16_length (p_string : Nat → Nat) (q : Nat) :
    (load_charx16 p_string q).length = 16 := by
  simp [load_charx16]

/-- The SIMD routine looks at the first 16 characters only: it returns the index of the
first NUL when that is below 16, and `sizeof(u1x16)` otherwise. -/
theorem simd_string_length_as_eq (S : Nat) (p_string : Nat → Nat) (n : Nat)
    (h0 : p_string n = 0) (hne : ∀ i, i < n → p_string i ≠ 0) :
    simd.string_length_as S p_string = if n < 16 then n else S := by
  have hlen := load_charx16_length p_string 0
  by_cases hn : n < 16
  · rw [if_pos hn]
    have hc : cmp_implicit_str_c (load_charx16 p_string 0) = true := by
      unfold cmp_implicit_str_c
      rw [List.any_eq_true]
      refine ⟨p_string n, ?_, by simp [h0]⟩
      rw [List.mem_iff_getElem]
      exact ⟨n, by omega, load_charx16_getElem p_string n (by omega)⟩
    have hi : cmp_implicit_str_i (load_charx16 p_string 0) = n := by
      unfold cmp_implicit_str_i
      rw [List.findIdx_eq (by omega)]
      constructor
      · rw [load_charx16_getElem]
        simp [h0]
      · intro j hj
        rw [load_charx16_getElem]
        simpa using hne j hj
    simp only [simd.string_length_as, hc, hi, if_true, Nat.zero_add]
  · rw [if_neg hn]
    have hc : cmp_implicit_str_c (load_charx16 p_string 0) = false := by
      unfold cmp_implicit_str_c
      rw [List.any_eq_false]
      intro x hx
      obtain ⟨i, hi, rfl⟩ := List.mem_iff_getElem.mp hx
      rw [load_charx16_getElem]
      simpa using hne i (by omega)
    simp only [simd.string_length_as, hc, Bool.false_eq_true, if_false, Nat.zero_add]

/-- C18, at the failing input: for the string of 17 characters `a` — first NUL at index
17 — the scalar routine (here with the `i4` of the test) returns 17 and the SIMD routine
returns `sizeof(u1x16)`, which is 32 with the vector template of simd.h. Whatever that size
is, the SIMD routine returns it for this string and for the string of 33 characters `a`,
for which the scalar routine returns 33, so the two routines differ on one of them. For
`Hello!`, which the test checks, both return 6. -/
theorem C18_simd_string_length_differs :
    c_string "aaaaaaaaaaaaaaaaa" 17 = 0
    ∧ (List.range 17).all (fun i => c_string "aaaaaaaaaaaaaaaaa" i != 0) = true
    ∧ string_length_as i4 (c_string "aaaaaaaaaaaaaaaaa") 18 0 = some 17
    ∧ simd.string_length_as sizeof_u1x16 (c_string "aaaaaaaaaaaaaaaaa") = 32
    ∧ (∀ S : Nat, simd.string_length_as S (c_string "aaaaaaaaaaaaaaaaa") = S)
    ∧ string_length_as i4 (c_string "aaaaaaaaaaaaaaaaaaaaaaaaaaaaaaaaa") 34 0 = some 33
    ∧ (∀ S : Nat, simd.string_length_as S (c_string "aaaaaaaaaaaaaaaaaaaaaaaaaaaaaaaaa") = S)
    ∧ string_length_as i4 (c_string "Hello!") 7 0 = some 6
    ∧ (∀ S : Nat, simd.string_length_as S (c_string "Hello!") = 6) := by
  refine ⟨by decide, by decide, by decide, by decide, fun S => ?_, by decide, fun S => ?_,
    by decide, fun S => ?_⟩
  · exact (simd_string_length_as_eq S _ 17 (by decide) (by decide)).trans (if_neg (by decide))
  · exact (simd_string_length_as_eq S _ 33 (by decide) (by decide)).trans (if_neg (by decide))
  · exact (simd_string_length_as_eq S _ 6 (by decide) (by decide)).trans (if_pos (by decide))

/-- C32, as stated, fails for a narrow `T`. The sequence of characters `a` with its only
NUL at index 256 contains a NUL, but `string_length_as<unsigned char>` never returns on it:
the counter wraps from 255 to 0, so no number of loop tests gives a result. With
`signed char` and the NUL at index 128 the counter overflows at 127. -/
theorem C32_counterexample :
    nul_at 256 256 = 0
    ∧ (∀ i, i < 256 → nul_at 256 i ≠ 0)
    ∧ (∀ fuel, string_length_as unsigned_char (nul_at 256) fuel 0 = none)
    ∧ (¬ ∃ fuel, string_length_as unsigned_char (nul_at 256) fuel 0 = some 256)
    ∧ nul_at 128 128 = 0
    ∧ (∀ fuel, string_length_as signed_char (nul_at 128) fuel 0 = none) := by
  have hu : ∀ fuel, string_length_as unsigned_char (nul_at 256) fuel 0 = none := by
    intro fuel
    refine string_length_as_never unsigned_char (nul_at 256) ?_ fuel 0 (Nat.zero_le _)
    intro i hi
    have hi' : i ≤ 255 := hi
    unfold nul_at
    rw [if_neg (by omega)]
    decide
  refine ⟨by decide, ?_, hu, ?_, by decide, ?_⟩
  · intro i hi
    unfold nul_at
    rw [if_neg (by omega)]
    decide
  · rintro ⟨fuel, h⟩
    rw [hu fuel] at h
    exact absurd h (by simp)
  · intro fuel
    refine string_length_as_never signed_char (nul_at 128) ?_ fuel 0 (Nat.zero_le _)
    intro i hi
    have hi' : i ≤ 127 := hi
    unfold nul_at
    rw [if_neg (by omega)]
    decide

/-- C32, amended: for every integer type `T` and every character sequence that contains a
NUL at an index that `T` holds (an index up to the largest value of `T`), the scalar
`string_length_as<T>` terminates and returns the index `n` of the first NUL: the character
at index `n` is NUL and every character at an index below `n` is not. The loop returns `n`
whenever it is allowed more than `n` tests, and it returns nothing else with fewer. So
`Hello!` gives 6 and the empty string gives 0. -/
theorem C32_string_length_as_first_nul :
    (∀ (T : IntegerType) (p_string : Nat → Nat) (k : Nat), p_string k = 0 → k ≤ T.max →
      ∃ n, n ≤ k ∧ p_string n = 0 ∧ (∀ i, i < n → p_string i ≠ 0)
        ∧ (∀ fuel, n < fuel → string_length_as T p_string fuel 0 = some n)
        ∧ (∀ fuel r, string_length_as T p_string fuel 0 = some r → r = n))
    ∧ (∀ T : IntegerType, 6 ≤ T.max → string_length_as T (c_string "Hello!") 7 0 = some 6)
    ∧ (∀ T : IntegerType, string_length_as T (c_string "") 1 0 = some 0) := by
  refine ⟨?_, ?_, ?_⟩
  · intro T p_string k hk hkT
    have hex : ∃ n, p_string n = 0 := ⟨k, hk⟩
    have hle : Nat.find hex ≤ k := Nat.find_min' hex hk
    refine ⟨Nat.find hex, hle, Nat.find_spec hex, fun i hi => Nat.find_min hex hi, ?_, ?_⟩
    · intro fuel hf
      exact string_length_as_eq T p_string _ (Nat.find_spec hex) (by omega)
        (fun i hi => Nat.find_min hex hi) fuel hf
    · intro fuel r hr
      by_cases hf : Nat.find hex < fuel
      · have := string_length_as_eq T p_string _ (Nat.find_spec hex) (by omega)
          (fun i hi => Nat.find_min hex hi) fuel hf
        rw [this] at hr
        exact (Option.some.inj hr).symm
      · have := string_length_as_none T p_string (Nat.find hex) (by omega)
          (fun i hi => Nat.find_min hex hi) fuel 0 (by omega)
        rw [this] at hr
        exact absurd hr (by simp)
  · intro T hT
    exact string_length_as_eq T _ 6 (by decide) hT (by decide) 7 (by decide)
  · intro T
    exact string_length_as_eq T _ 0 (by decide) (Nat.zero_le _) (by decide) 1 (by decide)

theorem C32_witness :
    (c_string "Hello!" 9 = 0 ∧ 9 ≤ i4.max)
    ∧ ∃ n, n ≤ 9 ∧ c_string "Hello!" n = 0 ∧ (∀ i, i < n → c_string "Hello!" i ≠ 0)
        ∧ (∀ fuel, n < fuel → string_length_as i4 (c_string "Hello!") fuel 0 = some n)
        ∧ (∀ fuel r, string_length_as i4 (c_string "Hello!") fuel 0 = some r → r = n) :=
  ⟨⟨by decide, by decide⟩,
    C32_string_length_as_first_nul.1 i4 (c_string "Hello!") 9 (by decide) (by decide)⟩

/-! ## Copying memory -/

/-- The memory after the first `i` bytes have been copied. -/
theorem copy_memory_loop (p_source p_destination : Nat) (bytes : Int) (m : Nat → Nat)
    (hdisj : ∀ i j : Nat, (i : Int) < bytes → (j : Int) < bytes →
      p_source + i ≠ p_destination + j) (k : Nat) :
    ∀ (fuel i : Nat), i + k = bytes.toNat → k < fuel →
      copy_memory p_source p_destination bytes fuel i
          (fun a => if p_destination ≤ a ∧ a < p_destination + i
            then m (p_source + (a - p_destination)) else m a)
        = some (fun a => if p_destination ≤ a ∧ a < p_destination + bytes.toNat
            then m (p_source + (a - p_destination)) else m a) := by
  induction k with
  | zero =>
    intro fuel i hi hf
    obtain ⟨f, rfl⟩ : ∃ f, fuel = f + 1 := ⟨fuel - 1, by omega⟩
    rw [copy_memory, if_neg (by omega)]
    have : i = bytes.toNat := by omega
    rw [this]
  | succ k ih =>
    intro fuel i hi hf
    obtain ⟨f, rfl⟩ : ∃ f, fuel = f + 1 := ⟨fuel - 1, by omega⟩
    have hib : (i : Int) < bytes := by omega
    rw [copy_memory, if_pos hib]
    have hstep : store (fun a => if p_destination ≤ a ∧ a < p_destination + i
          then m (p_source + (a - p_destination)) else m a) (p_destination + i)
          ((fun a => if p_destination ≤ a ∧ a < p_destination + i
            then m (p_source + (a - p_destination)) else m a) (p_source + i))
        = (fun a => if p_destination ≤ a ∧ a < p_destination + (i + 1)
            then m (p_source + (a - p_destination)) else m a) := by
      funext a
      simp only [store]
      have hsrc : ¬ (p_destination ≤ p_source + i ∧ p_source + i < p_destination + i) := by
        intro h
        exact hdisj i (p_source + i - p_destination) hib (by omega) (by omega)
      rw [if_neg hsrc]
      by_cases ha : a = p_destination + i
      · subst ha
        rw [if_pos rfl, if_pos (by omega), Nat.add_sub_cancel_left]
      · rw [if_neg ha]
        by_cases hr : p_destination ≤ a ∧ a < p_destination + i
        · rw [if_pos hr, if_pos (by omega)]
        · rw [if_neg hr, if_neg (by omega)]
    rw [hstep]
    exact ih f (i + 1) (by omega) (by omega)

/-- C33: for every byte count `n` and non-overlapping source and destination, after
`std::copy_memory(source, destination, n)` `destination[i] = source[i]` for every
`0 ≤ i < n` (the source bytes being those from before the call) and every destination
byte at index `≥ n`, as every byte below the destination, is unchanged; for `n ≤ 0` the
memory is unchanged. The loop ends after `n + 1` tests. -/
theorem C33_copy_memory (p_source p_destination : Nat) (bytes : Int) (m : Nat → Nat)
    (hdisj : ∀ i j : Nat, (i : Int) < bytes → (j : Int) < bytes →
      p_source + i ≠ p_destination + j) :
    ∃ m1, (∀ fuel, bytes.toNat < fuel →
        copy_memory p_source p_destination bytes fuel 0 m = some m1)
      ∧ (∀ i : Nat, (i : Int) < bytes →
          m1 (p_destination + i) = m1 (p_source + i) ∧ m1 (p_source + i) = m (p_source + i))
      ∧ (∀ j : Nat, bytes ≤ (j : Int) → m1 (p_destination + j) = m (p_destination + j))
      ∧ (∀ a : Nat, a < p_destination → m1 a = m a)
      ∧ (bytes ≤ 0 → m1 = m) := by
  have h0 : (fun a => if p_destination ≤ a ∧ a < p_destination + 0
      then m (p_source + (a - p_destination)) else m a) = m := by
    funext a
    rw [if_neg (by omega)]
  refine ⟨fun a => if p_destination ≤ a ∧ a < p_destination + bytes.toNat
      then m (p_source + (a - p_destination)) else m a, ?_, ?_, ?_, ?_, ?_⟩
  · intro fuel hf
    have := copy_memory_loop p_source p_destination bytes m hdisj bytes.toNat fuel 0
      (by omega) hf
    rw [h0] at this
    exact this
  · intro i hi
    have hs : ¬ (p_destination ≤ p_source + i ∧ p_source + i < p_destination + bytes.toNat) := by
      intro h
      exact hdisj i (p_source + i - p_destination) hi (by omega) (by omega)
    simp only
    rw [if_pos (by omega), if_neg hs, Nat.add_sub_cancel_left]
    exact ⟨rfl, rfl⟩
  · intro j hj
    simp only
    rw [if_neg (by omega)]
  · intro a ha
    simp only
    rw [if_neg (by omega)]
  · intro hb
    funext a
    rw [if_neg (by omega)]

theorem C33_witness :
    (∀ i j : Nat, (i : Int) < 3 → (j : Int) < 3 → 100 + i ≠ 200 + j)
    ∧ ∃ m1, (∀ fuel, (3 : Int).toNat < fuel →
        copy_memory 100 200 3 fuel 0 (fun a => a % 7) = some m1)
      ∧ (∀ i : Nat, (i : Int) < 3 →
          m1 (200 + i) = m1 (100 + i) ∧ m1 (100 + i) = (fun a => a % 7) (100 + i))
      ∧ (∀ j : Nat, (3 : Int) ≤ (j : Int) → m1 (200 + j) = (fun a => a % 7) (200 + j))
      ∧ (∀ a : Nat, a < 200 → m1 a = (fun a => a % 7) a)
      ∧ ((3 : Int) ≤ 0 → m1 = (fun a => a % 7)) :=
  have h : ∀ i j : Nat, (i : Int) < 3 → (j : Int) < 3 → 100 + i ≠ 200 + j := by
    intro i j hi hj
    omega
  ⟨h, C33_copy_memory 100 200 3 (fun a => a % 7) h⟩

set_option maxRecDepth 100000 in
/-- C34, at failing inputs. The source is the 256 bytes `0, 1, …, 255` at address 8192 and
the destination, all zero before the call, is at the 32-byte-aligned address 4096. After
`simd::copy_memory(source, destination, 256)` the first 32 destination bytes are the source
bytes 224..255, not 0..31: the scalar copy is followed by the vector path, whose store loop
writes all eight vectors to the start of the destination. After
`simd::copy_memory(source, destination, 1)` the destination bytes 1..31 are changed: the
32-byte head store runs for every byte count. -/
theorem C34_simd_copy_memory_diverges :
    ((simd.copy_memory 8192 4096 256 300 (ramp 8192 256)).map
        (fun m1 => (List.range 32).map (fun i => m1 (4096 + i)))
      = some ((List.range 32).map (fun i => 224 + i))
      ∧ (List.range 32).map (fun i => ramp 8192 256 (8192 + i)) = List.range 32)
    ∧ ((simd.copy_memory 8192 4096 1 300 (ramp 8192 256)).map
        (fun m1 => (List.range 32).map (fun i => m1 (4096 + i)))
      = some (List.range 32)
      ∧ (List.range 32).map (fun i => ramp 8192 256 (4096 + i)) = List.replicate 32 0) := by
  decide

/-- C35, at the failing input: on the ok `Result` that holds 5, `or_return(7)` returns 7.
The body of `or_return` is `return in_data;`, so the fallback is returned whatever the
`Result` holds. -/
theorem C35_or_return_ignores_value :
    (Result.of_data (5 : Int)).is_ok = true
    ∧ (Result.of_data (5 : Int)).data = some 5
    ∧ (Result.of_data (5 : Int)).or_return 7 = 7
    ∧ (Result.of_data (5 : Int)).or_return 7 ≠ 5
    ∧ (∀ (α : Type) (r : Result α) (d : α), r.or_return d = d) := by
  refine ⟨rfl, rfl, rfl, by decide, fun _ _ _ => rfl⟩

end Cat
